import Mathlib

/-!
Shallow embedding of the PromQL validation tooling
(`promql-validator/scripts/validate_syntax.py`,
`promql-validator/scripts/check_best_practices.py`) and of the structural
validation of the Azure Pipelines validator
(`azure-pipelines-validator/scripts/validate_syntax.py`).

Queries are represented as `List Char`; the regex-based checks of the Python
source are translated into explicit character scanners with the same
match semantics (leftmost search, greedy repetition with backtracking where
the follow set overlaps the repeated class, word boundaries tracked via the
previous character).
-/

namespace PromQL

/-- Python `str.strip` whitespace set. -/
def isPySpace (c : Char) : Bool :=
  c = ' ' || c = '\t' || c = '\n' || c = '\r' || c = '\x0b' || c = '\x0c'

/-- Python `str.strip()` on a character list. -/
def pyStrip (l : List Char) : List Char :=
  ((l.dropWhile isPySpace).reverse.dropWhile isPySpace).reverse

/-- Regex `\w`: `[a-zA-Z0-9_]`. -/
def isWordChar (c : Char) : Bool := c.isAlpha || c.isDigit || c = '_'

/-- First character of `METRIC_NAME_PATTERN = [a-zA-Z_:][a-zA-Z0-9_:]*`. -/
def isMetricStart (c : Char) : Bool := c.isAlpha || c = '_' || c = ':'

/-- Later characters of `METRIC_NAME_PATTERN`. -/
def isMetricChar (c : Char) : Bool := c.isAlpha || c.isDigit || c = '_' || c = ':'

/-- `str.lower` on an ASCII character (Python `str.lower()` restricted to
the ASCII letters, the only case-carrying characters in the queries). -/
def lowerChar (c : Char) : Char :=
  match c with
  | 'A' => 'a' | 'B' => 'b' | 'C' => 'c' | 'D' => 'd' | 'E' => 'e' | 'F' => 'f'
  | 'G' => 'g' | 'H' => 'h' | 'I' => 'i' | 'J' => 'j' | 'K' => 'k' | 'L' => 'l'
  | 'M' => 'm' | 'N' => 'n' | 'O' => 'o' | 'P' => 'p' | 'Q' => 'q' | 'R' => 'r'
  | 'S' => 's' | 'T' => 't' | 'U' => 'u' | 'V' => 'v' | 'W' => 'w' | 'X' => 'x'
  | 'Y' => 'y' | 'Z' => 'z' | c => c

def lowerStr (l : List Char) : List Char := l.map lowerChar

/-- Python substring containment `needle in haystack`. -/
def containsSub (needle : List Char) : List Char → Bool
  | [] => needle.isPrefixOf ([] : List Char)
  | c :: cs => needle.isPrefixOf (c :: cs) || containsSub needle cs

/-- `\b` immediately before the character `c`, given the previous character
(`none` at the start of the string). -/
def wordBoundary (prev : Option Char) (c : Char) : Bool :=
  (match prev with
   | none => false
   | some p => isWordChar p) != isWordChar c

/-- A validation finding of the syntax validator: one of the dicts appended
to `self.errors` / `self.warnings`. -/
structure SFinding where
  ftype : String
  message : String
  severity : String
  position : Option Nat := none
  hint : Option String := none
deriving DecidableEq

/-- Result dict of `PromQLSyntaxValidator._build_result`. -/
structure VResult where
  status : String
  query : String
  errors : List SFinding
  warnings : List SFinding
  valid : Bool
deriving DecidableEq

/-- `PromQLSyntaxValidator._build_result`. -/
def buildResult (q : List Char) (errors warnings : List SFinding) : VResult :=
  let hasErrors : Bool := decide (errors.length > 0)
  let hasWarnings : Bool := decide (warnings.length > 0)
  { status := if hasErrors then "ERROR" else if hasWarnings then "WARNING" else "VALID"
    query := String.mk q
    errors := errors
    warnings := warnings
    valid := !hasErrors }

/-! ### `_check_balanced_delimiters` -/

def unmatchedBracket (i : Nat) : SFinding :=
  { ftype := "unmatched_bracket"
    message := "Unmatched closing bracket at position " ++ toString i
    position := some i, severity := "error" }

def unmatchedBrace (i : Nat) : SFinding :=
  { ftype := "unmatched_brace"
    message := "Unmatched closing brace at position " ++ toString i
    position := some i, severity := "error" }

def unmatchedParen (i : Nat) : SFinding :=
  { ftype := "unmatched_paren"
    message := "Unmatched closing parenthesis at position " ++ toString i
    position := some i, severity := "error" }

def unclosedString : SFinding :=
  { ftype := "unclosed_string", message := "Unclosed string literal"
    severity := "error" }

def unclosedBracket (i : Nat) : SFinding :=
  { ftype := "unclosed_bracket"
    message := "Unclosed bracket at position " ++ toString i
    position := some i, severity := "error" }

def unclosedBrace (i : Nat) : SFinding :=
  { ftype := "unclosed_brace"
    message := "Unclosed brace at position " ++ toString i
    position := some i, severity := "error" }

def unclosedParen (i : Nat) : SFinding :=
  { ftype := "unclosed_paren"
    message := "Unclosed parenthesis at position " ++ toString i
    position := some i, severity := "error" }

/-- Loop state of `_check_balanced_delimiters`: the three opener-position
stacks (`list.append`/`pop`, most recent first), the string/escape flags and
the errors appended so far. -/
structure BalState where
  brackets : List Nat
  braces : List Nat
  parens : List Nat
  inString : Bool
  escapeNext : Bool
  errs : List SFinding
deriving DecidableEq

def balInit : BalState := ⟨[], [], [], false, false, []⟩

/-- One iteration of the `for i, char in enumerate(self.query)` loop. -/
def balStep (st : BalState) (i : Nat) (c : Char) : BalState :=
  if st.escapeNext then { st with escapeNext := false }
  else if c = '\\' then { st with escapeNext := true }
  else if c = '"' then { st with inString := !st.inString }
  else if st.inString then st
  else if c = '[' then { st with brackets := i :: st.brackets }
  else if c = ']' then
    match st.brackets with
    | [] => { st with errs := st.errs ++ [unmatchedBracket i] }
    | _ :: t => { st with brackets := t }
  else if c = '{' then { st with braces := i :: st.braces }
  else if c = '}' then
    match st.braces with
    | [] => { st with errs := st.errs ++ [unmatchedBrace i] }
    | _ :: t => { st with braces := t }
  else if c = '(' then { st with parens := i :: st.parens }
  else if c = ')' then
    match st.parens with
    | [] => { st with errs := st.errs ++ [unmatchedParen i] }
    | _ :: t => { st with parens := t }
  else st

def balScan : List Char → Nat → BalState → BalState
  | [], _, st => st
  | c :: cs, i, st => balScan cs (i + 1) (balStep st i c)

/-- The trailing error reports of `_check_balanced_delimiters` (unclosed
string, then one `unclosed_*` per non-empty stack at its most recent
position, i.e. `stack[-1]`). -/
def balFinalErrs (st : BalState) : List SFinding :=
  (if st.inString then [unclosedString] else [])
    ++ (match st.brackets with | p :: _ => [unclosedBracket p] | [] => [])
    ++ (match st.braces with | p :: _ => [unclosedBrace p] | [] => [])
    ++ (match st.parens with | p :: _ => [unclosedParen p] | [] => [])

def checkBalancedDelimiters (q : List Char) : List SFinding :=
  let st := balScan q 0 balInit
  st.errs ++ balFinalErrs st

/-! ### `_check_metric_selectors` and `_check_utf8_metric_syntax` -/

theorem dropWhile_length_le (p : Char → Bool) (l : List Char) :
    (l.dropWhile p).length ≤ l.length := by
  induction l with
  | nil => simp [List.dropWhile]
  | cons c cs ih =>
    by_cases h : p c = true
    · simp only [List.dropWhile, h]
      exact Nat.le_succ_of_le ih
    · simp only [List.dropWhile, h]
      simp

/-- Scan past the body of a string literal: the remainder of the input after
the closing quote, matching `"(?:[^"\\]|\\.)*"` from just after the opening
quote; `none` when the literal never closes.  The flag records a pending
backslash escape (`\\.`, whose `.` does not match a newline). -/
def findStringLit : Bool → List Char → Option (List Char)
  | _, [] => none
  | true, c :: rest => if c = '\n' then none else findStringLit false rest
  | false, c :: rest =>
    if c = '"' then some rest
    else if c = '\\' then findStringLit true rest
    else findStringLit false rest

theorem findStringLit_length :
    ∀ (l : List Char) (esc : Bool) (rem : List Char),
      findStringLit esc l = some rem → rem.length < l.length := by
  intro l
  induction l with
  | nil => intro esc rem h; cases esc <;> simp [findStringLit] at h
  | cons c rest ih =>
    intro esc rem h
    cases esc with
    | true =>
      simp only [findStringLit] at h
      by_cases hn : c = '\n'
      · simp [hn] at h
      · simp only [hn, if_false] at h
        have := ih false rem h
        simp
        omega
    | false =>
      simp only [findStringLit] at h
      by_cases hq : c = '"'
      · simp only [hq, if_true] at h
        cases h
        simp
      · by_cases hb : c = '\\'
        · simp only [hq, hb, if_false, if_true] at h
          have := ih true rem h
          simp
          omega
        · simp only [hq, hb, if_false] at h
          have := ih false rem h
          simp
          omega

/-- `re.sub(r'"(?:[^"\\]|\\.)*"', '""', query)`, with structural fuel (the
scan consumes at least one character per step, so `l.length + 1` fuel is
always enough). -/
def replaceStringsF : Nat → List Char → List Char
  | 0, _ => []
  | _ + 1, [] => []
  | fuel + 1, c :: rest =>
    if c = '"' then
      (match findStringLit false rest with
       | some rem => '"' :: '"' :: replaceStringsF fuel rem
       | none => '"' :: replaceStringsF fuel rest)
    else c :: replaceStringsF fuel rest

def replaceStrings (l : List Char) : List Char := replaceStringsF (l.length + 1) l

/-- `re.search(r'\{\s*\}', ...)`. -/
def searchEmptyMatcher : List Char → Bool
  | [] => false
  | c :: cs =>
    if c = '{' then ((cs.dropWhile isPySpace).head? == some '}') || searchEmptyMatcher cs
    else searchEmptyMatcher cs

/-- The captured names of `re.finditer(r'\{\s*"([^"]+)"', query)`, in order
(structural fuel, `l.length + 1` always suffices). -/
def extractUtf8NamesF : Nat → List Char → List (List Char)
  | 0, _ => []
  | _ + 1, [] => []
  | fuel + 1, c :: cs =>
    if c = '{' then
      (match cs.dropWhile isPySpace with
       | '"' :: l2 =>
         (match l2.dropWhile (fun c => !(c = '"')) with
          | '"' :: rem =>
            if (l2.takeWhile (fun c => !(c = '"'))).isEmpty then extractUtf8NamesF fuel cs
            else l2.takeWhile (fun c => !(c = '"')) :: extractUtf8NamesF fuel rem
          | _ => extractUtf8NamesF fuel cs)
       | _ => extractUtf8NamesF fuel cs)
    else extractUtf8NamesF fuel cs

def extractUtf8Names (l : List Char) : List (List Char) :=
  extractUtf8NamesF (l.length + 1) l

/-- `re.fullmatch(METRIC_NAME_PATTERN, name)`. -/
def isClassicMetricName (l : List Char) : Bool :=
  match l with
  | [] => false
  | c :: cs => isMetricStart c && cs.all isMetricChar

def utf8UnnecessaryQuoting (name : List Char) : SFinding :=
  { ftype := "utf8_metric_unnecessary_quoting"
    message := "Metric name \"" ++ String.mk name ++
      "\" uses UTF-8 quoting but is valid in classic format"
    severity := "info" }

def emptyQuotedMetric : SFinding :=
  { ftype := "invalid_utf8_metric"
    message := "Empty quoted metric name in UTF-8 selector"
    severity := "error" }

def nullCharMetric (name : List Char) : SFinding :=
  { ftype := "invalid_utf8_metric"
    message := "Metric name \"" ++ String.mk name ++ "\" contains null character"
    severity := "error" }

def utf8NameErrors (name : List Char) : List SFinding :=
  if isClassicMetricName name then []
  else if (pyStrip name).isEmpty then [emptyQuotedMetric]
  else if name.contains '\x00' then [nullCharMetric name]
  else []

def utf8NameWarnings (name : List Char) : List SFinding :=
  if isClassicMetricName name then [utf8UnnecessaryQuoting name] else []

def emptyLabelMatcher : SFinding :=
  { ftype := "empty_label_matcher"
    message := "Empty label matcher \x7b\x7d found - this may match many time series"
    severity := "warning" }

/-- Character class `[a-zA-Z0-9_.]` of the suspicious-label pattern. -/
def isDotClass (c : Char) : Bool := c.isAlpha || c.isDigit || c = '_' || c = '.'

/-- `[a-zA-Z_]`. -/
def isAsciiIdentStart (c : Char) : Bool := c.isAlpha || c = '_'

/-- Whether a `'.'` occurs at a non-final position, as required by
`[a-zA-Z0-9_.]*\.[a-zA-Z0-9_.]+` inside a run of `isDotClass` characters. -/
def dotNotLast : List Char → Bool
  | '.' :: _ :: _ => true
  | _ :: cs => dotNotLast cs
  | [] => false

/-- Captured names of
`re.finditer(r'\{\s*([a-zA-Z_][a-zA-Z0-9_.]*\.[a-zA-Z0-9_.]+)\s*=', query)`
(structural fuel, `l.length + 1` always suffices). -/
def extractWrongUtf8F : Nat → List Char → List (List Char)
  | 0, _ => []
  | _ + 1, [] => []
  | fuel + 1, c0 :: cs =>
    if c0 = '{' then
      (match cs.dropWhile isPySpace with
       | c :: l2 =>
         if isAsciiIdentStart c then
           (match (l2.dropWhile isDotClass).dropWhile isPySpace with
            | '=' :: rem =>
              if dotNotLast (l2.takeWhile isDotClass) then
                (c :: l2.takeWhile isDotClass) :: extractWrongUtf8F fuel rem
              else extractWrongUtf8F fuel cs
            | _ => extractWrongUtf8F fuel cs)
         else extractWrongUtf8F fuel cs
       | _ => extractWrongUtf8F fuel cs)
    else extractWrongUtf8F fuel cs

def extractWrongUtf8 (l : List Char) : List (List Char) :=
  extractWrongUtf8F (l.length + 1) l

def possibleUtf8Warning (name : List Char) : SFinding :=
  { ftype := "possible_utf8_syntax_error"
    message := "Label name \"" ++ String.mk name ++
      "\" contains dots - did you mean to use UTF-8 metric syntax?"
    severity := "warning"
    hint := some ("For UTF-8 metric names use: \x7b\"" ++ String.mk name ++ "\"\x7d") }

/-- `_check_metric_selectors` (which calls `_check_utf8_metric_syntax`):
returns the errors and warnings it appends, in append order. -/
def checkMetricSelectors (q : List Char) : List SFinding × List SFinding :=
  let qNoStrings := replaceStrings q
  let w1 := if searchEmptyMatcher qNoStrings then [emptyLabelMatcher] else []
  let names := extractUtf8Names q
  let e2 := names.flatMap utf8NameErrors
  let w2 := names.flatMap utf8NameWarnings
  let w3 := (extractWrongUtf8 q).flatMap fun name =>
    if name.contains '.' then [possibleUtf8Warning name] else []
  (e2, w1 ++ w2 ++ w3)

/-! ### `_check_time_ranges` -/

/-- `re.fullmatch(DURATION_PATTERN, s)` with
`DURATION_PATTERN = \d+(?:ms|s|m|h|d|w|y)`. -/
def isDuration (l : List Char) : Bool :=
  let digits := l.takeWhile Char.isDigit
  let rest := l.dropWhile Char.isDigit
  !digits.isEmpty &&
    (rest = ['m', 's'] || rest = ['s'] || rest = ['m'] || rest = ['h'] ||
     rest = ['d'] || rest = ['w'] || rest = ['y'])

/-- Python `str.split(':')`. -/
def splitColon : List Char → List (List Char)
  | [] => [[]]
  | c :: cs =>
    if c = ':' then [] :: splitColon cs
    else
      match splitColon cs with
      | h :: t => (c :: h) :: t
      | [] => [[c]]

/-- The captured spans of `re.findall(r'\[([^\]]+)\]', query)`, in order
(structural fuel, `l.length + 1` always suffices). -/
def extractRangesF : Nat → List Char → List (List Char)
  | 0, _ => []
  | _ + 1, [] => []
  | fuel + 1, c :: cs =>
    if c = '[' then
      (match cs.dropWhile (fun d => !(d = ']')) with
       | _ :: rem =>
         if (cs.takeWhile (fun d => !(d = ']'))).isEmpty then extractRangesF fuel cs
         else cs.takeWhile (fun d => !(d = ']')) :: extractRangesF fuel rem
       | [] => extractRangesF fuel cs)
    else extractRangesF fuel cs

def extractRanges (l : List Char) : List (List Char) := extractRangesF (l.length + 1) l

def invalidSubquery (s : List Char) : SFinding :=
  { ftype := "invalid_subquery"
    message := "Invalid subquery syntax: [" ++ String.mk s ++ "]"
    severity := "error" }

def invalidDurationRange (part : List Char) : SFinding :=
  { ftype := "invalid_duration"
    message := "Invalid duration in subquery range: " ++ String.mk part
    severity := "error" }

def invalidDurationResolution (part : List Char) : SFinding :=
  { ftype := "invalid_duration"
    message := "Invalid duration in subquery resolution: " ++ String.mk part
    severity := "error" }

def invalidDurationPlain (s : List Char) : SFinding :=
  { ftype := "invalid_duration"
    message := "Invalid duration syntax: " ++ String.mk s ++
      ". Expected format like 5m, 1h, 7d"
    severity := "error" }

/-- Body of the `for range_str in ranges` loop of `_check_time_ranges`. -/
def validateSpan (raw : List Char) : List SFinding :=
  let s := pyStrip raw
  if s.contains ':' then
    let parts := splitColon s
    if parts.length > 2 then [invalidSubquery s]
    else
      let rangePart := pyStrip (parts.getD 0 [])
      let resolutionPart := if parts.length > 1 then pyStrip (parts.getD 1 []) else []
      (if !rangePart.isEmpty && !isDuration rangePart then
        [invalidDurationRange rangePart] else [])
      ++ (if !resolutionPart.isEmpty && !isDuration resolutionPart then
        [invalidDurationResolution resolutionPart] else [])
  else if !isDuration s then [invalidDurationPlain s] else []

def checkTimeRanges (q : List Char) : List SFinding :=
  (extractRanges q).flatMap validateSpan

/-! ### `_check_function_syntax` -/

def FUNCTIONS : List String :=
  ["sum", "min", "max", "avg", "group", "stddev", "stdvar", "count", "count_values",
   "bottomk", "topk", "quantile",
   "limitk", "limit_ratio",
   "rate", "irate", "increase", "delta", "idelta", "deriv",
   "timestamp", "time", "minute", "hour", "day_of_month", "day_of_week",
   "days_in_month", "month", "year",
   "abs", "ceil", "floor", "round", "sqrt", "exp", "ln", "log2", "log10",
   "sin", "cos", "tan", "asin", "acos", "atan", "sinh", "cosh", "tanh",
   "asinh", "acosh", "atanh", "deg", "rad", "sgn", "clamp", "clamp_max", "clamp_min",
   "histogram_quantile", "histogram_count", "histogram_sum", "histogram_fraction",
   "histogram_avg", "histogram_stddev", "histogram_stdvar",
   "label_replace", "label_join",
   "changes", "resets", "avg_over_time", "min_over_time", "max_over_time",
   "sum_over_time", "count_over_time", "quantile_over_time", "stddev_over_time",
   "stdvar_over_time", "last_over_time", "present_over_time", "mad_over_time",
   "predict_linear",
   "holt_winters",
   "double_exponential_smoothing",
   "sort", "sort_desc", "sort_by_label", "sort_by_label_desc",
   "absent", "absent_over_time", "scalar", "vector",
   "info",
   "pi"]

def NON_FUNCTION_KEYWORDS : List String :=
  ["by", "without", "on", "ignoring", "group_left", "group_right", "bool"]

/-- `[a-z_]` under `re.IGNORECASE`. -/
def isFuncStart (c : Char) : Bool := c.isAlpha || c = '_'

/-- `[a-z0-9_]` under `re.IGNORECASE`. -/
def isFuncChar (c : Char) : Bool := c.isAlpha || c.isDigit || c = '_'

/-- The captured identifiers of
`re.findall(r'([a-z_][a-z0-9_]*)\s*\(', query, re.IGNORECASE)`, in order:
each maximal identifier run that is followed (after optional whitespace) by
`'('`. -/
def extractCallsF : Nat → List Char → List (List Char)
  | 0, _ => []
  | _ + 1, [] => []
  | fuel + 1, c :: cs =>
    if isFuncStart c then
      (match (cs.dropWhile isFuncChar).dropWhile isPySpace with
       | '(' :: rest2 => (c :: cs.takeWhile isFuncChar) :: extractCallsF fuel rest2
       | _ => extractCallsF fuel (cs.dropWhile isFuncChar))
    else extractCallsF fuel cs

def extractCalls (l : List Char) : List (List Char) := extractCallsF (l.length + 1) l

/-! ### `_levenshtein_distance` and `_find_close_matches` -/

/-- Inner loop of `_levenshtein_distance`: build the tail of `current_row`
given `s2`'s remaining characters, the matching suffix of `previous_row`
(starting at index `j`) and the last value appended to `current_row`. -/
def levRowAux (c1 : Char) : List Char → List Nat → Nat → List Nat
  | [], _, _ => []
  | _ :: _, [], _ => []
  | _ :: _, [_], _ => []
  | c2 :: cs, p0 :: p1 :: ps, cur =>
    let ins := p1 + 1
    let del := cur + 1
    let sub := p0 + (if c1 = c2 then 0 else 1)
    let v := min ins (min del sub)
    v :: levRowAux c1 cs (p1 :: ps) v

/-- `current_row` for character `c1` of `s1` at row index `i`. -/
def levRow (c1 : Char) (s2 : List Char) (prev : List Nat) (i : Nat) : List Nat :=
  (i + 1) :: levRowAux c1 s2 prev (i + 1)

/-- Outer loop of `_levenshtein_distance`. -/
def levRows (s2 : List Char) : List Char → List Nat → Nat → List Nat
  | [], prev, _ => prev
  | c1 :: cs, prev, i => levRows s2 cs (levRow c1 s2 prev i) (i + 1)

/-- `_levenshtein_distance` for `len(s1) >= len(s2)` (below the swap). -/
def levAux (s1 s2 : List Char) : Nat :=
  if s2.length = 0 then s1.length
  else (levRows s2 s1 (List.range (s2.length + 1)) 0).getLastD 0

/-- `PromQLSyntaxValidator._levenshtein_distance`. -/
def levenshtein (s1 s2 : List Char) : Nat :=
  if s1.length < s2.length then levAux s2 s1 else levAux s1 s2

/-- `PromQLSyntaxValidator._find_close_matches` (the Python code iterates a
`set`; the candidate order here is the textual order of the `FUNCTIONS`
literal). -/
def findCloseMatches (word : List Char) (candidates : List (List Char))
    (maxDistance : Nat := 2) : List (List Char) :=
  (candidates.filter fun cand =>
     decide (((word.length : Int) - (cand.length : Int)).natAbs ≤ maxDistance) &&
     decide (levenshtein word cand ≤ maxDistance)).take 3

def joinCommaSpace : List String → String
  | [] => ""
  | [s] => s
  | s :: rest => s ++ ", " ++ joinCommaSpace rest

/-- Body of the `for func in functions` loop of `_check_function_syntax`:
the error appended for this identifier, if any. -/
def classifyCall (run : List Char) : Option SFinding :=
  let funcLower := String.mk (lowerStr run)
  if NON_FUNCTION_KEYWORDS.contains funcLower then none
  else if FUNCTIONS.contains funcLower then none
  else
    let closeMatches := findCloseMatches (lowerStr run) (FUNCTIONS.map String.data)
    if !closeMatches.isEmpty then
      some { ftype := "unknown_function"
             message := "Unknown function: " ++ String.mk run ++ ". Did you mean: " ++
               joinCommaSpace (closeMatches.map String.mk) ++ "?"
             severity := "error" }
    else
      some { ftype := "unknown_function"
             message := "Unknown function: " ++ String.mk run
             severity := "error" }

def checkFunctionSyntax (q : List Char) : List SFinding :=
  (extractCalls q).filterMap classifyCall

/-! ### `_check_operators` -/

def isArithOp (c : Char) : Bool := c = '+' || c = '-' || c = '*' || c = '/'

/-- `re.search(r'[+\-*/]{2,}', query)`. -/
def hasDoubleOp : List Char → Bool
  | [] => false
  | [_] => false
  | a :: b :: rest => (isArithOp a && isArithOp b) || hasDoubleOp (b :: rest)

def doubleOperator : SFinding :=
  { ftype := "double_operator"
    message := "Found consecutive operators - this might be a typo"
    severity := "warning" }

/-! ### `_check_common_typos` -/

def RATE_NAMES : List (List Char) :=
  ["rate".data, "irate".data, "increase".data, "delta".data, "idelta".data]

/-- `\s*(?:\{[^}]*\})?\s*\)` (tail of the missing-range-vector pattern after
the metric name). -/
def matchRateClose (l : List Char) : Bool :=
  let l6 := l.dropWhile isPySpace
  match l6 with
  | '{' :: rest =>
    match rest.dropWhile (fun c => !(c = '}')) with
    | _ :: rest2 => (rest2.dropWhile isPySpace).head? == some ')'
    | [] => false
  | _ => l6.head? == some ')'

/-- `\s*\(\s*[a-zA-Z_:][a-zA-Z0-9_:]*\s*(?:\{[^}]*\})?\s*\)` (the pattern
after one of the rate-family names). -/
def matchRateTail (l : List Char) : Bool :=
  match l.dropWhile isPySpace with
  | '(' :: l2 =>
    match l2.dropWhile isPySpace with
    | c :: l4 =>
      if isMetricStart c then matchRateClose (l4.dropWhile isMetricChar)
      else false
    | [] => false
  | _ => false

/-- A match of `(rate|irate|increase|delta|idelta)\s*\(...\)` starting
exactly at the head of `l`. -/
def matchRateAt (l : List Char) : Bool :=
  RATE_NAMES.any fun name => name.isPrefixOf l && matchRateTail (l.drop name.length)

/-- `re.search(r'\b(rate|irate|increase|delta|idelta)\s*\(...\)', query)`. -/
def searchRate : Option Char → List Char → Bool
  | _, [] => false
  | prev, c :: cs => (wordBoundary prev c && matchRateAt (c :: cs)) || searchRate (some c) cs

def missingRangeVector : SFinding :=
  { ftype := "missing_range_vector"
    message := "rate(), irate(), increase(), delta(), and idelta() require a range vector [duration]"
    severity := "error" }

def isOffsetUnit (c : Char) : Bool :=
  c = 's' || c = 'm' || c = 'h' || c = 'd' || c = 'w' || c = 'y'

/-- `\boffset\s+\d+[smhdwy]\s*\[` matched at the head of `l` (on the
lowercased query, which realizes `re.IGNORECASE`). -/
def matchMisplacedOffsetAt (l : List Char) : Bool :=
  "offset".data.isPrefixOf l &&
    (let l1 := l.drop 6
     let l2 := l1.dropWhile isPySpace
     !(l1.takeWhile isPySpace).isEmpty &&
       (let l3 := l2.dropWhile Char.isDigit
        !(l2.takeWhile Char.isDigit).isEmpty &&
          match l3 with
          | u :: l4 => isOffsetUnit u && ((l4.dropWhile isPySpace).head? == some '[')
          | [] => false))

def searchMisplacedOffset : Option Char → List Char → Bool
  | _, [] => false
  | prev, c :: cs =>
    (wordBoundary prev c && matchMisplacedOffsetAt (c :: cs)) ||
      searchMisplacedOffset (some c) cs

def misplacedOffset : SFinding :=
  { ftype := "misplaced_offset"
    message := "offset modifier should come after the range vector [duration], not before it"
    severity := "error" }

def checkCommonTypos (q : List Char) : List SFinding :=
  (if searchRate none q then [missingRangeVector] else [])
  ++ (if containsSub " offset ".data (lowerStr q) then
        (if searchMisplacedOffset none (lowerStr q) then [misplacedOffset] else [])
      else [])

/-- Final loop state of `_check_balanced_delimiters`. -/
def finalBalState (q : List Char) : BalState := balScan q 0 balInit

/-- The finding types reported by `_check_balanced_delimiters` for
unbalanced brackets, braces and parentheses. -/
def isDelimFinding (e : SFinding) : Bool :=
  e.ftype = "unmatched_bracket" || e.ftype = "unmatched_brace" ||
  e.ftype = "unmatched_paren" || e.ftype = "unclosed_bracket" ||
  e.ftype = "unclosed_brace" || e.ftype = "unclosed_paren"

/-! ### `validate` -/

def emptyQuery : SFinding :=
  { ftype := "empty_query", message := "Query is empty", severity := "error" }

/-- `PromQLSyntaxValidator.validate` (the constructor strips the query). -/
def validate (query : String) : VResult :=
  let q := pyStrip query.data
  if q.isEmpty then
    buildResult q [emptyQuery] []
  else
    let e1 := checkBalancedDelimiters q
    let ew := checkMetricSelectors q
    let e3 := checkTimeRanges q
    let e4 := checkFunctionSyntax q
    let w5 := if hasDoubleOp q then [doubleOperator] else []
    let e6 := checkCommonTypos q
    buildResult q (e1 ++ ew.1 ++ e3 ++ e4 ++ e6) (ew.2 ++ w5)


/-! ## Lemmas about the balanced-delimiter scan -/

theorem drop_cons_get? :
    ∀ (full : List Char) (i : Nat) (c : Char) (cs : List Char),
      full.drop i = c :: cs → full.get? i = some c ∧ full.drop (i + 1) = cs := by
  intro full
  induction full with
  | nil => intro i c cs h; simp at h
  | cons x xs ih =>
    intro i c cs h
    cases i with
    | zero =>
      simp at h
      refine ⟨?_, ?_⟩
      · simp [h.1]
      · simp [h.2]
    | succ j =>
      simp only [List.drop_succ_cons] at h
      have := ih j c cs h
      exact ⟨this.1, this.2⟩

/-- Soundness of one opener-position stack at scan index `i`: positions are
strictly descending (most recent first), below `i`, and each points at the
opener character `ch` in the query. -/
def StackOK (full : List Char) (ch : Char) (i : Nat) (stack : List Nat) : Prop :=
  stack.Pairwise (fun a b => b < a) ∧ ∀ p ∈ stack, p < i ∧ full.get? p = some ch

/-- Soundness of the errors accumulated during the scan: each is an
`unmatched_*` finding whose position carries the offending closer. -/
def ErrsOK (full : List Char) (errs : List SFinding) : Prop :=
  ∀ e ∈ errs,
    (∃ p, e = unmatchedBracket p ∧ full.get? p = some ']') ∨
    (∃ p, e = unmatchedBrace p ∧ full.get? p = some '}') ∨
    (∃ p, e = unmatchedParen p ∧ full.get? p = some ')')

def BalInv (full : List Char) (i : Nat) (st : BalState) : Prop :=
  StackOK full '[' i st.brackets ∧ StackOK full '{' i st.braces ∧
    StackOK full '(' i st.parens ∧ ErrsOK full st.errs

theorem StackOK.mono {full ch i stack} (h : StackOK full ch i stack) :
    StackOK full ch (i + 1) stack :=
  ⟨h.1, fun p hp => ⟨Nat.lt_succ_of_lt (h.2 p hp).1, (h.2 p hp).2⟩⟩

theorem StackOK.push {full ch i stack} (h : StackOK full ch i stack)
    (hc : full.get? i = some ch) : StackOK full ch (i + 1) (i :: stack) := by
  constructor
  · exact List.pairwise_cons.mpr ⟨fun b hb => (h.2 b hb).1, h.1⟩
  · intro p hp
    rcases List.mem_cons.mp hp with h0 | h0
    · subst h0; exact ⟨Nat.lt_succ_self _, hc⟩
    · exact ⟨Nat.lt_succ_of_lt (h.2 p h0).1, (h.2 p h0).2⟩

theorem StackOK.pop {full ch i p t} (h : StackOK full ch i (p :: t)) :
    StackOK full ch (i + 1) t := by
  constructor
  · exact (List.pairwise_cons.mp h.1).2
  · intro x hx
    have := h.2 x (List.mem_cons_of_mem _ hx)
    exact ⟨Nat.lt_succ_of_lt this.1, this.2⟩

theorem ErrsOK.append1 {full errs e} (h : ErrsOK full errs)
    (he : (∃ p, e = unmatchedBracket p ∧ full.get? p = some ']') ∨
      (∃ p, e = unmatchedBrace p ∧ full.get? p = some '}') ∨
      (∃ p, e = unmatchedParen p ∧ full.get? p = some ')')) :
    ErrsOK full (errs ++ [e]) := by
  intro x hx
  rcases List.mem_append.mp hx with h0 | h0
  · exact h x h0
  · rcases List.mem_singleton.mp h0 with rfl
    exact he

theorem balStep_inv {full : List Char} {i : Nat} {st : BalState} {c : Char}
    (hc : full.get? i = some c) (h : BalInv full i st) :
    BalInv full (i + 1) (balStep st i c) := by
  obtain ⟨h1, h2, h3, h4⟩ := h
  unfold balStep
  by_cases hesc : st.escapeNext = true
  · rw [if_pos hesc]
    exact ⟨h1.mono, h2.mono, h3.mono, h4⟩
  rw [if_neg hesc]
  by_cases hbs : c = '\\'
  · rw [if_pos hbs]
    exact ⟨h1.mono, h2.mono, h3.mono, h4⟩
  rw [if_neg hbs]
  by_cases hq : c = '"'
  · rw [if_pos hq]
    exact ⟨h1.mono, h2.mono, h3.mono, h4⟩
  rw [if_neg hq]
  by_cases hin : st.inString = true
  · rw [if_pos hin]
    exact ⟨h1.mono, h2.mono, h3.mono, h4⟩
  rw [if_neg hin]
  by_cases hob : c = '['
  · rw [if_pos hob]
    exact ⟨h1.push (hob ▸ hc), h2.mono, h3.mono, h4⟩
  rw [if_neg hob]
  by_cases hcb : c = ']'
  · rw [if_pos hcb]
    revert h1
    generalize st.brackets = bs
    intro h1
    cases bs with
    | nil =>
      exact ⟨h1.mono, h2.mono, h3.mono,
        h4.append1 (Or.inl ⟨i, rfl, hcb ▸ hc⟩)⟩
    | cons p t =>
      exact ⟨StackOK.pop h1, h2.mono, h3.mono, h4⟩
  rw [if_neg hcb]
  by_cases hoc : c = '{'
  · rw [if_pos hoc]
    exact ⟨h1.mono, h2.push (hoc ▸ hc), h3.mono, h4⟩
  rw [if_neg hoc]
  by_cases hcc : c = '}'
  · rw [if_pos hcc]
    revert h2
    generalize st.braces = bs
    intro h2
    cases bs with
    | nil =>
      exact ⟨h1.mono, h2.mono, h3.mono,
        h4.append1 (Or.inr (Or.inl ⟨i, rfl, hcc ▸ hc⟩))⟩
    | cons p t =>
      exact ⟨h1.mono, StackOK.pop h2, h3.mono, h4⟩
  rw [if_neg hcc]
  by_cases hop : c = '('
  · rw [if_pos hop]
    exact ⟨h1.mono, h2.mono, h3.push (hop ▸ hc), h4⟩
  rw [if_neg hop]
  by_cases hcp : c = ')'
  · rw [if_pos hcp]
    revert h3
    generalize st.parens = bs
    intro h3
    cases bs with
    | nil =>
      exact ⟨h1.mono, h2.mono, h3.mono,
        h4.append1 (Or.inr (Or.inr ⟨i, rfl, hcp ▸ hc⟩))⟩
    | cons p t =>
      exact ⟨h1.mono, h2.mono, StackOK.pop h3, h4⟩
  rw [if_neg hcp]
  exact ⟨h1.mono, h2.mono, h3.mono, h4⟩

theorem balScan_inv {full : List Char} :
    ∀ (l : List Char) (i : Nat) (st : BalState),
      full.drop i = l → BalInv full i st →
      BalInv full (i + l.length) (balScan l i st) := by
  intro l
  induction l with
  | nil => intro i st _ h; simpa [balScan] using h
  | cons c cs ih =>
    intro i st hdrop h
    obtain ⟨hc, hdrop'⟩ := drop_cons_get? full i c cs hdrop
    have := ih (i + 1) (balStep st i c) hdrop' (balStep_inv hc h)
    simp only [balScan]
    have harith : i + 1 + cs.length = i + (c :: cs).length := by simp; omega
    exact harith ▸ this

theorem finalBalState_inv (q : List Char) : BalInv q q.length (finalBalState q) := by
  have h0 : BalInv q 0 balInit := by
    refine ⟨⟨List.Pairwise.nil, ?_⟩, ⟨List.Pairwise.nil, ?_⟩, ⟨List.Pairwise.nil, ?_⟩, ?_⟩
    all_goals intro e he
    all_goals simp [balInit] at he
  have := balScan_inv q 0 balInit (by simp) h0
  simpa [finalBalState] using this

theorem buildResult_valid (q : List Char) (e w : List SFinding) :
    (buildResult q e w).valid = e.isEmpty := by
  cases e <;> simp [buildResult]

theorem buildResult_status (q : List Char) (e w : List SFinding) :
    (buildResult q e w).status =
      (if e.isEmpty then (if w.isEmpty then "VALID" else "WARNING") else "ERROR") := by
  cases e <;> cases w <;> simp [buildResult]

theorem validate_valid_eq (s : String) :
    (validate s).valid = (validate s).errors.isEmpty := by
  unfold validate
  dsimp only
  split
  · exact buildResult_valid _ _ _
  · exact buildResult_valid _ _ _

theorem validate_status_eq (s : String) :
    (validate s).status =
      (if (validate s).errors.isEmpty then
        (if (validate s).warnings.isEmpty then "VALID" else "WARNING")
       else "ERROR") := by
  unfold validate
  dsimp only
  split
  · exact buildResult_status _ _ _
  · exact buildResult_status _ _ _

theorem validate_errors_eq (s : String) (hq : ¬((pyStrip s.data).isEmpty = true)) :
    (validate s).errors =
      checkBalancedDelimiters (pyStrip s.data) ++ (checkMetricSelectors (pyStrip s.data)).1
        ++ checkTimeRanges (pyStrip s.data) ++ checkFunctionSyntax (pyStrip s.data)
        ++ checkCommonTypos (pyStrip s.data) := by
  unfold validate
  dsimp only
  rw [if_neg hq]
  rfl

theorem validate_warnings_eq (s : String) (hq : ¬((pyStrip s.data).isEmpty = true)) :
    (validate s).warnings =
      (checkMetricSelectors (pyStrip s.data)).2
        ++ (if hasDoubleOp (pyStrip s.data) then [doubleOperator] else []) := by
  unfold validate
  dsimp only
  rw [if_neg hq]
  rfl

theorem balFinalErrs_mem {st : BalState} {e : SFinding} (he : e ∈ balFinalErrs st) :
    e = unclosedString ∨
    (∃ p t, st.brackets = p :: t ∧ e = unclosedBracket p) ∨
    (∃ p t, st.braces = p :: t ∧ e = unclosedBrace p) ∨
    (∃ p t, st.parens = p :: t ∧ e = unclosedParen p) := by
  unfold balFinalErrs at he
  rcases List.mem_append.mp he with h1 | h1
  · rcases List.mem_append.mp h1 with h2 | h2
    · rcases List.mem_append.mp h2 with h3 | h3
      · by_cases hs : st.inString = true
        · rw [if_pos hs] at h3
          simp at h3
          exact Or.inl h3
        · rw [if_neg hs] at h3
          simp at h3
      · rcases hb : st.brackets with _ | ⟨p, t⟩
        all_goals try simp only [hb] at h3
        all_goals simp at h3
        exact Or.inr (Or.inl ⟨p, t, rfl, h3⟩)
    · rcases hb : st.braces with _ | ⟨p, t⟩
      all_goals try simp only [hb] at h2
      all_goals simp at h2
      exact Or.inr (Or.inr (Or.inl ⟨p, t, rfl, h2⟩))
  · rcases hb : st.parens with _ | ⟨p, t⟩
    all_goals try simp only [hb] at h1
    all_goals simp at h1
    exact Or.inr (Or.inr (Or.inr ⟨p, t, rfl, h1⟩))

theorem checkBalanced_sub_errors {s : String} {e : SFinding}
    (hq : ¬((pyStrip s.data).isEmpty = true))
    (he : e ∈ checkBalancedDelimiters (pyStrip s.data)) :
    e ∈ (validate s).errors := by
  rw [validate_errors_eq s hq]
  exact List.mem_append_left _ (List.mem_append_left _ (List.mem_append_left _
    (List.mem_append_left _ he)))

/-- C1 (amended): a query with an unmatched or unclosed delimiter yields
`valid = false` and at least one `unmatched_*`/`unclosed_*` finding; every
`unmatched_*` finding carries the position of the offending closing
delimiter, and every `unclosed_*` finding carries the position of the
innermost (maximal-position) unclosed opener of its kind. -/
theorem claim_C1_amended (s : String)
    (h : ((checkBalancedDelimiters (pyStrip s.data)).filter
        (fun e => isDelimFinding e)) ≠ []) :
    (validate s).valid = false ∧
    (∃ e ∈ (validate s).errors, isDelimFinding e = true) ∧
    (∀ e ∈ checkBalancedDelimiters (pyStrip s.data),
      e ∈ (validate s).errors ∧
      (e = unclosedString ∨
       (∃ p, e = unmatchedBracket p ∧ (pyStrip s.data).get? p = some ']') ∨
       (∃ p, e = unmatchedBrace p ∧ (pyStrip s.data).get? p = some '}') ∨
       (∃ p, e = unmatchedParen p ∧ (pyStrip s.data).get? p = some ')') ∨
       (∃ p, e = unclosedBracket p ∧ (pyStrip s.data).get? p = some '[' ∧
          ∀ p' ∈ (finalBalState (pyStrip s.data)).brackets, p' ≤ p) ∨
       (∃ p, e = unclosedBrace p ∧ (pyStrip s.data).get? p = some '{' ∧
          ∀ p' ∈ (finalBalState (pyStrip s.data)).braces, p' ≤ p) ∨
       (∃ p, e = unclosedParen p ∧ (pyStrip s.data).get? p = some '(' ∧
          ∀ p' ∈ (finalBalState (pyStrip s.data)).parens, p' ≤ p))) := by
  have hq : ¬((pyStrip s.data).isEmpty = true) := by
    intro hemp
    rw [List.isEmpty_iff] at hemp
    rw [hemp] at h
    exact h rfl
  obtain ⟨edelim, hedelim⟩ : ∃ e, e ∈ (checkBalancedDelimiters (pyStrip s.data)).filter
      (fun e => isDelimFinding e) := by
    cases hf : (checkBalancedDelimiters (pyStrip s.data)).filter (fun e => isDelimFinding e) with
    | nil => exact absurd hf h
    | cons x xs => exact ⟨x, hf ▸ List.mem_cons_self x xs⟩
  have hmemchk := (List.mem_filter.mp hedelim).1
  have hdel := (List.mem_filter.mp hedelim).2
  refine ⟨?_, ⟨edelim, checkBalanced_sub_errors hq hmemchk, hdel⟩, ?_⟩
  · rw [validate_valid_eq]
    have hne : (validate s).errors ≠ [] := by
      intro hnil
      have := checkBalanced_sub_errors hq hmemchk
      rw [hnil] at this
      exact absurd this (List.not_mem_nil _)
    cases herr : (validate s).errors with
    | nil => exact absurd herr hne
    | cons x xs => rfl
  · intro e he
    obtain ⟨i1, i2, i3, i4⟩ := finalBalState_inv (pyStrip s.data)
    refine ⟨checkBalanced_sub_errors hq he, ?_⟩
    have hsplit : e ∈ (finalBalState (pyStrip s.data)).errs ∨
        e ∈ balFinalErrs (finalBalState (pyStrip s.data)) :=
      List.mem_append.mp he
    rcases hsplit with hm | hm
    · rcases i4 e hm with ⟨p, rfl, hch⟩ | ⟨p, rfl, hch⟩ | ⟨p, rfl, hch⟩
      · exact Or.inr (Or.inl ⟨p, rfl, hch⟩)
      · exact Or.inr (Or.inr (Or.inl ⟨p, rfl, hch⟩))
      · exact Or.inr (Or.inr (Or.inr (Or.inl ⟨p, rfl, hch⟩)))
    · rcases balFinalErrs_mem hm with rfl | ⟨p, t, hst, rfl⟩ | ⟨p, t, hst, rfl⟩ | ⟨p, t, hst, rfl⟩
      · exact Or.inl rfl
      · refine Or.inr (Or.inr (Or.inr (Or.inr (Or.inl ⟨p, rfl, ?_, ?_⟩))))
        · exact (i1.2 p (by rw [hst]; exact List.mem_cons_self p t)).2
        · intro p' hp'
          rw [hst] at hp'
          rcases List.mem_cons.mp hp' with rfl | hp'
          · exact Nat.le_refl _
          · have hpair := i1.1
            rw [hst] at hpair
            exact Nat.le_of_lt ((List.pairwise_cons.mp hpair).1 p' hp')
      · refine Or.inr (Or.inr (Or.inr (Or.inr (Or.inr (Or.inl ⟨p, rfl, ?_, ?_⟩)))))
        · exact (i2.2 p (by rw [hst]; exact List.mem_cons_self p t)).2
        · intro p' hp'
          rw [hst] at hp'
          rcases List.mem_cons.mp hp' with rfl | hp'
          · exact Nat.le_refl _
          · have hpair := i2.1
            rw [hst] at hpair
            exact Nat.le_of_lt ((List.pairwise_cons.mp hpair).1 p' hp')
      · refine Or.inr (Or.inr (Or.inr (Or.inr (Or.inr (Or.inr ⟨p, rfl, ?_, ?_⟩)))))
        · exact (i3.2 p (by rw [hst]; exact List.mem_cons_self p t)).2
        · intro p' hp'
          rw [hst] at hp'
          rcases List.mem_cons.mp hp' with rfl | hp'
          · exact Nat.le_refl _
          · have hpair := i3.1
            rw [hst] at hpair
            exact Nat.le_of_lt ((List.pairwise_cons.mp hpair).1 p' hp')

/-- C1 counterexample: the query `))` has two unmatched closing parentheses
and `validate` reports one `unmatched_*` finding for each of them — two
findings, not "exactly one". -/
theorem claim_C1_counterexample :
    ((validate "))").errors.filter (fun e => isDelimFinding e)).length = 2 ∧
    (validate "))").errors =
      [unmatchedParen 0, unmatchedParen 1] ∧
    (validate "))").valid = false := by
  refine ⟨?_, ?_, ?_⟩ <;> rfl

/-- Witness for `claim_C1_amended` at the concrete query `((`. -/
theorem claim_C1_witness :
    (validate "((").valid = false ∧
    (∃ e ∈ (validate "((").errors, isDelimFinding e = true) := by
  have h := claim_C1_amended "((" (by decide)
  exact ⟨h.1, h.2.1⟩

/-- C7: an input that is empty after stripping surrounding whitespace yields
exactly one finding — `empty_query`, severity `error` — with `valid = false`,
and nothing else in the errors or warnings lists. -/
theorem claim_C7_empty_query (s : String) (h : pyStrip s.data = []) :
    (validate s).errors = [emptyQuery] ∧
    (validate s).warnings = [] ∧
    (validate s).valid = false ∧
    (validate s).status = "ERROR" ∧
    emptyQuery.ftype = "empty_query" ∧
    emptyQuery.severity = "error" := by
  unfold validate
  dsimp only
  rw [h]
  exact ⟨rfl, rfl, rfl, rfl, rfl, rfl⟩

/-- Witness for `claim_C7_empty_query` at the concrete input `"  "`. -/
theorem claim_C7_witness :
    pyStrip "  ".data = [] ∧
    ((validate "  ").errors = [emptyQuery] ∧
     (validate "  ").warnings = [] ∧
     (validate "  ").valid = false ∧
     (validate "  ").status = "ERROR" ∧
     emptyQuery.ftype = "empty_query" ∧
     emptyQuery.severity = "error") :=
  ⟨by decide, claim_C7_empty_query "  " (by decide)⟩

/-- C10: the result invariant of the syntax validator's `_build_result` —
`valid` holds iff the errors list is empty, the status is derived as
ERROR / WARNING / VALID, and info-severity findings (such as
`utf8_metric_unnecessary_quoting`) are stored in the warnings list, so a
query whose only finding is info-severity is reported `WARNING` while
`valid` stays `true` (witnessed by the query `{"abc"}`). -/
theorem claim_C10_result_invariant (s : String) :
    ((validate s).valid = (validate s).errors.isEmpty) ∧
    ((validate s).status =
      (if (validate s).errors.isEmpty then
        (if (validate s).warnings.isEmpty then "VALID" else "WARNING")
       else "ERROR")) ∧
    ((validate "\x7b\"abc\"\x7d").errors = [] ∧
     (validate "\x7b\"abc\"\x7d").warnings = [utf8UnnecessaryQuoting "abc".data] ∧
     (utf8UnnecessaryQuoting "abc".data).severity = "info" ∧
     (validate "\x7b\"abc\"\x7d").status = "WARNING" ∧
     (validate "\x7b\"abc\"\x7d").valid = true) := by
  refine ⟨validate_valid_eq s, validate_status_eq s, ?_, ?_, ?_, ?_, ?_⟩ <;> rfl

/-! ## C6: time-range validation -/

theorem contains_char_iff {c : Char} {l : List Char} :
    l.contains c = true ↔ c ∈ l := by
  show l.elem c = true ↔ c ∈ l
  exact List.elem_iff

theorem splitColon_no_colon {t : List Char} (h : ¬(':' ∈ t)) :
    splitColon t = [t] := by
  induction t with
  | nil => rfl
  | cons c cs ih =>
    have hc : ¬(c = ':') := fun hc => h (hc ▸ List.mem_cons_self c cs)
    have hcs : ¬(':' ∈ cs) := fun hm => h (List.mem_cons_of_mem c hm)
    show (if c = ':' then [] :: splitColon cs
          else match splitColon cs with
               | h :: t2 => (c :: h) :: t2
               | [] => [[c]]) = [c :: cs]
    rw [if_neg hc, ih hcs]

theorem splitColon_append {r t : List Char} (hr : ¬(':' ∈ r)) :
    splitColon (r ++ ':' :: t) = r :: splitColon t := by
  induction r with
  | nil => rfl
  | cons c r2 ih =>
    have hc : ¬(c = ':') := fun hc => hr (hc ▸ List.mem_cons_self c r2)
    have hr2 : ¬(':' ∈ r2) := fun hm => hr (List.mem_cons_of_mem c hm)
    show (if c = ':' then [] :: splitColon (r2 ++ ':' :: t)
          else match splitColon (r2 ++ ':' :: t) with
               | h :: t2 => (c :: h) :: t2
               | [] => [[c]]) = (c :: r2) :: splitColon t
    rw [if_neg hc, ih hr2]

theorem validateSpan_mem_errors {s : String} {span : List Char} {e : SFinding}
    (hspan : span ∈ extractRanges (pyStrip s.data)) (he : e ∈ validateSpan span) :
    e ∈ (validate s).errors := by
  have hq : ¬((pyStrip s.data).isEmpty = true) := by
    intro hemp
    rw [List.isEmpty_iff] at hemp
    rw [hemp] at hspan
    exact absurd hspan (List.not_mem_nil _)
  rw [validate_errors_eq s hq]
  have : e ∈ checkTimeRanges (pyStrip s.data) := by
    unfold checkTimeRanges
    exact List.mem_flatMap.mpr ⟨span, hspan, he⟩
  exact List.mem_append_left _ (List.mem_append_left _ (List.mem_append_right _ this))

/-- C6 (amended): behavior of `_check_time_ranges` per extracted `[...]`
span.  A span without `:` must (after stripping) fully match the duration
grammar or a single `invalid_duration` error is reported; a span with one
`:` is treated as a subquery whose *non-empty* stripped range/resolution
parts are each validated against the grammar (empty parts are silently
skipped); a span with two or more `:` yields one `invalid_subquery` error.
All reported errors surface in `validate`'s error list. -/
theorem claim_C6_amended :
    (∀ (s : String) (span : List Char), span ∈ extractRanges (pyStrip s.data) →
      ∀ e ∈ validateSpan span, e ∈ (validate s).errors) ∧
    (∀ span : List Char, ¬((pyStrip span).contains ':' = true) →
      validateSpan span =
        (if isDuration (pyStrip span) then []
         else [invalidDurationPlain (pyStrip span)])) ∧
    (∀ span r t : List Char, pyStrip span = r ++ ':' :: t →
      ¬(':' ∈ r) → ¬(':' ∈ t) →
      validateSpan span =
        (if !(pyStrip r).isEmpty && !isDuration (pyStrip r) then
          [invalidDurationRange (pyStrip r)] else [])
        ++ (if !(pyStrip t).isEmpty && !isDuration (pyStrip t) then
          [invalidDurationResolution (pyStrip t)] else [])) ∧
    (∀ span : List Char, 2 < (splitColon (pyStrip span)).length →
      validateSpan span = [invalidSubquery (pyStrip span)]) := by
  refine ⟨?_, ?_, ?_, ?_⟩
  · intro s span hspan e he
    exact validateSpan_mem_errors hspan he
  · intro span h
    unfold validateSpan
    dsimp only
    rw [if_neg h]
    cases hd : isDuration (pyStrip span) <;> simp [hd]
  · intro span r t hs hr ht
    have hcontains : (pyStrip span).contains ':' = true := by
      rw [hs]
      exact contains_char_iff.mpr (List.mem_append_right _ (List.mem_cons_self _ _))
    have hsplit : splitColon (pyStrip span) = [r, t] := by
      rw [hs, splitColon_append hr, splitColon_no_colon ht]
    unfold validateSpan
    dsimp only
    rw [if_pos hcontains, hsplit]
    rfl
  · intro span hlen
    have hcontains : (pyStrip span).contains ':' = true := by
      by_contra hnot
      have hnc : ¬(':' ∈ pyStrip span) := fun hm => hnot (contains_char_iff.mpr hm)
      rw [splitColon_no_colon hnc] at hlen
      simp at hlen
    unfold validateSpan
    dsimp only
    rw [if_pos hcontains, if_pos (by omega)]

/-- C6 counterexample: the query `m[:]` contains the span `:` whose
(empty) subquery range part fails the duration grammar, yet `validate`
reports no `invalid_duration` error at all — empty parts are skipped. -/
theorem claim_C6_counterexample :
    extractRanges (pyStrip "m[:]".data) = [[':']] ∧
    splitColon [':'] = [[], []] ∧
    isDuration [] = false ∧
    (validate "m[:]").errors = [] ∧
    (validate "m[:]").valid = true := by
  refine ⟨?_, ?_, ?_, ?_, ?_⟩ <;> rfl

/-- Witness for `claim_C6_amended` at concrete spans. -/
theorem claim_C6_witness :
    invalidDurationPlain ['5', 'x'] ∈ (validate "x[5x]").errors ∧
    validateSpan [':'] = [] ∧
    validateSpan "1m:2m:3m".data = [invalidSubquery "1m:2m:3m".data] := by
  refine ⟨?_, ?_, ?_⟩
  · exact claim_C6_amended.1 "x[5x]" ['5', 'x'] (by decide)
      (invalidDurationPlain ['5', 'x']) (by decide)
  · have h := claim_C6_amended.2.2.1 [':'] [] [] (by decide) (by decide) (by decide)
    simpa using h
  · have h := claim_C6_amended.2.2.2 "1m:2m:3m".data (by decide)
    simpa using h

/-! ## C5: function-name checking -/

theorem levRowAux_length (c1 : Char) :
    ∀ (s2 : List Char) (prev : List Nat) (cur : Nat),
      prev.length = s2.length + 1 →
      (levRowAux c1 s2 prev cur).length = s2.length := by
  intro s2
  induction s2 with
  | nil => intro prev cur _; rfl
  | cons c2 cs ih =>
    intro prev cur hlen
    match prev with
    | p0 :: p1 :: ps =>
      simp only [levRowAux, List.length_cons]
      rw [ih (p1 :: ps) _ (by simpa using hlen)]

theorem levRowAux_bound (c1 : Char) :
    ∀ (s2 : List Char) (prev : List Nat) (cur : Nat) (i jo : Nat),
      prev.length = s2.length + 1 →
      (∀ j, j < prev.length → i ≤ prev.getD j 0 + (jo + j)) →
      i + 1 ≤ cur + jo →
      ∀ j, j < (levRowAux c1 s2 prev cur).length →
        i + 1 ≤ (levRowAux c1 s2 prev cur).getD j 0 + (jo + j + 1) := by
  intro s2
  induction s2 with
  | nil => intro prev cur i jo _ _ _ j hj; simp [levRowAux] at hj
  | cons c2 cs ih =>
    intro prev cur i jo hlen hprev hcur j hj
    match prev, hlen with
    | p0 :: p1 :: ps, hlen =>
      have hp0 : i ≤ p0 + jo := by
        have := hprev 0 (by simp)
        simpa using this
      have hp1 : i ≤ p1 + (jo + 1) := by
        have := hprev 1 (by simp)
        simpa using this
      have hv : i + 1 ≤
          min (p1 + 1) (min (cur + 1) (p0 + (if c1 = c2 then 0 else 1))) + (jo + 1) := by
        have h3 : i + 1 ≤ p0 + (if c1 = c2 then 0 else 1) + (jo + 1) := by
          have : (0:Nat) ≤ (if c1 = c2 then 0 else 1) := Nat.zero_le _
          omega
        have h1 : i + 1 ≤ p1 + 1 + (jo + 1) := by omega
        have h2 : i + 1 ≤ cur + 1 + (jo + 1) := by omega
        rw [← min_add_add_right, ← min_add_add_right]
        exact le_min h1 (le_min h2 h3)
      cases j with
      | zero =>
        simpa [levRowAux] using (by omega : i + 1 ≤
          min (p1 + 1) (min (cur + 1) (p0 + (if c1 = c2 then 0 else 1))) + (jo + 0 + 1))
      | succ j2 =>
        simp only [levRowAux, List.length_cons] at hj
        have hrec := ih (p1 :: ps)
          (min (p1 + 1) (min (cur + 1) (p0 + (if c1 = c2 then 0 else 1))))
          i (jo + 1) (by simpa using hlen)
          (by
            intro j3 hj3
            have := hprev (j3 + 1) (by simpa using Nat.succ_lt_succ hj3)
            simpa [Nat.add_comm, Nat.add_assoc, Nat.add_left_comm] using this)
          (by omega)
          j2 (by omega)
        simp only [levRowAux, List.getD_cons_succ]
        have harith : jo + 1 + j2 + 1 = jo + (j2 + 1) + 1 := by omega
        exact harith ▸ hrec

theorem levRows_inv (s2 : List Char) :
    ∀ (s1cs : List Char) (prev : List Nat) (i : Nat),
      prev.length = s2.length + 1 →
      (∀ j, j < prev.length → i ≤ prev.getD j 0 + j) →
      (levRows s2 s1cs prev i).length = s2.length + 1 ∧
      (∀ j, j < (levRows s2 s1cs prev i).length →
        i + s1cs.length ≤ (levRows s2 s1cs prev i).getD j 0 + j) := by
  intro s1cs
  induction s1cs with
  | nil =>
    intro prev i hlen hprev
    refine ⟨hlen, ?_⟩
    intro j hj
    simpa using hprev j hj
  | cons c1 cs ih =>
    intro prev i hlen hprev
    have hauxlen : (levRowAux c1 s2 prev (i + 1)).length = s2.length :=
      levRowAux_length c1 s2 prev (i + 1) hlen
    have hrowlen : (levRow c1 s2 prev i).length = s2.length + 1 := by
      simp [levRow, hauxlen]
    have hrowbound : ∀ j, j < (levRow c1 s2 prev i).length →
        i + 1 ≤ (levRow c1 s2 prev i).getD j 0 + j := by
      intro j hj
      cases j with
      | zero => simp [levRow]
      | succ j2 =>
        have hb := levRowAux_bound c1 s2 prev (i + 1) i 0 hlen
          (by intro j3 hj3; simpa using hprev j3 hj3)
          (by omega)
          j2 (by
            rw [hauxlen]
            rw [hrowlen] at hj
            omega)
        simp only [levRow, List.getD_cons_succ]
        have harith : 0 + j2 + 1 = j2 + 1 := by omega
        rw [harith] at hb
        exact hb
    have := ih (levRow c1 s2 prev i) (i + 1) hrowlen hrowbound
    refine ⟨?_, ?_⟩
    · simpa [levRows] using this.1
    · intro j hj
      have harith : i + (c1 :: cs).length = (i + 1) + cs.length := by simp; omega
      rw [harith]
      simp only [levRows] at hj ⊢
      exact this.2 j hj

theorem getLastD_eq_getD : ∀ (l : List Nat), l ≠ [] →
    l.getLastD 0 = l.getD (l.length - 1) 0 := by
  intro l
  induction l with
  | nil => intro h; exact absurd rfl h
  | cons x xs ih =>
    intro _
    cases hxs : xs with
    | nil => subst hxs; rfl
    | cons y ys =>
      subst hxs
      have h2 := ih (List.cons_ne_nil y ys)
      rw [List.getLastD_cons, List.getLastD_cons]
      rw [List.getLastD_cons] at h2
      rw [h2]
      simp [List.getD_cons_succ]

theorem levAux_ge (s1 s2 : List Char) : s1.length - s2.length ≤ levAux s1 s2 := by
  unfold levAux
  by_cases h : s2.length = 0
  · rw [if_pos h]
    omega
  · rw [if_neg h]
    have hbase : ∀ j, j < (List.range (s2.length + 1)).length →
        0 ≤ (List.range (s2.length + 1)).getD j 0 + j := by
      intro j _
      exact Nat.zero_le _
    have hinv := levRows_inv s2 s1 (List.range (s2.length + 1)) 0
      (by simp) hbase
    have hfinallen := hinv.1
    have hne : levRows s2 s1 (List.range (s2.length + 1)) 0 ≠ [] := by
      intro hnil
      rw [hnil] at hfinallen
      simp at hfinallen
    rw [getLastD_eq_getD _ hne, hfinallen]
    have := hinv.2 (s2.length + 1 - 1) (by omega)
    omega

theorem levenshtein_ge (w c : List Char) :
    ((w.length : Int) - (c.length : Int)).natAbs ≤ levenshtein w c := by
  unfold levenshtein
  by_cases h : w.length < c.length
  · rw [if_pos h]
    have := levAux_ge c w
    omega
  · rw [if_neg h]
    have := levAux_ge w c
    omega

theorem findCloseMatches_spec (w : List Char) (cands : List (List Char)) :
    (findCloseMatches w cands).length ≤ 3 ∧
    (∀ c ∈ findCloseMatches w cands, c ∈ cands ∧ levenshtein w c ≤ 2) ∧
    ((∃ c ∈ cands, levenshtein w c ≤ 2) → findCloseMatches w cands ≠ []) := by
  refine ⟨?_, ?_, ?_⟩
  · unfold findCloseMatches
    rw [List.length_take]
    exact min_le_left _ _
  · intro c hc
    unfold findCloseMatches at hc
    have hc2 := List.take_subset _ _ hc
    have hm := List.mem_filter.mp hc2
    refine ⟨hm.1, ?_⟩
    have hb := hm.2
    simp only [Bool.and_eq_true, decide_eq_true_eq] at hb
    exact hb.2
  · rintro ⟨c, hcmem, hlev⟩
    have habs : ((w.length : Int) - (c.length : Int)).natAbs ≤ 2 :=
      le_trans (levenshtein_ge w c) hlev
    have hfilter : c ∈ cands.filter (fun cand =>
        decide (((w.length : Int) - (cand.length : Int)).natAbs ≤ 2) &&
        decide (levenshtein w cand ≤ 2)) := by
      refine List.mem_filter.mpr ⟨hcmem, ?_⟩
      simp only [Bool.and_eq_true, decide_eq_true_eq]
      exact ⟨habs, hlev⟩
    intro hnil
    unfold findCloseMatches at hnil
    rcases List.take_eq_nil_iff.mp hnil with h3 | hfnil
    · exact absurd h3 (by decide)
    · rw [hfnil] at hfilter
      exact absurd hfilter (List.not_mem_nil _)

/-- C5: classification of each identifier immediately followed by `(`:
registered functions and the non-function keywords produce no finding; any
other identifier produces an `unknown_function` error whose message carries
up to 3 candidate function names, each within Levenshtein distance 2, and a
registered name within distance 2 guarantees the suggestion list is
non-empty. -/
theorem claim_C5_function_classification :
    (∀ run : List Char,
      NON_FUNCTION_KEYWORDS.contains (String.mk (lowerStr run)) = true →
      classifyCall run = none) ∧
    (∀ run : List Char,
      FUNCTIONS.contains (String.mk (lowerStr run)) = true →
      classifyCall run = none) ∧
    (∀ run : List Char,
      NON_FUNCTION_KEYWORDS.contains (String.mk (lowerStr run)) = false →
      FUNCTIONS.contains (String.mk (lowerStr run)) = false →
      ∃ fnd, classifyCall run = some fnd ∧
        fnd.ftype = "unknown_function" ∧ fnd.severity = "error" ∧
        (findCloseMatches (lowerStr run) (FUNCTIONS.map String.data) ≠ [] →
          fnd.message = "Unknown function: " ++ String.mk run ++ ". Did you mean: " ++
            joinCommaSpace ((findCloseMatches (lowerStr run)
              (FUNCTIONS.map String.data)).map String.mk) ++ "?") ∧
        (findCloseMatches (lowerStr run) (FUNCTIONS.map String.data) = [] →
          fnd.message = "Unknown function: " ++ String.mk run)) ∧
    (∀ (q run : List Char) (fnd : SFinding), run ∈ extractCalls q →
      classifyCall run = some fnd → fnd ∈ checkFunctionSyntax q) ∧
    (∀ (q : List Char) (e : SFinding), e ∈ checkFunctionSyntax q →
      ∃ run ∈ extractCalls q, classifyCall run = some e) ∧
    (∀ run : List Char,
      (findCloseMatches (lowerStr run) (FUNCTIONS.map String.data)).length ≤ 3 ∧
      (∀ c ∈ findCloseMatches (lowerStr run) (FUNCTIONS.map String.data),
        c ∈ FUNCTIONS.map String.data ∧ levenshtein (lowerStr run) c ≤ 2) ∧
      ((∃ c ∈ FUNCTIONS.map String.data, levenshtein (lowerStr run) c ≤ 2) →
        findCloseMatches (lowerStr run) (FUNCTIONS.map String.data) ≠ [])) := by
  refine ⟨?_, ?_, ?_, ?_, ?_, ?_⟩
  · intro run h
    unfold classifyCall
    dsimp only
    rw [if_pos h]
  · intro run h
    unfold classifyCall
    dsimp only
    by_cases hk : NON_FUNCTION_KEYWORDS.contains (String.mk (lowerStr run)) = true
    · rw [if_pos hk]
    · rw [if_neg hk, if_pos h]
  · intro run h1 h2
    unfold classifyCall
    dsimp only
    rw [if_neg (by rw [h1]; exact Bool.false_ne_true), if_neg (by rw [h2]; exact Bool.false_ne_true)]
    cases hcm : findCloseMatches (lowerStr run) (FUNCTIONS.map String.data) with
    | nil =>
      refine ⟨_, rfl, rfl, rfl, ?_, fun _ => rfl⟩
      intro hne
      exact absurd rfl hne
    | cons x xs =>
      refine ⟨_, rfl, rfl, rfl, fun _ => rfl, ?_⟩
      intro hnil
      exact absurd hnil (List.cons_ne_nil x xs)
  · intro q run fnd hrun hcl
    unfold checkFunctionSyntax
    exact List.mem_filterMap.mpr ⟨run, hrun, hcl⟩
  · intro q e he
    unfold checkFunctionSyntax at he
    exact List.mem_filterMap.mp he
  · intro run
    exact findCloseMatches_spec (lowerStr run) (FUNCTIONS.map String.data)

/-- Witness for `claim_C5_function_classification`: the identifier `rte` in
the query `rte(x)` is neither a function nor a keyword and is reported. -/
theorem claim_C5_witness :
    ∃ fnd, classifyCall "rte".data = some fnd ∧
      fnd.ftype = "unknown_function" ∧
      fnd ∈ checkFunctionSyntax "rte(x)".data := by
  obtain ⟨fnd, hcl, hty, _⟩ :=
    claim_C5_function_classification.2.2.1 "rte".data (by decide) (by decide)
  exact ⟨fnd, hcl, hty,
    claim_C5_function_classification.2.2.2.1 "rte(x)".data "rte".data fnd (by decide) hcl⟩

/-! ## C4: rate-family range-vector checking -/

theorem dropWhile_all_false {p : Char → Bool} :
    ∀ {l : List Char}, (∀ c ∈ l, p c = false) → l.dropWhile p = l := by
  intro l
  induction l with
  | nil => intro _; rfl
  | cons c cs _ =>
    intro h
    rw [List.dropWhile_cons_of_neg]
    rw [h c (List.mem_cons_self c cs)]
    exact Bool.false_ne_true

theorem pyStrip_id {l : List Char} (h : ∀ c ∈ l, isPySpace c = false) :
    pyStrip l = l := by
  unfold pyStrip
  rw [dropWhile_all_false h]
  rw [dropWhile_all_false (fun c hc => h c (List.mem_reverse.mp hc))]
  exact List.reverse_reverse l

theorem takeWhile_append_all {p : Char → Bool} :
    ∀ {l1 l2 : List Char}, (∀ c ∈ l1, p c = true) →
      (l1 ++ l2).takeWhile p = l1 ++ l2.takeWhile p := by
  intro l1
  induction l1 with
  | nil => intro l2 _; rfl
  | cons c cs ih =>
    intro l2 h
    rw [List.cons_append, List.takeWhile_cons_of_pos (h c (List.mem_cons_self c cs))]
    rw [ih (fun x hx => h x (List.mem_cons_of_mem c hx))]
    rfl

theorem dropWhile_append_all {p : Char → Bool} :
    ∀ {l1 l2 : List Char}, (∀ c ∈ l1, p c = true) →
      (l1 ++ l2).dropWhile p = l2.dropWhile p := by
  intro l1
  induction l1 with
  | nil => intro l2 _; rfl
  | cons c cs ih =>
    intro l2 h
    rw [List.cons_append, List.dropWhile_cons_of_pos (h c (List.mem_cons_self c cs))]
    exact ih (fun x hx => h x (List.mem_cons_of_mem c hx))

theorem lowerChar_ne_space {c : Char} (hne : ¬(c = ' ')) : ¬(lowerChar c = ' ') := by
  intro h
  unfold lowerChar at h
  split at h
  all_goals first
    | exact absurd h (by decide)
    | exact hne h

/-- Characters that do not affect the balanced-delimiter scan state. -/
def balNeutral (c : Char) : Bool :=
  !(c = '\\' || c = '"' || c = '[' || c = ']' ||
    c = '{' || c = '}' || c = '(' || c = ')')

theorem balStep_neutral {st : BalState} {i : Nat} {c : Char}
    (hesc : st.escapeNext = false) (hstr : st.inString = false)
    (hc : balNeutral c = true) : balStep st i c = st := by
  simp only [balNeutral, Bool.not_eq_true', Bool.or_eq_false_iff, decide_eq_false_iff_not] at hc
  obtain ⟨⟨⟨⟨⟨⟨⟨h1, h2⟩, h3⟩, h4⟩, h5⟩, h6⟩, h7⟩, h8⟩ := hc
  unfold balStep
  rw [if_neg (by rw [hesc]; exact Bool.false_ne_true), if_neg h1, if_neg h2,
    if_neg (by rw [hstr]; exact Bool.false_ne_true), if_neg h3, if_neg h4,
    if_neg h5, if_neg h6, if_neg h7, if_neg h8]

theorem balScan_neutral :
    ∀ (l : List Char) (i : Nat) (st : BalState),
      st.escapeNext = false → st.inString = false →
      (∀ c ∈ l, balNeutral c = true) → balScan l i st = st := by
  intro l
  induction l with
  | nil => intro i st _ _ _; rfl
  | cons c cs ih =>
    intro i st hesc hstr h
    show balScan cs (i + 1) (balStep st i c) = st
    rw [balStep_neutral hesc hstr (h c (List.mem_cons_self c cs))]
    exact ih (i + 1) st hesc hstr (fun x hx => h x (List.mem_cons_of_mem c hx))

theorem balScan_append :
    ∀ (l1 l2 : List Char) (i : Nat) (st : BalState),
      balScan (l1 ++ l2) i st = balScan l2 (i + l1.length) (balScan l1 i st) := by
  intro l1
  induction l1 with
  | nil => intro l2 i st; simp [balScan]
  | cons c cs ih =>
    intro l2 i st
    show balScan (cs ++ l2) (i + 1) (balStep st i c) =
      balScan l2 (i + (c :: cs).length) (balScan cs (i + 1) (balStep st i c))
    rw [ih l2 (i + 1) (balStep st i c)]
    have : i + 1 + cs.length = i + (c :: cs).length := by simp; omega
    rw [this]

theorem isPySpace_cases {c : Char} (h : isPySpace c = true) :
    c = ' ' ∨ c = '\t' ∨ c = '\n' ∨ c = '\r' ∨ c = '\x0b' ∨ c = '\x0c' := by
  simp only [isPySpace, Bool.or_eq_true, decide_eq_true_eq] at h
  tauto

theorem balNeutral_cases {c : Char} (h : balNeutral c = false) :
    c = '\\' ∨ c = '"' ∨ c = '[' ∨ c = ']' ∨ c = '{' ∨ c = '}' ∨ c = '(' ∨ c = ')' := by
  simp only [balNeutral, Bool.not_eq_false', Bool.or_eq_true, decide_eq_true_eq] at h
  tauto

theorem metricChar_not_space {c : Char} (h : isMetricChar c = true) :
    isPySpace c = false := by
  cases hsp : isPySpace c
  · rfl
  · rcases isPySpace_cases hsp with rfl | rfl | rfl | rfl | rfl | rfl <;>
      exact absurd h (by decide)

theorem metricChar_neutral {c : Char} (h : isMetricChar c = true) :
    balNeutral c = true := by
  cases hb : balNeutral c
  · rcases balNeutral_cases hb with rfl | rfl | rfl | rfl | rfl | rfl | rfl | rfl <;>
      exact absurd h (by decide)
  · rfl

theorem metricChar_ne {c x : Char} (h : isMetricChar c = true)
    (hx : isMetricChar x = false) : ¬(c = x) := by
  intro heq
  rw [heq, hx] at h
  exact Bool.false_ne_true h

theorem metricStart_char {c : Char} (h : isMetricStart c = true) :
    isMetricChar c = true := by
  simp only [isMetricStart, Bool.or_eq_true, decide_eq_true_eq] at h
  simp only [isMetricChar, Bool.or_eq_true, decide_eq_true_eq]
  tauto

theorem classicMetricName_parts {m : List Char} (h : isClassicMetricName m = true) :
    (∃ c cs, m = c :: cs ∧ isMetricStart c = true) ∧
    (∀ x ∈ m, isMetricChar x = true) ∧ m ≠ [] := by
  cases m with
  | nil => exact absurd h (by decide)
  | cons c cs =>
    simp only [isClassicMetricName, Bool.and_eq_true] at h
    refine ⟨⟨c, cs, rfl, h.1⟩, ?_, List.cons_ne_nil c cs⟩
    intro x hx
    rcases List.mem_cons.mp hx with rfl | hx
    · exact metricStart_char h.1
    · exact List.all_eq_true.mp h.2 x hx

/-- A duration-grammar character: a digit or one of the unit letters. -/
def isDurChar (c : Char) : Bool :=
  c.isDigit || c = 'm' || c = 's' || c = 'h' || c = 'd' || c = 'w' || c = 'y'

theorem mem_takeWhile_sat {p : Char → Bool} :
    ∀ {l : List Char} {c : Char}, c ∈ l.takeWhile p → p c = true := by
  intro l
  induction l with
  | nil => intro c hc; simp [List.takeWhile] at hc
  | cons a as ih =>
    intro c hc
    by_cases hp : p a = true
    · rw [List.takeWhile_cons_of_pos hp] at hc
      rcases List.mem_cons.mp hc with rfl | hc
      · exact hp
      · exact ih hc
    · rw [List.takeWhile_cons_of_neg hp] at hc
      exact absurd hc (List.not_mem_nil c)

theorem duration_chars {d : List Char} (h : isDuration d = true) :
    (∀ c ∈ d, isDurChar c = true) ∧ d ≠ [] := by
  have hd : d = d.takeWhile Char.isDigit ++ d.dropWhile Char.isDigit :=
    (List.takeWhile_append_dropWhile ..).symm
  simp only [isDuration, Bool.and_eq_true, Bool.not_eq_true',
    Bool.or_eq_true, decide_eq_true_eq] at h
  constructor
  · intro c hc
    rw [hd] at hc
    rcases List.mem_append.mp hc with hc | hc
    · have := mem_takeWhile_sat hc
      simp [isDurChar, this]
    · have hall : ∀ x ∈ d.dropWhile Char.isDigit, isDurChar x = true := by
        rcases h.2 with (((((hr | hr) | hr) | hr) | hr) | hr) | hr <;> rw [hr] <;> decide
      exact hall c hc
  · intro hnil
    rw [hnil] at h
    have := h.1
    simp [List.takeWhile] at this

theorem durChar_not_space {c : Char} (h : isDurChar c = true) :
    isPySpace c = false := by
  cases hsp : isPySpace c
  · rfl
  · rcases isPySpace_cases hsp with rfl | rfl | rfl | rfl | rfl | rfl <;>
      exact absurd h (by decide)

theorem durChar_neutral {c : Char} (h : isDurChar c = true) :
    balNeutral c = true := by
  cases hb : balNeutral c
  · rcases balNeutral_cases hb with rfl | rfl | rfl | rfl | rfl | rfl | rfl | rfl <;>
      exact absurd h (by decide)
  · rfl

theorem durChar_ne {c x : Char} (h : isDurChar c = true)
    (hx : isDurChar x = false) : ¬(c = x) := by
  intro heq
  rw [heq, hx] at h
  exact Bool.false_ne_true h

/-! Scanner lemmas for queries of the shape `f(m)` and `f(m[d])`. -/

theorem extractRangesF_no_bracket :
    ∀ (fuel : Nat) (l : List Char), ¬('[' ∈ l) → extractRangesF fuel l = [] := by
  intro fuel
  induction fuel with
  | zero => intro l _; rfl
  | succ n ih =>
    intro l h
    cases l with
    | nil => rfl
    | cons c cs =>
      show (if c = '[' then _ else extractRangesF n cs) = []
      rw [if_neg (show ¬(c = '[') from fun heq => h (heq ▸ List.mem_cons_self c cs))]
      exact ih cs (fun hm => h (List.mem_cons_of_mem c hm))

theorem extractRangesF_skip :
    ∀ (l1 : List Char) (fuel : Nat) (l2 : List Char), (∀ c ∈ l1, ¬(c = '[')) →
      extractRangesF (l1.length + fuel) (l1 ++ l2) = extractRangesF fuel l2 := by
  intro l1
  induction l1 with
  | nil => intro fuel l2 _; simp
  | cons c cs ih =>
    intro fuel l2 h
    have harith : (c :: cs).length + fuel = (cs.length + fuel) + 1 := by simp; omega
    rw [harith]
    show (if c = '[' then _ else extractRangesF (cs.length + fuel) (cs ++ l2)) = _
    rw [if_neg (h c (List.mem_cons_self c cs))]
    exact ih fuel l2 (fun x hx => h x (List.mem_cons_of_mem c hx))

theorem extractUtf8NamesF_no_brace :
    ∀ (fuel : Nat) (l : List Char), ¬('{' ∈ l) → extractUtf8NamesF fuel l = [] := by
  intro fuel
  induction fuel with
  | zero => intro l _; rfl
  | succ n ih =>
    intro l h
    cases l with
    | nil => rfl
    | cons c cs =>
      show (if c = '{' then _ else extractUtf8NamesF n cs) = []
      rw [if_neg (show ¬(c = '{') from fun heq => h (heq ▸ List.mem_cons_self c cs))]
      exact ih cs (fun hm => h (List.mem_cons_of_mem c hm))

theorem extractCallsF_no_paren :
    ∀ (fuel : Nat) (l : List Char), ¬('(' ∈ l) → extractCallsF fuel l = [] := by
  intro fuel
  induction fuel with
  | zero => intro l _; rfl
  | succ n ih =>
    intro l h
    cases l with
    | nil => rfl
    | cons c cs =>
      show (if isFuncStart c = true then _ else extractCallsF n cs) = []
      by_cases hs : isFuncStart c = true
      · rw [if_pos hs]
        split
        · next rest2 heq =>
          exfalso
          have h1 : '(' ∈ (cs.dropWhile isFuncChar).dropWhile isPySpace := by
            rw [heq]; exact List.mem_cons_self _ _
          have h2 : '(' ∈ cs.dropWhile isFuncChar :=
            (List.dropWhile_sublist _).subset h1
          have h3 : '(' ∈ cs := (List.dropWhile_sublist _).subset h2
          exact h (List.mem_cons_of_mem c h3)
        · exact ih _ (fun hm => h (List.mem_cons_of_mem c
            ((List.dropWhile_sublist _).subset hm)))
      · rw [if_neg hs]
        exact ih cs (fun hm => h (List.mem_cons_of_mem c hm))

theorem matchRateTail_paren {t : List Char} (h : matchRateTail t = true) : '(' ∈ t := by
  unfold matchRateTail at h
  split at h
  · next l2 heq =>
    have h1 : '(' ∈ t.dropWhile isPySpace := by
      rw [heq]; exact List.mem_cons_self _ _
    exact (List.dropWhile_sublist _).subset h1
  · exact absurd h (by simp)

theorem matchRateAt_no_paren {l : List Char} (h : ¬('(' ∈ l)) :
    matchRateAt l = false := by
  cases hm : matchRateAt l
  · rfl
  · exfalso
    unfold matchRateAt at hm
    obtain ⟨name, _, hname⟩ := List.any_eq_true.mp hm
    have htail := (Bool.and_eq_true ..).mp hname
    have := matchRateTail_paren htail.2
    exact h ((List.drop_sublist ..).subset this)

theorem searchRate_no_paren :
    ∀ (l : List Char) (prev : Option Char), ¬('(' ∈ l) → searchRate prev l = false := by
  intro l
  induction l with
  | nil => intro prev _; rfl
  | cons c cs ih =>
    intro prev h
    show ((wordBoundary prev c && matchRateAt (c :: cs)) || searchRate (some c) cs) = false
    rw [matchRateAt_no_paren h, Bool.and_false, Bool.false_or]
    exact ih (some c) (fun hm => h (List.mem_cons_of_mem c hm))

theorem containsSub_head_mem {c : Char} {ns l : List Char}
    (h : containsSub (c :: ns) l = true) : c ∈ l := by
  induction l with
  | nil => simp [containsSub, List.isPrefixOf] at h
  | cons x xs ih =>
    show c ∈ x :: xs
    unfold containsSub at h
    rcases Bool.or_eq_true .. |>.mp h with h1 | h1
    · have : c :: ns <+: x :: xs := List.isPrefixOf_iff_prefix.mp h1
      obtain ⟨t, ht⟩ := this
      rw [show (c :: ns) ++ t = c :: (ns ++ t) from rfl] at ht
      injection ht with h2 _
      rw [h2]
      exact List.mem_cons_self _ _
    · exact List.mem_cons_of_mem x (ih h1)

theorem matchRateTail_selector {m : List Char} (hm : isClassicMetricName m = true) :
    matchRateTail ('(' :: (m ++ [')'])) = true := by
  obtain ⟨⟨c, cs, rfl, hstart⟩, hall, _⟩ := classicMetricName_parts hm
  have hc : isPySpace c = false := metricChar_not_space (hall c (List.mem_cons_self c cs))
  have hcs : ∀ x ∈ cs, isMetricChar x = true :=
    fun x hx => hall x (List.mem_cons_of_mem c hx)
  unfold matchRateTail
  rw [List.dropWhile_cons_of_neg (by decide)]
  show (match ((c :: cs) ++ [')']).dropWhile isPySpace with
        | c0 :: l4 =>
          if isMetricStart c0 = true then matchRateClose (l4.dropWhile isMetricChar)
          else false
        | [] => false) = true
  rw [show (c :: cs) ++ [')'] = c :: (cs ++ [')']) from rfl,
    List.dropWhile_cons_of_neg (by rw [hc]; exact Bool.false_ne_true)]
  show (if isMetricStart c = true then
      matchRateClose ((cs ++ [')']).dropWhile isMetricChar) else false) = true
  rw [if_pos hstart, dropWhile_append_all hcs, List.dropWhile_cons_of_neg (by decide)]
  rfl

theorem matchRateTail_range {m : List Char} (rest : List Char)
    (hm : isClassicMetricName m = true) :
    matchRateTail ('(' :: (m ++ '[' :: rest)) = false := by
  obtain ⟨⟨c, cs, rfl, hstart⟩, hall, _⟩ := classicMetricName_parts hm
  have hc : isPySpace c = false := metricChar_not_space (hall c (List.mem_cons_self c cs))
  have hcs : ∀ x ∈ cs, isMetricChar x = true :=
    fun x hx => hall x (List.mem_cons_of_mem c hx)
  unfold matchRateTail
  rw [List.dropWhile_cons_of_neg (by decide)]
  show (match ((c :: cs) ++ '[' :: rest).dropWhile isPySpace with
        | c0 :: l4 =>
          if isMetricStart c0 = true then matchRateClose (l4.dropWhile isMetricChar)
          else false
        | [] => false) = false
  rw [show (c :: cs) ++ '[' :: rest = c :: (cs ++ '[' :: rest) from rfl,
    List.dropWhile_cons_of_neg (by rw [hc]; exact Bool.false_ne_true)]
  show (if isMetricStart c = true then
      matchRateClose ((cs ++ '[' :: rest).dropWhile isMetricChar) else false) = false
  rw [if_pos hstart, dropWhile_append_all hcs, List.dropWhile_cons_of_neg (by decide)]
  unfold matchRateClose
  rw [List.dropWhile_cons_of_neg (by decide)]
  rfl

theorem searchRate_step {prev : Option Char} {c : Char} {cs : List Char}
    (h : (wordBoundary prev c && matchRateAt (c :: cs)) = false) :
    searchRate prev (c :: cs) = searchRate (some c) cs := by
  show ((wordBoundary prev c && matchRateAt (c :: cs)) || searchRate (some c) cs) = _
  rw [h, Bool.false_or]

theorem step_nb {prev : Option Char} {c : Char} {cs : List Char}
    (h : wordBoundary prev c = false) :
    searchRate prev (c :: cs) = searchRate (some c) cs :=
  searchRate_step (by rw [h]; exact Bool.false_and _)

theorem step_nm {prev : Option Char} {c : Char} {cs : List Char}
    (h : matchRateAt (c :: cs) = false) :
    searchRate prev (c :: cs) = searchRate (some c) cs :=
  searchRate_step (by rw [h]; exact Bool.and_false _)

theorem matchRateAt_eq_false_of {l : List Char}
    (h : ∀ n ∈ RATE_NAMES, ¬((n.isPrefixOf l && matchRateTail (l.drop n.length)) = true)) :
    matchRateAt l = false := by
  cases hm : matchRateAt l
  · rfl
  · obtain ⟨n, hn, hx⟩ := List.any_eq_true.mp hm
    exact absurd hx (h n hn)

theorem matchRateAt_paren_head (rest0 : List Char) :
    matchRateAt ('(' :: rest0) = false := by
  apply matchRateAt_eq_false_of
  intro n hn
  simp only [RATE_NAMES, List.mem_cons, List.not_mem_nil, or_false] at hn
  rcases hn with rfl | rfl | rfl | rfl | rfl <;>
    (intro hx
     rw [Bool.and_eq_true] at hx
     exact Bool.false_ne_true hx.1)

theorem matchRateAt_head {f rest : List Char} (hf : f ∈ RATE_NAMES)
    (htail : matchRateTail rest = true) : matchRateAt (f ++ rest) = true := by
  unfold matchRateAt
  refine List.any_eq_true.mpr ⟨f, hf, ?_⟩
  rw [Bool.and_eq_true]
  refine ⟨List.isPrefixOf_iff_prefix.mpr (List.prefix_append f rest), ?_⟩
  rw [List.drop_left]
  exact htail

theorem searchRate_hit {prev : Option Char} {c : Char} {cs : List Char}
    (hb : wordBoundary prev c = true) (hm : matchRateAt (c :: cs) = true) :
    searchRate prev (c :: cs) = true := by
  show ((wordBoundary prev c && matchRateAt (c :: cs)) || searchRate (some c) cs) = true
  rw [hb, hm]
  rfl

theorem rate_chars {f : List Char} (hf : f ∈ RATE_NAMES) :
    ∀ x ∈ f, isMetricChar x = true := by
  simp only [RATE_NAMES, List.mem_cons, List.not_mem_nil, or_false] at hf
  rcases hf with rfl | rfl | rfl | rfl | rfl <;> decide

theorem restB_mem {m d : List Char}
    (hmall : ∀ x ∈ m, isMetricChar x = true)
    (hdall : ∀ x ∈ d, isDurChar x = true) :
    ∀ c ∈ m ++ '[' :: (d ++ [']', ')']),
      isMetricChar c = true ∨ isDurChar c = true ∨ c = '[' ∨ c = ']' ∨ c = ')' := by
  intro c hc
  rcases List.mem_append.mp hc with h | h
  · exact Or.inl (hmall c h)
  · rcases List.mem_cons.mp h with rfl | h
    · exact Or.inr (Or.inr (Or.inl rfl))
    · rcases List.mem_append.mp h with h | h
      · exact Or.inr (Or.inl (hdall c h))
      · rcases List.mem_cons.mp h with rfl | h
        · exact Or.inr (Or.inr (Or.inr (Or.inl rfl)))
        · rcases List.mem_cons.mp h with rfl | h
          · exact Or.inr (Or.inr (Or.inr (Or.inr rfl)))
          · exact absurd h (List.not_mem_nil c)

theorem qB_chars {f m d : List Char} (hf : f ∈ RATE_NAMES)
    (hmall : ∀ x ∈ m, isMetricChar x = true)
    (hdall : ∀ x ∈ d, isDurChar x = true) :
    ∀ c ∈ f ++ '(' :: (m ++ '[' :: (d ++ [']', ')'])),
      isMetricChar c = true ∨ isDurChar c = true ∨
        c = '(' ∨ c = '[' ∨ c = ']' ∨ c = ')' := by
  intro c hc
  rcases List.mem_append.mp hc with h | h
  · exact Or.inl (rate_chars hf c h)
  · rcases List.mem_cons.mp h with rfl | h
    · exact Or.inr (Or.inr (Or.inl rfl))
    · rcases restB_mem hmall hdall c h with h | h | h | h | h
      · exact Or.inl h
      · exact Or.inr (Or.inl h)
      · exact Or.inr (Or.inr (Or.inr (Or.inl h)))
      · exact Or.inr (Or.inr (Or.inr (Or.inr (Or.inl h))))
      · exact Or.inr (Or.inr (Or.inr (Or.inr (Or.inr h))))

theorem qB_nospace {f m d : List Char} (hf : f ∈ RATE_NAMES)
    (hmall : ∀ x ∈ m, isMetricChar x = true)
    (hdall : ∀ x ∈ d, isDurChar x = true) :
    ∀ c ∈ f ++ '(' :: (m ++ '[' :: (d ++ [']', ')'])), isPySpace c = false := by
  intro c hc
  rcases qB_chars hf hmall hdall c hc with h | h | rfl | rfl | rfl | rfl
  · exact metricChar_not_space h
  · exact durChar_not_space h
  all_goals decide

theorem qB_no_brace {f m d : List Char} (hf : f ∈ RATE_NAMES)
    (hmall : ∀ x ∈ m, isMetricChar x = true)
    (hdall : ∀ x ∈ d, isDurChar x = true) :
    ¬('{' ∈ f ++ '(' :: (m ++ '[' :: (d ++ [']', ')']))) := by
  intro hc
  rcases qB_chars hf hmall hdall '{' hc with h | h | h | h | h | h <;>
    exact absurd h (by decide)

theorem restB_no_paren {m d : List Char}
    (hmall : ∀ x ∈ m, isMetricChar x = true)
    (hdall : ∀ x ∈ d, isDurChar x = true) :
    ¬('(' ∈ m ++ '[' :: (d ++ [']', ')'])) := by
  intro hc
  rcases restB_mem hmall hdall '(' hc with h | h | h | h | h <;>
    exact absurd h (by decide)

theorem qA_nospace {f m : List Char} (hf : f ∈ RATE_NAMES)
    (hmall : ∀ x ∈ m, isMetricChar x = true) :
    ∀ c ∈ f ++ '(' :: (m ++ [')']), isPySpace c = false := by
  intro c hc
  rcases List.mem_append.mp hc with h | h
  · exact metricChar_not_space (rate_chars hf c h)
  · rcases List.mem_cons.mp h with rfl | h
    · decide
    · rcases List.mem_append.mp h with h | h
      · exact metricChar_not_space (hmall c h)
      · rcases List.mem_cons.mp h with rfl | h
        · decide
        · exact absurd h (List.not_mem_nil c)

theorem isEmpty_append_cons (f : List Char) (c : Char) (X : List Char) :
    (f ++ c :: X).isEmpty = false := by
  cases f <;> rfl

theorem rateA_search {f m : List Char} (hf : f ∈ RATE_NAMES)
    (hm : isClassicMetricName m = true) :
    searchRate none (f ++ '(' :: (m ++ [')'])) = true := by
  have hf5 := hf
  simp only [RATE_NAMES, List.mem_cons, List.not_mem_nil, or_false] at hf5
  rcases hf5 with rfl | rfl | rfl | rfl | rfl
  · exact searchRate_hit (by decide)
      (matchRateAt_head (f := ['r','a','t','e']) (by decide) (matchRateTail_selector hm))
  · exact searchRate_hit (by decide)
      (matchRateAt_head (f := ['i','r','a','t','e']) (by decide) (matchRateTail_selector hm))
  · exact searchRate_hit (by decide)
      (matchRateAt_head (f := ['i','n','c','r','e','a','s','e']) (by decide)
        (matchRateTail_selector hm))
  · exact searchRate_hit (by decide)
      (matchRateAt_head (f := ['d','e','l','t','a']) (by decide) (matchRateTail_selector hm))
  · exact searchRate_hit (by decide)
      (matchRateAt_head (f := ['i','d','e','l','t','a']) (by decide)
        (matchRateTail_selector hm))

theorem rateB_matchAt_false {m d : List Char} (hm : isClassicMetricName m = true)
    (f : List Char) (hf : f ∈ RATE_NAMES) :
    matchRateAt (f ++ '(' :: (m ++ '[' :: (d ++ [']', ')']))) = false := by
  apply matchRateAt_eq_false_of
  intro n hn
  simp only [RATE_NAMES, List.mem_cons, List.not_mem_nil, or_false] at hn hf
  rcases hf with rfl | rfl | rfl | rfl | rfl <;>
  rcases hn with rfl | rfl | rfl | rfl | rfl <;>
    (intro hx
     rw [Bool.and_eq_true] at hx
     first
       | exact Bool.false_ne_true hx.1
       | (have h2 : matchRateTail ('(' :: (m ++ '[' :: (d ++ [']', ')']))) = true := hx.2
          rw [matchRateTail_range (d ++ [']', ')']) hm] at h2
          exact Bool.false_ne_true h2))

theorem rateB_search {f m d : List Char} (hf : f ∈ RATE_NAMES)
    (hm : isClassicMetricName m = true)
    (hmall : ∀ x ∈ m, isMetricChar x = true)
    (hdall : ∀ x ∈ d, isDurChar x = true) :
    searchRate none (f ++ '(' :: (m ++ '[' :: (d ++ [']', ')']))) = false := by
  have hnp : ¬('(' ∈ m ++ '[' :: (d ++ [']', ')'])) := restB_no_paren hmall hdall
  have hP : matchRateAt ('(' :: (m ++ '[' :: (d ++ [']', ')']))) = false :=
    matchRateAt_paren_head (m ++ '[' :: (d ++ [']', ')']))
  have hf5 := hf
  simp only [RATE_NAMES, List.mem_cons, List.not_mem_nil, or_false] at hf5
  rcases hf5 with rfl | rfl | rfl | rfl | rfl
  · have hMA : matchRateAt
        ('r' :: 'a' :: 't' :: 'e' :: '(' :: (m ++ '[' :: (d ++ [']', ')']))) = false :=
      rateB_matchAt_false hm _ hf
    show searchRate none
      ('r' :: 'a' :: 't' :: 'e' :: '(' :: (m ++ '[' :: (d ++ [']', ')']))) = false
    rw [step_nm hMA,
      step_nb (show wordBoundary (some 'r') 'a' = false from by decide),
      step_nb (show wordBoundary (some 'a') 't' = false from by decide),
      step_nb (show wordBoundary (some 't') 'e' = false from by decide),
      step_nm hP]
    exact searchRate_no_paren _ _ hnp
  · have hMA : matchRateAt
        ('i' :: 'r' :: 'a' :: 't' :: 'e' :: '(' :: (m ++ '[' :: (d ++ [']', ')']))) = false :=
      rateB_matchAt_false hm _ hf
    show searchRate none
      ('i' :: 'r' :: 'a' :: 't' :: 'e' :: '(' :: (m ++ '[' :: (d ++ [']', ')']))) = false
    rw [step_nm hMA,
      step_nb (show wordBoundary (some 'i') 'r' = false from by decide),
      step_nb (show wordBoundary (some 'r') 'a' = false from by decide),
      step_nb (show wordBoundary (some 'a') 't' = false from by decide),
      step_nb (show wordBoundary (some 't') 'e' = false from by decide),
      step_nm hP]
    exact searchRate_no_paren _ _ hnp
  · have hMA : matchRateAt
        ('i' :: 'n' :: 'c' :: 'r' :: 'e' :: 'a' :: 's' :: 'e' :: '(' ::
          (m ++ '[' :: (d ++ [']', ')']))) = false :=
      rateB_matchAt_false hm _ hf
    show searchRate none
      ('i' :: 'n' :: 'c' :: 'r' :: 'e' :: 'a' :: 's' :: 'e' :: '(' ::
        (m ++ '[' :: (d ++ [']', ')']))) = false
    rw [step_nm hMA,
      step_nb (show wordBoundary (some 'i') 'n' = false from by decide),
      step_nb (show wordBoundary (some 'n') 'c' = false from by decide),
      step_nb (show wordBoundary (some 'c') 'r' = false from by decide),
      step_nb (show wordBoundary (some 'r') 'e' = false from by decide),
      step_nb (show wordBoundary (some 'e') 'a' = false from by decide),
      step_nb (show wordBoundary (some 'a') 's' = false from by decide),
      step_nb (show wordBoundary (some 's') 'e' = false from by decide),
      step_nm hP]
    exact searchRate_no_paren _ _ hnp
  · have hMA : matchRateAt
        ('d' :: 'e' :: 'l' :: 't' :: 'a' :: '(' :: (m ++ '[' :: (d ++ [']', ')']))) = false :=
      rateB_matchAt_false hm _ hf
    show searchRate none
      ('d' :: 'e' :: 'l' :: 't' :: 'a' :: '(' :: (m ++ '[' :: (d ++ [']', ')']))) = false
    rw [step_nm hMA,
      step_nb (show wordBoundary (some 'd') 'e' = false from by decide),
      step_nb (show wordBoundary (some 'e') 'l' = false from by decide),
      step_nb (show wordBoundary (some 'l') 't' = false from by decide),
      step_nb (show wordBoundary (some 't') 'a' = false from by decide),
      step_nm hP]
    exact searchRate_no_paren _ _ hnp
  · have hMA : matchRateAt
        ('i' :: 'd' :: 'e' :: 'l' :: 't' :: 'a' :: '(' ::
          (m ++ '[' :: (d ++ [']', ')']))) = false :=
      rateB_matchAt_false hm _ hf
    show searchRate none
      ('i' :: 'd' :: 'e' :: 'l' :: 't' :: 'a' :: '(' ::
        (m ++ '[' :: (d ++ [']', ')']))) = false
    rw [step_nm hMA,
      step_nb (show wordBoundary (some 'i') 'd' = false from by decide),
      step_nb (show wordBoundary (some 'd') 'e' = false from by decide),
      step_nb (show wordBoundary (some 'e') 'l' = false from by decide),
      step_nb (show wordBoundary (some 'l') 't' = false from by decide),
      step_nb (show wordBoundary (some 't') 'a' = false from by decide),
      step_nm hP]
    exact searchRate_no_paren _ _ hnp

theorem rateB_calls {f m d : List Char} (hf : f ∈ RATE_NAMES)
    (hmall : ∀ x ∈ m, isMetricChar x = true)
    (hdall : ∀ x ∈ d, isDurChar x = true) :
    checkFunctionSyntax (f ++ '(' :: (m ++ '[' :: (d ++ [']', ')']))) = [] := by
  have hnp : ¬('(' ∈ m ++ '[' :: (d ++ [']', ')'])) := restB_no_paren hmall hdall
  have hf5 := hf
  simp only [RATE_NAMES, List.mem_cons, List.not_mem_nil, or_false] at hf5
  rcases hf5 with rfl | rfl | rfl | rfl | rfl
  · have hstep : extractCalls (['r','a','t','e'] ++ '(' :: (m ++ '[' :: (d ++ [']', ')']))) =
        ['r','a','t','e'] :: extractCallsF
          ((['r','a','t','e'] ++ '(' :: (m ++ '[' :: (d ++ [']', ')']))).length)
          (m ++ '[' :: (d ++ [']', ')'])) := rfl
    unfold checkFunctionSyntax
    rw [hstep, extractCallsF_no_paren _ _ hnp]
    decide
  · have hstep : extractCalls
        (['i','r','a','t','e'] ++ '(' :: (m ++ '[' :: (d ++ [']', ')']))) =
        ['i','r','a','t','e'] :: extractCallsF
          ((['i','r','a','t','e'] ++ '(' :: (m ++ '[' :: (d ++ [']', ')']))).length)
          (m ++ '[' :: (d ++ [']', ')'])) := rfl
    unfold checkFunctionSyntax
    rw [hstep, extractCallsF_no_paren _ _ hnp]
    decide
  · have hstep : extractCalls
        (['i','n','c','r','e','a','s','e'] ++ '(' :: (m ++ '[' :: (d ++ [']', ')']))) =
        ['i','n','c','r','e','a','s','e'] :: extractCallsF
          ((['i','n','c','r','e','a','s','e'] ++
            '(' :: (m ++ '[' :: (d ++ [']', ')']))).length)
          (m ++ '[' :: (d ++ [']', ')'])) := rfl
    unfold checkFunctionSyntax
    rw [hstep, extractCallsF_no_paren _ _ hnp]
    decide
  · have hstep : extractCalls
        (['d','e','l','t','a'] ++ '(' :: (m ++ '[' :: (d ++ [']', ')']))) =
        ['d','e','l','t','a'] :: extractCallsF
          ((['d','e','l','t','a'] ++ '(' :: (m ++ '[' :: (d ++ [']', ')']))).length)
          (m ++ '[' :: (d ++ [']', ')'])) := rfl
    unfold checkFunctionSyntax
    rw [hstep, extractCallsF_no_paren _ _ hnp]
    decide
  · have hstep : extractCalls
        (['i','d','e','l','t','a'] ++ '(' :: (m ++ '[' :: (d ++ [']', ')']))) =
        ['i','d','e','l','t','a'] :: extractCallsF
          ((['i','d','e','l','t','a'] ++ '(' :: (m ++ '[' :: (d ++ [']', ')']))).length)
          (m ++ '[' :: (d ++ [']', ')'])) := rfl
    unfold checkFunctionSyntax
    rw [hstep, extractCallsF_no_paren _ _ hnp]
    decide

theorem extractRangesF_bracket_step (fuel : Nat) (cs : List Char) :
    extractRangesF (fuel + 1) ('[' :: cs) =
      (match cs.dropWhile (fun x => !(x = ']')) with
       | _ :: rem =>
         if (cs.takeWhile (fun x => !(x = ']'))).isEmpty then extractRangesF fuel cs
         else cs.takeWhile (fun x => !(x = ']')) :: extractRangesF fuel rem
       | [] => extractRangesF fuel cs) := rfl

theorem rateB_ranges {f m d : List Char} (hf : f ∈ RATE_NAMES)
    (hd : isDuration d = true)
    (hmall : ∀ x ∈ m, isMetricChar x = true)
    (hdall : ∀ x ∈ d, isDurChar x = true) :
    checkTimeRanges (f ++ '(' :: (m ++ '[' :: (d ++ [']', ')']))) = [] := by
  have hl1 : ∀ c ∈ f ++ '(' :: m, ¬(c = '[') := by
    intro c hc heq
    subst heq
    rcases List.mem_append.mp hc with h | h
    · exact absurd (rate_chars hf _ h) (by decide)
    · rcases List.mem_cons.mp h with h | h
      · exact absurd h (by decide)
      · exact absurd (hmall _ h) (by decide)
  have hsplit : f ++ '(' :: (m ++ '[' :: (d ++ [']', ')'])) =
      (f ++ '(' :: m) ++ '[' :: (d ++ [']', ')']) := by
    rw [List.append_assoc]
    rfl
  have hpred : ∀ c ∈ d, (fun x => !(x = ']')) c = true := by
    intro c hc
    have hne : ¬(c = ']') := durChar_ne (hdall c hc) (by decide)
    simp [hne]
  have hdrop : (d ++ [']', ')']).dropWhile (fun x => !(x = ']')) = [']', ')'] := by
    rw [dropWhile_append_all hpred, List.dropWhile_cons_of_neg (by decide)]
  have htake : (d ++ [']', ')']).takeWhile (fun x => !(x = ']')) = d := by
    rw [takeWhile_append_all hpred, List.takeWhile_cons_of_neg (by decide), List.append_nil]
  have hdE : d.isEmpty = false := by
    rcases duration_chars hd with ⟨_, hne⟩
    cases d
    · exact absurd rfl hne
    · rfl
  have hR : extractRanges (f ++ '(' :: (m ++ '[' :: (d ++ [']', ')']))) = [d] := by
    unfold extractRanges
    rw [hsplit]
    rw [show ((f ++ '(' :: m) ++ '[' :: (d ++ [']', ')'])).length + 1 =
        (f ++ '(' :: m).length + (((d ++ [']', ')']).length + 1) + 1) from by
      rw [List.length_append]
      simp
      omega]
    rw [extractRangesF_skip (f ++ '(' :: m) (((d ++ [']', ')']).length + 1) + 1)
      ('[' :: (d ++ [']', ')'])) hl1]
    rw [extractRangesF_bracket_step]
    rw [hdrop]
    show (if ((d ++ [']', ')']).takeWhile (fun x => !(x = ']'))).isEmpty = true then
        extractRangesF ((d ++ [']', ')']).length + 1) (d ++ [']', ')'])
      else ((d ++ [']', ')']).takeWhile (fun x => !(x = ']'))) ::
        extractRangesF ((d ++ [']', ')']).length + 1) [')']) = [d]
    rw [htake]
    rw [if_neg (show ¬(d.isEmpty = true) from by rw [hdE]; exact Bool.false_ne_true)]
    rw [extractRangesF_no_bracket _ [')'] (by decide)]
  have hsp : pyStrip d = d := pyStrip_id (fun c hc => durChar_not_space (hdall c hc))
  have hcn : d.contains ':' = false := by
    cases hcc : d.contains ':'
    · rfl
    · exact absurd (hdall ':' (contains_char_iff.mp hcc)) (by decide)
  have hspan : validateSpan d = [] := by
    unfold validateSpan
    dsimp only
    rw [hsp]
    rw [if_neg (show ¬(d.contains ':' = true) from by rw [hcn]; exact Bool.false_ne_true)]
    rw [hd]
    rfl
  unfold checkTimeRanges
  rw [hR]
  show validateSpan d ++ [] = []
  rw [hspan]
  rfl

theorem rateB_bal {f m d : List Char} (hf : f ∈ RATE_NAMES)
    (hmall : ∀ x ∈ m, isMetricChar x = true)
    (hdall : ∀ x ∈ d, isDurChar x = true) :
    checkBalancedDelimiters (f ++ '(' :: (m ++ '[' :: (d ++ [']', ')']))) = [] := by
  have hfn : ∀ c ∈ f, balNeutral c = true :=
    fun c hc => metricChar_neutral (rate_chars hf c hc)
  have hmn : ∀ c ∈ m, balNeutral c = true := fun c hc => metricChar_neutral (hmall c hc)
  have hdn : ∀ c ∈ d, balNeutral c = true := fun c hc => durChar_neutral (hdall c hc)
  have hsplit : f ++ '(' :: (m ++ '[' :: (d ++ [']', ')'])) =
      f ++ (['('] ++ (m ++ (['['] ++ (d ++ [']', ')'])))) := rfl
  have hfinal :
      balScan (f ++ '(' :: (m ++ '[' :: (d ++ [']', ')']))) 0 balInit = balInit := by
    rw [hsplit, balScan_append, balScan_append, balScan_append, balScan_append,
      balScan_append]
    rw [balScan_neutral f 0 balInit rfl rfl hfn]
    rw [show ∀ i, balScan ['('] i balInit = ⟨[], [], [i], false, false, []⟩ from
      fun i => rfl]
    rw [show ∀ i j, balScan m i (⟨[], [], [j], false, false, []⟩ : BalState) =
        ⟨[], [], [j], false, false, []⟩ from
      fun i j => balScan_neutral m i _ rfl rfl hmn]
    rw [show ∀ i j, balScan ['['] i (⟨[], [], [j], false, false, []⟩ : BalState) =
        ⟨[i], [], [j], false, false, []⟩ from fun i j => rfl]
    rw [show ∀ i j k, balScan d i (⟨[j], [], [k], false, false, []⟩ : BalState) =
        ⟨[j], [], [k], false, false, []⟩ from
      fun i j k => balScan_neutral d i _ rfl rfl hdn]
    rw [show ∀ i j k, balScan [']', ')'] i (⟨[j], [], [k], false, false, []⟩ : BalState) =
        balInit from fun i j k => rfl]
  show (balScan (f ++ '(' :: (m ++ '[' :: (d ++ [']', ')']))) 0 balInit).errs ++
    balFinalErrs (balScan (f ++ '(' :: (m ++ '[' :: (d ++ [']', ')']))) 0 balInit) = []
  rw [hfinal]
  rfl

theorem rateB_offset {f m d : List Char} (hf : f ∈ RATE_NAMES)
    (hmall : ∀ x ∈ m, isMetricChar x = true)
    (hdall : ∀ x ∈ d, isDurChar x = true) :
    containsSub " offset ".data
      (lowerStr (f ++ '(' :: (m ++ '[' :: (d ++ [']', ')'])))) = false := by
  cases hcc : containsSub " offset ".data
      (lowerStr (f ++ '(' :: (m ++ '[' :: (d ++ [']', ')']))))
  · rfl
  · exfalso
    have hmem : ' ' ∈ lowerStr (f ++ '(' :: (m ++ '[' :: (d ++ [']', ')']))) :=
      containsSub_head_mem hcc
    unfold lowerStr at hmem
    obtain ⟨x, hx, hlx⟩ := List.mem_map.mp hmem
    have hxs : isPySpace x = false := qB_nospace hf hmall hdall x hx
    have hxne : ¬(x = ' ') := by
      intro he
      rw [he] at hxs
      exact absurd hxs (by decide)
    exact lowerChar_ne_space hxne hlx

theorem rateB_typos {f m d : List Char} (hf : f ∈ RATE_NAMES)
    (hm : isClassicMetricName m = true)
    (hmall : ∀ x ∈ m, isMetricChar x = true)
    (hdall : ∀ x ∈ d, isDurChar x = true) :
    checkCommonTypos (f ++ '(' :: (m ++ '[' :: (d ++ [']', ')']))) = [] := by
  unfold checkCommonTypos
  rw [if_neg (show ¬(searchRate none (f ++ '(' :: (m ++ '[' :: (d ++ [']', ')']))) = true)
    from by rw [rateB_search hf hm hmall hdall]; exact Bool.false_ne_true)]
  rw [if_neg (show ¬(containsSub " offset ".data
      (lowerStr (f ++ '(' :: (m ++ '[' :: (d ++ [']', ')'])))) = true)
    from by rw [rateB_offset hf hmall hdall]; exact Bool.false_ne_true)]
  rfl

theorem rateB_selectors {f m d : List Char} (hf : f ∈ RATE_NAMES)
    (hmall : ∀ x ∈ m, isMetricChar x = true)
    (hdall : ∀ x ∈ d, isDurChar x = true) :
    (checkMetricSelectors (f ++ '(' :: (m ++ '[' :: (d ++ [']', ')'])))).1 = [] := by
  show (extractUtf8Names (f ++ '(' :: (m ++ '[' :: (d ++ [']', ')'])))).flatMap
    utf8NameErrors = []
  rw [show extractUtf8Names (f ++ '(' :: (m ++ '[' :: (d ++ [']', ')']))) = [] from
    extractUtf8NamesF_no_brace _ _ (qB_no_brace hf hmall hdall)]
  rfl

theorem space_not_metric {v : Char} (h : isPySpace v = true) :
    isMetricChar v = false := by
  cases hm : isMetricChar v
  · rfl
  · rw [metricChar_not_space hm] at h
    exact absurd h Bool.false_ne_true

theorem dropWhile_eq_self_of_head {p : Char → Bool} {l : List Char}
    (h : ∀ c, l.head? = some c → p c = false) : l.dropWhile p = l := by
  cases l with
  | nil => rfl
  | cons c cs =>
    exact List.dropWhile_cons_of_neg
      (show ¬(p c = true) from by rw [h c List.head?_cons]; exact Bool.false_ne_true)

/-- `\s*\)` closes the pattern with no label-matcher block. -/
theorem matchRateClose_plain (w3 rest : List Char)
    (hw3 : ∀ x ∈ w3, isPySpace x = true) :
    matchRateClose (w3 ++ ')' :: rest) = true := by
  unfold matchRateClose
  dsimp only
  rw [dropWhile_append_all hw3, List.dropWhile_cons_of_neg (by decide)]
  rfl

/-- `\s*\{[^}]*\}\s*\)` closes the pattern with a label-matcher block. -/
theorem matchRateClose_sel (w3 inner w4 rest : List Char)
    (hw3 : ∀ x ∈ w3, isPySpace x = true) (hin : ∀ x ∈ inner, ¬(x = '}'))
    (hw4 : ∀ x ∈ w4, isPySpace x = true) :
    matchRateClose (w3 ++ '{' :: (inner ++ '}' :: (w4 ++ ')' :: rest))) = true := by
  unfold matchRateClose
  dsimp only
  rw [dropWhile_append_all hw3, List.dropWhile_cons_of_neg (by decide)]
  show (match (inner ++ '}' :: (w4 ++ ')' :: rest)).dropWhile (fun c => !(c = '}')) with
       | _ :: rest2 => ((rest2.dropWhile isPySpace).head? == some ')')
       | [] => false) = true
  have hpred : ∀ x ∈ inner, (fun c => !(c = '}')) x = true := by
    intro x hx
    have hne := hin x hx
    simp [hne]
  rw [dropWhile_append_all hpred, List.dropWhile_cons_of_neg (by decide)]
  show (((w4 ++ ')' :: rest).dropWhile isPySpace).head? == some ')') = true
  rw [dropWhile_append_all hw4, List.dropWhile_cons_of_neg (by decide)]
  rfl

/-- The tail `\s*\(\s*[a-zA-Z_:][a-zA-Z0-9_:]*` followed by any close that
`matchRateClose` accepts and that does not extend the metric run. -/
theorem matchRateTail_complete (w1 w2 m close : List Char)
    (hw1 : ∀ x ∈ w1, isPySpace x = true) (hw2 : ∀ x ∈ w2, isPySpace x = true)
    (hm : isClassicMetricName m = true)
    (hstop : close.dropWhile isMetricChar = close)
    (hcl : matchRateClose close = true) :
    matchRateTail (w1 ++ '(' :: (w2 ++ (m ++ close))) = true := by
  obtain ⟨⟨c, cs, rfl, hstart⟩, hall, _⟩ := classicMetricName_parts hm
  have hc : isPySpace c = false := metricChar_not_space (hall c (List.mem_cons_self c cs))
  have hcs : ∀ x ∈ cs, isMetricChar x = true :=
    fun x hx => hall x (List.mem_cons_of_mem c hx)
  unfold matchRateTail
  rw [dropWhile_append_all hw1, List.dropWhile_cons_of_neg (by decide)]
  show (match (w2 ++ ((c :: cs) ++ close)).dropWhile isPySpace with
        | c0 :: l4 =>
          if isMetricStart c0 = true then matchRateClose (l4.dropWhile isMetricChar)
          else false
        | [] => false) = true
  rw [dropWhile_append_all hw2,
    show ((c :: cs) ++ close) = c :: (cs ++ close) from rfl,
    List.dropWhile_cons_of_neg (by rw [hc]; exact Bool.false_ne_true)]
  show (if isMetricStart c = true then
      matchRateClose ((cs ++ close).dropWhile isMetricChar) else false) = true
  rw [if_pos hstart, dropWhile_append_all hcs, hstop, hcl]

/-- The character just before a suffix, given the text before it and the
character before that text. -/
def lastOpt (a : List Char) (prev : Option Char) : Option Char :=
  match a.getLast? with
  | some p => some p
  | none => prev

theorem lastOpt_nil (prev : Option Char) : lastOpt [] prev = prev := by
  unfold lastOpt
  rw [List.getLast?_nil]

theorem lastOpt_cons (x : Char) (xs : List Char) (prev : Option Char) :
    lastOpt (x :: xs) prev = lastOpt xs (some x) := by
  cases xs with
  | nil =>
    unfold lastOpt
    rw [List.getLast?_singleton, List.getLast?_nil]
  | cons y ys =>
    unfold lastOpt
    rw [List.getLast?_cons_cons]
    have hs : ((y :: ys).getLast?).isSome = true :=
      List.getLast?_isSome.mpr (List.cons_ne_nil y ys)
    cases h : (y :: ys).getLast? with
    | none =>
      rw [h] at hs
      exact absurd hs (by decide)
    | some p => rfl

theorem searchRate_extend :
    ∀ (a : List Char) (prev : Option Char) (l : List Char),
      searchRate (lastOpt a prev) l = true → searchRate prev (a ++ l) = true := by
  intro a
  induction a with
  | nil =>
    intro prev l h
    rw [lastOpt_nil] at h
    exact h
  | cons x xs ih =>
    intro prev l h
    rw [lastOpt_cons] at h
    show ((wordBoundary prev x && matchRateAt (x :: (xs ++ l))) ||
      searchRate (some x) (xs ++ l)) = true
    rw [ih (some x) l h, Bool.or_true]

/-- `re.search` finds the rate-family pattern wherever it occurs with a word
boundary before the function name. -/
theorem searchRate_found (a f tail : List Char)
    (hbnd : lastOpt a none = none ∨
      ∃ p, lastOpt a none = some p ∧ isWordChar p = false)
    (hf : f ∈ RATE_NAMES) (htail : matchRateTail tail = true) :
    searchRate none (a ++ (f ++ tail)) = true := by
  apply searchRate_extend
  have hfc : ∃ c cs, f = c :: cs ∧ isWordChar c = true := by
    have hf5 := hf
    simp only [RATE_NAMES, List.mem_cons, List.not_mem_nil, or_false] at hf5
    rcases hf5 with rfl | rfl | rfl | rfl | rfl <;> exact ⟨_, _, rfl, by decide⟩
  obtain ⟨c, cs, hfe, hcw⟩ := hfc
  rw [hfe]
  apply searchRate_hit
  · unfold wordBoundary
    rcases hbnd with hb | ⟨p, hp, hpw⟩
    · rw [hb]
      show ((false != isWordChar c) = true)
      rw [hcw]
      rfl
    · rw [hp]
      show ((isWordChar p != isWordChar c) = true)
      rw [hpw, hcw]
      rfl
  · exact matchRateAt_head (f := c :: cs) (hfe ▸ hf) htail

/-- C4 (amended): the `missing_range_vector` error is reported whenever a
rate-family function is applied directly to a plain metric selector
(optionally with a label-matcher block) with no range bracket — i.e. for
every query containing the shape matched by the code's regex
`\b(rate|irate|increase|delta|idelta)\s*\(\s*[a-zA-Z_:][a-zA-Z0-9_:]*\s*(?:\{[^}]*\})?\s*\)`,
in any context — with `valid = false`; and every well-formed query `f(m[d])`
yields an empty error list and `valid = true` (the original claim's
"whenever invoked with no trailing range-vector bracket" is too strong:
invocations whose argument is not a plain selector, such as `rate(sum(x))`,
are not flagged, see the counterexample). -/
theorem claim_C4_amended :
    (∀ (s : String) (a f w1 w2 m close : List Char),
      pyStrip s.data = a ++ (f ++ (w1 ++ '(' :: (w2 ++ (m ++ close)))) →
      (lastOpt a none = none ∨
        ∃ p, lastOpt a none = some p ∧ isWordChar p = false) →
      f ∈ RATE_NAMES →
      (∀ x ∈ w1, isPySpace x = true) →
      (∀ x ∈ w2, isPySpace x = true) →
      isClassicMetricName m = true →
      ((∃ w3 rest, close = w3 ++ ')' :: rest ∧ (∀ x ∈ w3, isPySpace x = true)) ∨
       (∃ w3 inner w4 rest,
         close = w3 ++ '{' :: (inner ++ '}' :: (w4 ++ ')' :: rest)) ∧
         (∀ x ∈ w3, isPySpace x = true) ∧ (∀ x ∈ inner, ¬(x = '}')) ∧
         (∀ x ∈ w4, isPySpace x = true))) →
      missingRangeVector ∈ (validate s).errors ∧ (validate s).valid = false) ∧
    (∀ (f m d : List Char), f ∈ RATE_NAMES → isClassicMetricName m = true →
      isDuration d = true →
      (validate (String.mk (f ++ '(' :: (m ++ '[' :: (d ++ [']', ')']))))).errors = [] ∧
      (validate (String.mk (f ++ '(' :: (m ++ '[' :: (d ++ [']', ')']))))).valid = true) := by
  constructor
  · intro s a f w1 w2 m close hdec hbnd hf hw1 hw2 hm hclshape
    have hfc : ∃ c cs, f = c :: cs := by
      have hf5 := hf
      simp only [RATE_NAMES, List.mem_cons, List.not_mem_nil, or_false] at hf5
      rcases hf5 with rfl | rfl | rfl | rfl | rfl <;> exact ⟨_, _, rfl⟩
    obtain ⟨c0, f0, hfe⟩ := hfc
    have hne : ¬((pyStrip s.data).isEmpty = true) := by
      rw [hdec, hfe]
      rw [show a ++ ((c0 :: f0) ++ (w1 ++ '(' :: (w2 ++ (m ++ close)))) =
        a ++ c0 :: (f0 ++ (w1 ++ '(' :: (w2 ++ (m ++ close)))) from rfl]
      rw [isEmpty_append_cons]
      exact Bool.false_ne_true
    have hsc : close.dropWhile isMetricChar = close ∧ matchRateClose close = true := by
      rcases hclshape with ⟨w3, rest, rfl, hw3⟩ |
        ⟨w3, inner, w4, rest, rfl, hw3, hin, hw4⟩
      · refine ⟨dropWhile_eq_self_of_head ?_, matchRateClose_plain w3 rest hw3⟩
        intro cc hcc
        cases w3 with
        | nil =>
          rw [List.nil_append, List.head?_cons] at hcc
          injection hcc with h
          subst h
          decide
        | cons v vs =>
          rw [show ((v :: vs) ++ ')' :: rest) = v :: (vs ++ ')' :: rest) from rfl,
            List.head?_cons] at hcc
          injection hcc with h
          subst h
          exact space_not_metric (hw3 v (List.mem_cons_self v vs))
      · refine ⟨dropWhile_eq_self_of_head ?_,
          matchRateClose_sel w3 inner w4 rest hw3 hin hw4⟩
        intro cc hcc
        cases w3 with
        | nil =>
          rw [List.nil_append, List.head?_cons] at hcc
          injection hcc with h
          subst h
          decide
        | cons v vs =>
          rw [show ((v :: vs) ++ '{' :: (inner ++ '}' :: (w4 ++ ')' :: rest))) =
            v :: (vs ++ '{' :: (inner ++ '}' :: (w4 ++ ')' :: rest))) from rfl,
            List.head?_cons] at hcc
          injection hcc with h
          subst h
          exact space_not_metric (hw3 v (List.mem_cons_self v vs))
    have htail : matchRateTail (w1 ++ '(' :: (w2 ++ (m ++ close))) = true :=
      matchRateTail_complete w1 w2 m close hw1 hw2 hm hsc.1 hsc.2
    have hsr : searchRate none (pyStrip s.data) = true := by
      rw [hdec]
      exact searchRate_found a f _ hbnd hf htail
    have h6 : missingRangeVector ∈ checkCommonTypos (pyStrip s.data) := by
      unfold checkCommonTypos
      rw [if_pos hsr]
      exact List.mem_append_left _ (List.mem_cons_self _ _)
    have hmem : missingRangeVector ∈ (validate s).errors := by
      rw [validate_errors_eq s hne]
      exact List.mem_append_right _ h6
    refine ⟨hmem, ?_⟩
    rw [validate_valid_eq]
    rcases hE : (validate s).errors with _ | ⟨x, xs⟩
    · rw [hE] at hmem
      exact absurd hmem (List.not_mem_nil _)
    · rfl
  · intro f m d hf hm hd
    obtain ⟨_, hmall, _⟩ := classicMetricName_parts hm
    obtain ⟨hdall, _⟩ := duration_chars hd
    have hBq : pyStrip (String.mk (f ++ '(' :: (m ++ '[' :: (d ++ [']', ')'])))).data =
        f ++ '(' :: (m ++ '[' :: (d ++ [']', ')'])) :=
      pyStrip_id (qB_nospace hf hmall hdall)
    have hBne : ¬((pyStrip
        (String.mk (f ++ '(' :: (m ++ '[' :: (d ++ [']', ')'])))).data).isEmpty = true) := by
      rw [hBq, isEmpty_append_cons]
      exact Bool.false_ne_true
    have hBerrs :
        (validate (String.mk (f ++ '(' :: (m ++ '[' :: (d ++ [']', ')']))))).errors = [] := by
      rw [validate_errors_eq _ hBne, hBq]
      rw [rateB_bal hf hmall hdall, rateB_selectors hf hmall hdall,
        rateB_ranges hf hd hmall hdall, rateB_calls hf hmall hdall,
        rateB_typos hf hm hmall hdall]
      rfl
    have hBvalid :
        (validate (String.mk (f ++ '(' :: (m ++ '[' :: (d ++ [']', ')']))))).valid = true := by
      rw [validate_valid_eq, hBerrs]
      rfl
    exact ⟨hBerrs, hBvalid⟩

/-- C4 (counterexample): the query `rate(sum(x))` invokes `rate` with no
trailing range-vector bracket, yet `validate` reports no error at all and
returns `valid = true`: the missing-range-vector check only matches a direct
metric-selector argument, so the claim's "whenever ... invoked with no
trailing range-vector bracket" does not hold. -/
theorem claim_C4_counterexample :
    (validate "rate(sum(x))").errors = [] ∧
    (validate "rate(sum(x))").valid = true ∧
    ¬(missingRangeVector ∈ (validate "rate(sum(x))").errors) := by
  decide

/-- C4 (witness): the flagging half applied to the decomposition of
`sum(rate(errors_total))` (a nested context) and the well-formed half at
`rate(metric_total[5m])`. -/
theorem claim_C4_witness :
    pyStrip "sum(rate(errors_total))".data =
      "sum(".data ++ ("rate".data ++
        ([] ++ '(' :: ([] ++ ("errors_total".data ++ [')', ')'])))) ∧
    (missingRangeVector ∈ (validate "sum(rate(errors_total))").errors ∧
     (validate "sum(rate(errors_total))").valid = false) ∧
    ((validate (String.mk ("rate".data ++
        '(' :: ("metric_total".data ++ '[' :: ("5m".data ++ [']', ')']))))).errors = [] ∧
     (validate (String.mk ("rate".data ++
        '(' :: ("metric_total".data ++ '[' :: ("5m".data ++ [']', ')']))))).valid = true) :=
  ⟨by decide,
   claim_C4_amended.1 "sum(rate(errors_total))" "sum(".data "rate".data [] []
     "errors_total".data [')', ')'] (by decide)
     (Or.inr ⟨'(', by decide, by decide⟩) (by decide) (by decide) (by decide)
     (by decide) (Or.inl ⟨[], [')'], rfl, by decide⟩),
   claim_C4_amended.2 "rate".data "metric_total".data "5m".data
     (by decide) (by decide) (by decide)⟩

/-! ## `check_best_practices.py`: `PromQLBestPracticesChecker` -/

/-- One dict appended to `issues`, `suggestions` or `optimizations`. -/
structure BFinding where
  ftype : String
  message : String
  severity : String
  recommendation : String
deriving DecidableEq

/-- The dict returned by `PromQLBestPracticesChecker._build_result`. -/
structure BReport where
  status : String
  query : List Char
  issues : List BFinding
  suggestions : List BFinding
  optimizations : List BFinding
  summaryErrors : Nat
  summaryWarnings : Nat
  summarySuggestions : Nat
  summaryOptimizations : Nat
deriving DecidableEq

def buildBPResult (q : List Char)
    (issues suggestions optimizations : List BFinding) : BReport :=
  let allFindings := issues ++ suggestions ++ optimizations
  let hasErrors := allFindings.any (fun i => i.severity = "error")
  let hasWarnings := allFindings.any (fun i => i.severity = "warning")
  { status :=
      if hasErrors then "ERROR"
      else if hasWarnings then "WARNING"
      else if !optimizations.isEmpty || !suggestions.isEmpty then "CAN_BE_IMPROVED"
      else "OPTIMIZED"
    query := q
    issues := issues
    suggestions := suggestions
    optimizations := optimizations
    summaryErrors := (issues.filter (fun i => i.severity = "error")).length
    summaryWarnings := (issues.filter (fun i => i.severity = "warning")).length
    summarySuggestions := suggestions.length
    summaryOptimizations := optimizations.length }

def COUNTER_SUFFIXES : List String := ["_total", "_count", "_sum", "_bucket"]

def GAUGE_PATTERNS : List String :=
  ["_bytes", "_ratio", "_usage", "_percent", "_gauge", "_celsius", "_fahrenheit",
   "_temperature", "_info", "_size", "_current", "_limit", "_available", "_free",
   "_used", "_utilization", "_capacity", "_level"]

def RATE_FUNCTIONS : List String := ["rate", "irate", "increase", "delta", "idelta"]

/-- `[a-z]` (ASCII lowercase). -/
def isAsciiLower (c : Char) : Bool := 'a' ≤ c && c ≤ 'z'

/-- `[a-z_]`. -/
def isLowerUnd (c : Char) : Bool := isAsciiLower c || c = '_'

/-- `pattern in string` (Python substring test). -/
def containsStr (needle : String) (l : List Char) : Bool := containsSub needle.data l

/-- Python `str.count` for a fixed needle (non-overlapping, left to right);
structural fuel, `l.length + 1` always suffices. -/
def countSubF (needle : List Char) : Nat → List Char → Nat
  | 0, _ => 0
  | _ + 1, [] => 0
  | fuel + 1, c :: cs =>
    if needle.isPrefixOf (c :: cs) then
      1 + countSubF needle fuel ((c :: cs).drop needle.length)
    else countSubF needle fuel cs

def countSub (needle l : List Char) : Nat := countSubF needle (l.length + 1) l

/-- `re.sub(r'\b(by|without|on|ignoring|group_left|group_right)\s*\([^)]*\)',
r'\1 ( )', query)`: the first step of `_strip_label_selectors_and_strings`. -/
def GROUPING_KEYWORDS : List String :=
  ["by", "without", "on", "ignoring", "group_left", "group_right"]

/-- If one of the grouping keywords followed by `\s*\([^)]*\)` matches at the
head of `l`, return the keyword and the rest of the input after the closing
parenthesis. -/
def matchGroupingAt (l : List Char) : Option (String × List Char) :=
  GROUPING_KEYWORDS.foldr
    (fun k acc =>
      if k.data.isPrefixOf l then
        let t1 := (l.drop k.data.length).dropWhile isPySpace
        match t1 with
        | '(' :: t2 =>
          match t2.dropWhile (fun c => !(c = ')')) with
          | _ :: rest => some (k, rest)
          | [] => acc
        | _ => acc
      else acc)
    none

def subGroupingF : Nat → Option Char → List Char → List Char
  | 0, _, _ => []
  | _ + 1, _, [] => []
  | fuel + 1, prev, c :: cs =>
    if wordBoundary prev c then
      match matchGroupingAt (c :: cs) with
      | some (k, rest) => k.data ++ (' ' :: '(' :: ' ' :: ')' :: [])
          ++ subGroupingF fuel (some ')') rest
      | none => c :: subGroupingF fuel (some c) cs
    else c :: subGroupingF fuel (some c) cs

def subGrouping (l : List Char) : List Char := subGroupingF (l.length + 1) none l

/-- The character loop of `_strip_label_selectors_and_strings`. -/
def stripLoop : Nat → Bool → Bool → List Char → List Char
  | _, _, _, [] => []
  | depth, inString, escapeNext, c :: cs =>
    if escapeNext then stripLoop depth inString false cs
    else if c = '\\' then stripLoop depth inString true cs
    else if c = '"' then stripLoop depth (!inString) false cs
    else if inString then stripLoop depth inString false cs
    else if c = '{' then ' ' :: stripLoop (depth + 1) inString false cs
    else if c = '}' then ' ' :: stripLoop (depth - 1) inString false cs
    else if depth = 0 then c :: stripLoop depth inString false cs
    else ' ' :: stripLoop depth inString false cs

def stripLabelSelectorsAndStrings (l : List Char) : List Char :=
  stripLoop 0 false false (subGrouping l)

/-- `\b` between a last matched character and the following input. -/
def boundaryAfter (last : Char) (rest : List Char) : Bool :=
  isWordChar last != (match rest.head? with | some c => isWordChar c | none => false)

/-- The negative lookahead `(?!\s*[{\(])`. -/
def lookaheadBraceParen (rest : List Char) : Bool :=
  match (rest.dropWhile isPySpace).head? with
  | some '{' => true
  | some '(' => true
  | _ => false

/-- Longest prefix (of length `k ≤ n`, `k ≥ 1`) of the maximal identifier run
`run` that is followed by `\b` and, when `lookahead` is set, not followed by
`\s*[{(]` (the backtracking of `([a-zA-Z_:][a-zA-Z0-9_:]*)\b(?!\s*[{\(])`).
Returns the accepted prefix length. -/
def identBacktrack (run rest : List Char) (lookahead : Bool) : Nat → Option Nat
  | 0 => none
  | k + 1 =>
    let tail := run.drop (k + 1) ++ rest
    match (run.take (k + 1)).getLast? with
    | some last =>
      if boundaryAfter last tail && !(lookahead && lookaheadBraceParen tail) then
        some (k + 1)
      else identBacktrack run rest lookahead k
    | none => none

/-- `re.findall(r'\b([a-zA-Z_:][a-zA-Z0-9_:]*)\b(?!\s*[{\(])', l)` when
`lookahead = true`, and `re.findall(r'\b([a-zA-Z_:][a-zA-Z0-9_:]*)\b', l)`
when `lookahead = false` (structural fuel). -/
def findIdentsF (lookahead : Bool) : Nat → Option Char → List Char → List (List Char)
  | 0, _, _ => []
  | _ + 1, _, [] => []
  | fuel + 1, prev, c :: cs =>
    if wordBoundary prev c && isMetricStart c then
      let run := c :: cs.takeWhile isMetricChar
      let rest := cs.drop (cs.takeWhile isMetricChar).length
      match identBacktrack run rest lookahead run.length with
      | some k =>
        run.take k ::
          findIdentsF lookahead fuel ((run.take k).getLast? ) (run.drop k ++ rest)
      | none => findIdentsF lookahead fuel (some c) cs
    else findIdentsF lookahead fuel (some c) cs

def findIdents (lookahead : Bool) (l : List Char) : List (List Char) :=
  findIdentsF lookahead (l.length + 1) none l

/-- `re.search` driver with `\b` at the match start. -/
def searchWB (matchAt : List Char → Bool) : Option Char → List Char → Bool
  | _, [] => false
  | prev, c :: cs => (wordBoundary prev c && matchAt (c :: cs)) || searchWB matchAt (some c) cs

/-- `re.search` driver without a leading `\b`. -/
def searchPlain (matchAt : List Char → Bool) : List Char → Bool
  | [] => false
  | c :: cs => matchAt (c :: cs) || searchPlain matchAt cs

def RESERVED_WORDS : List String :=
  ["sum", "avg", "min", "max", "count", "stddev", "stdvar", "group",
   "topk", "bottomk", "quantile", "count_values", "limitk", "limit_ratio",
   "rate", "irate", "increase", "delta", "idelta", "deriv", "predict_linear",
   "histogram_quantile", "histogram_count", "histogram_sum", "histogram_fraction",
   "histogram_avg", "histogram_stddev", "histogram_stdvar",
   "abs", "ceil", "floor", "round", "sqrt", "exp", "ln", "log2", "log10",
   "sin", "cos", "tan", "asin", "acos", "atan", "sinh", "cosh", "tanh",
   "deg", "rad", "sgn", "clamp", "clamp_max", "clamp_min", "pi",
   "timestamp", "time", "minute", "hour", "day_of_month", "day_of_week",
   "days_in_month", "month", "year",
   "label_replace", "label_join", "vector", "scalar",
   "changes", "resets", "absent", "absent_over_time", "present_over_time",
   "avg_over_time", "min_over_time", "max_over_time", "sum_over_time",
   "count_over_time", "quantile_over_time", "stddev_over_time", "stdvar_over_time",
   "last_over_time", "mad_over_time", "sort", "sort_desc", "sort_by_label",
   "sort_by_label_desc", "holt_winters", "double_exponential_smoothing", "info",
   "by", "without", "and", "or", "unless", "on", "ignoring",
   "group_left", "group_right", "bool", "offset", "start", "end",
   "inf", "nan"]

/-- `\b[a-zA-Z_:][a-zA-Z0-9_:]*\s*\{\s*\}` matched at the head. -/
def matchEmptySelAt (l : List Char) : Bool :=
  match l with
  | c :: cs =>
    if isMetricStart c then
      match (cs.dropWhile isMetricChar).dropWhile isPySpace with
      | '{' :: t2 => (t2.dropWhile isPySpace).head? == some '}'
      | _ => false
    else false
  | [] => false

/-- `\b{metric}\s*\{\s*[^}]+\s*\}` matched at the head. -/
def matchFiltersAt (metric : List Char) (l : List Char) : Bool :=
  metric.isPrefixOf l &&
    (match (l.drop metric.length).dropWhile isPySpace with
     | '{' :: t2 =>
       !(t2.takeWhile (fun c => !(c = '}'))).isEmpty &&
         ((t2.dropWhile (fun c => !(c = '}'))).head? == some '}')
     | _ => false)

/-- `_check_high_cardinality` (both findings go to `issues`). -/
def checkHighCardinality (q : List Char) : List BFinding :=
  (if searchWB matchEmptySelAt none q then
    [{ ftype := "high_cardinality"
       message := "Query uses empty label matcher \x7b\x7d which may match many time series"
       severity := "warning"
       recommendation := "Add specific label filters like \x7bjob=\"...\", instance=\"...\"\x7d to reduce cardinality" }]
   else [])
  ++ ((findIdents true (stripLabelSelectorsAndStrings q)).flatMap fun metric =>
      if !(RESERVED_WORDS.contains (String.mk (lowerStr metric))) then
        if !(searchWB (matchFiltersAt metric) none q) then
          [{ ftype := "high_cardinality"
             message := "Metric \"" ++ String.mk metric ++ "\" used without label filters"
             severity := "warning"
             recommendation := "Add label filters: " ++ String.mk metric ++
               "\x7bjob=\"...\", instance=\"...\"\x7d" }]
        else []
      else [])

/-- One match of `([a-zA-Z_][a-zA-Z0-9_]*)\s*=~\s*"([^"]+)"` at the head:
label, pattern, and the input after the match. -/
def matchRegexMatcherAt (l : List Char) : Option (List Char × List Char × List Char) :=
  match l with
  | c :: cs =>
    if isFuncStart c then
      let lab := c :: cs.takeWhile isFuncChar
      match (cs.dropWhile isFuncChar).dropWhile isPySpace with
      | '=' :: '~' :: t2 =>
        match t2.dropWhile isPySpace with
        | '"' :: t3 =>
          let pat := t3.takeWhile (fun x => !(x = '"'))
          if pat.isEmpty then none
          else
            match t3.dropWhile (fun x => !(x = '"')) with
            | _ :: rest => some (lab, pat, rest)
            | [] => none
        | _ => none
      | _ => none
    else none
  | [] => none

def findRegexMatchersF : Nat → List Char → List (List Char × List Char)
  | 0, _ => []
  | _ + 1, [] => []
  | fuel + 1, c :: cs =>
    match matchRegexMatcherAt (c :: cs) with
    | some (lab, pat, rest) => (lab, pat) :: findRegexMatchersF fuel rest
    | none => findRegexMatchersF fuel cs

def findRegexMatchers (l : List Char) : List (List Char × List Char) :=
  findRegexMatchersF (l.length + 1) l

def REGEX_METACHARS : List Char :=
  ['.', '*', '+', '?', '^', '$', '[', ']', '(', ')', '|', '\\']

/-- `_check_regex_overuse`: first component the `suggestions` it appends,
second the `optimizations`. -/
def checkRegexOveruse (q : List Char) : List BFinding × List BFinding :=
  let pairs := findRegexMatchers q
  (pairs.flatMap fun p =>
     if ".*".data.isSuffixOf p.2 then
       [{ ftype := "regex_optimization"
          message := "Regex pattern \"" ++ String.mk p.2 ++ "\" uses wildcard suffix"
          severity := "info"
          recommendation := "Consider if you can use more specific label values" }]
     else [],
   pairs.flatMap fun p =>
     let hasMeta := p.2.any (fun c => REGEX_METACHARS.contains c)
     let fullM := !p.2.isEmpty && p.2.all (fun c => c.isAlpha || c.isDigit || c = '_' || c = '-')
     if !hasMeta && fullM then
       [{ ftype := "regex_to_exact"
          message := "Label matcher " ++ String.mk p.1 ++ "=~\"" ++ String.mk p.2 ++
            "\" can be an exact match"
          severity := "info"
          recommendation := "Use " ++ String.mk p.1 ++ "=\"" ++ String.mk p.2 ++
            "\" instead of =~ for better performance" }]
     else [])

/-- Up to the first `')'` (the reach of `[^)]*` after an opening paren). -/
def parenRegion (t : List Char) : List Char := t.takeWhile (fun c => !(c = ')'))

/-- `(?:_total|_count|_sum|_bucket)\b` matched at the head of `rem`. -/
def counterSufAt (rem : List Char) : Option String :=
  COUNTER_SUFFIXES.foldr
    (fun suf acc =>
      if suf.data.isPrefixOf rem &&
          boundaryAfter (suf.data.getLastD ' ') (rem.drop suf.data.length) then
        some suf
      else acc)
    none

/-- Greedy backtracking of `[a-zA-Z0-9_:]*` before the counter suffix:
largest star length `s ≤ k` at which a suffix plus `\b` matches. -/
def counterBacktrack (R rest : List Char) : Nat → Option (Nat × String)
  | 0 =>
    match counterSufAt (R ++ rest) with
    | some suf => some (0, suf)
    | none => none
  | k + 1 =>
    match counterSufAt (R.drop (k + 1) ++ rest) with
    | some suf => some (k + 1, suf)
    | none => counterBacktrack R rest k

/-- `re.findall(r'\b([a-zA-Z_:][a-zA-Z0-9_:]*(?:_total|_count|_sum|_bucket))\b', l)`. -/
def findCountersF : Nat → Option Char → List Char → List (List Char)
  | 0, _, _ => []
  | _ + 1, _, [] => []
  | fuel + 1, prev, c :: cs =>
    if wordBoundary prev c && isMetricStart c then
      let R := cs.takeWhile isMetricChar
      let rest := cs.drop R.length
      match counterBacktrack R rest R.length with
      | some (s, suf) =>
        (c :: (R.take s ++ suf.data)) ::
          findCountersF fuel (some (suf.data.getLastD ' '))
            ((R.drop s ++ rest).drop suf.data.length)
      | none => findCountersF fuel (some c) cs
    else findCountersF fuel (some c) cs

def findCounters (l : List Char) : List (List Char) := findCountersF (l.length + 1) none l

/-- `(?:NAME1|NAME2|...)\s*\([^)]*{metric}` matched at the head. -/
def matchFuncThenMetricAt (names : List String) (metric : List Char)
    (l : List Char) : Bool :=
  names.foldr
    (fun n acc =>
      if n.data.isPrefixOf l then
        match (l.drop n.data.length).dropWhile isPySpace with
        | '(' :: t => containsSub metric (parenRegion t) || acc
        | _ => acc
      else acc)
    false

def NATIVE_HIST_ALTS : List String :=
  ["histogram_avg", "histogram_stddev", "histogram_stdvar",
   "histogram_count", "histogram_sum", "histogram_fraction"]

/-- `{a}.*{b}` (`.` does not cross a newline): an occurrence of `a` followed,
on the same line, by an occurrence of `b`. -/
def seqAB (a b : List Char) : List Char → Bool
  | [] => false
  | c :: cs =>
    (a.isPrefixOf (c :: cs) &&
      containsSub b (((c :: cs).drop a.length).takeWhile (fun x => !(x = '\n')))) ||
    seqAB a b cs

/-- `_check_missing_rate_on_counters`. -/
def checkMissingRateOnCounters (q : List Char) : List BFinding :=
  (findCounters q).flatMap fun metric =>
    if !(searchPlain (matchFuncThenMetricAt RATE_FUNCTIONS metric) q) then
      if !(searchPlain (matchFuncThenMetricAt ["histogram_quantile"] metric) q) then
        if ("_sum".data.isSuffixOf metric || "_count".data.isSuffixOf metric) &&
            (let base := if "_sum".data.isSuffixOf metric then
                metric.take (metric.length - 4)
              else metric.take (metric.length - 6)
             seqAB (base ++ "_sum".data) (base ++ "_count".data) q ||
               seqAB (base ++ "_count".data) (base ++ "_sum".data) q) then
          []
        else if searchPlain (matchFuncThenMetricAt NATIVE_HIST_ALTS metric) q then
          []
        else
          [{ ftype := "missing_rate"
             message := "Counter metric \"" ++ String.mk metric ++
               "\" used without rate() or increase()"
             severity := "warning"
             recommendation := "Use rate(" ++ String.mk metric ++
               "[5m]) to get per-second rate" }]
      else []
    else []

/-- One match of `(rate|irate|increase|delta|idelta)\s*\(\s*([a-zA-Z_:][a-zA-Z0-9_:]*)`
at the head: function, metric, rest after the match. -/
def matchRateCallAt (l : List Char) : Option (String × List Char × List Char) :=
  RATE_FUNCTIONS.foldr
    (fun n acc =>
      if n.data.isPrefixOf l then
        match (l.drop n.data.length).dropWhile isPySpace with
        | '(' :: t2 =>
          match t2.dropWhile isPySpace with
          | c :: t3 =>
            if isMetricStart c then
              some (n, c :: t3.takeWhile isMetricChar, t3.drop (t3.takeWhile isMetricChar).length)
            else acc
          | [] => acc
        | _ => acc
      else acc)
    none

def findRateCallsF : Nat → List Char → List (String × List Char)
  | 0, _ => []
  | _ + 1, [] => []
  | fuel + 1, c :: cs =>
    match matchRateCallAt (c :: cs) with
    | some (n, m, rest) => (n, m) :: findRateCallsF fuel rest
    | none => findRateCallsF fuel cs

def findRateCalls (l : List Char) : List (String × List Char) :=
  findRateCallsF (l.length + 1) l

/-- `_check_rate_on_gauges`. -/
def checkRateOnGauges (q : List Char) : List BFinding :=
  (findRateCalls q).flatMap fun p =>
    let isGauge := GAUGE_PATTERNS.any (fun pat => containsSub pat.data p.2)
    let isCounter := COUNTER_SUFFIXES.any (fun s => s.data.isSuffixOf p.2)
    if isGauge && !isCounter then
      [{ ftype := "rate_on_gauge"
         message := p.1 ++ "() used on gauge metric \"" ++ String.mk p.2 ++ "\""
         severity := "warning"
         recommendation := "Gauges should not use rate(). Use avg_over_time(" ++
           String.mk p.2 ++ "[5m]) or remove rate()" }]
    else []

/-- `[^}]*quantile\s*=` scanned from just after a `{`. -/
def quantScan : List Char → Bool
  | [] => false
  | c :: cs =>
    ("quantile".data.isPrefixOf (c :: cs) &&
      ((((c :: cs).drop 8).dropWhile isPySpace).head? == some '=')) ||
    (if c = '}' then false else quantScan cs)

/-- `[^)]*\{` then `quantScan`, scanned from just after `avg\s*\(`. -/
def braceScan : List Char → Bool
  | [] => false
  | c :: cs =>
    if c = ')' then false
    else if c = '{' then quantScan cs || braceScan cs
    else braceScan cs

/-- `avg\s*\([^)]*\{[^}]*quantile\s*=` matched at the head. -/
def matchAvgQAt (l : List Char) : Bool :=
  "avg".data.isPrefixOf l &&
    (match (l.drop 3).dropWhile isPySpace with
     | '(' :: t => braceScan t
     | _ => false)

/-- `re.search(r'avg\s*\([^)]*\{[^}]*quantile\s*=', query)`. -/
def searchAvgQuantile (q : List Char) : Bool := searchPlain matchAvgQAt q

def averagingQuantiles : BFinding :=
  { ftype := "averaging_quantiles"
    message := "Averaging pre-calculated quantiles is mathematically invalid"
    severity := "error"
    recommendation := "Use histogram_quantile() with histogram buckets instead" }

/-- `_check_averaging_quantiles`. -/
def checkAveragingQuantiles (q : List Char) : List BFinding :=
  if searchAvgQuantile q then [averagingQuantiles] else []

def digitsToNat (ds : List Char) : Nat :=
  ds.foldl (fun a c => a * 10 + (c.toNat - 48)) 0

def unitFactor (u : Char) : Nat :=
  if u = 's' then 1
  else if u = 'm' then 60
  else if u = 'h' then 3600
  else if u = 'd' then 86400
  else if u = 'w' then 604800
  else if u = 'y' then 31536000
  else 1

/-- `\s*(\d+)?([smhdwy])?\]` after a `:` inside a subquery bracket. -/
def colonTailOk (cs : List Char) : Bool :=
  let t := cs.dropWhile isPySpace
  let t2 := t.drop (t.takeWhile Char.isDigit).length
  let t3 := match t2 with
    | u :: r => if isOffsetUnit u then r else t2
    | [] => t2
  t3.head? == some ']'

/-- `[^\]]*:` then the optional resolution, backtracking over `:` choices. -/
def subqColon : List Char → Bool
  | [] => false
  | c :: cs =>
    if c = ']' then false
    else if c = ':' then colonTailOk cs || subqColon cs
    else subqColon cs

/-- `\[(\d+)([smhdwy])[^\]]*:\s*(\d+)?([smhdwy])?\]` at the head: the first
two captures. -/
def matchSubqueryAt (l : List Char) : Option (List Char × Char) :=
  match l with
  | '[' :: t =>
    let ds := t.takeWhile Char.isDigit
    if ds.isEmpty then none
    else
      match t.drop ds.length with
      | u :: t2 =>
        if isOffsetUnit u && subqColon t2 then some (ds, u) else none
      | [] => none
  | _ => none

def findSubqueriesF : Nat → List Char → List (List Char × Char)
  | 0, _ => []
  | _ + 1, [] => []
  | fuel + 1, c :: cs =>
    match matchSubqueryAt (c :: cs) with
    | some (ds, u) =>
      (ds, u) :: findSubqueriesF fuel
        (((c :: cs).dropWhile (fun x => !(x = ']'))).drop 1)
    | none => findSubqueriesF fuel cs

def findSubqueries (l : List Char) : List (List Char × Char) :=
  findSubqueriesF (l.length + 1) l

/-- `_check_subquery_performance`. -/
def checkSubqueryPerformance (q : List Char) : List BFinding :=
  (findSubqueries q).flatMap fun p =>
    if digitsToNat p.1 * unitFactor p.2 > 604800 then
      [{ ftype := "expensive_subquery"
         message := "Subquery spans " ++ String.mk p.1 ++ String.mk [p.2] ++
           " which may be very slow"
         severity := "warning"
         recommendation := "Consider using recording rules or reducing the time range" }]
    else []

/-- `\[(\d+)(UNITS)\]` at the head of `cs` (after the `[`), where `UNITS` is
`(ms|s|m|h|d|w|y)` when `allowMs` and `[smhdwy]` otherwise. Returns digits,
unit and the rest after the `]`. -/
def bracketDur (allowMs : Bool) (cs : List Char) : Option (List Char × String × List Char) :=
  let ds := cs.takeWhile Char.isDigit
  if ds.isEmpty then none
  else
    match cs.drop ds.length with
    | 'm' :: 's' :: ']' :: r => if allowMs then some (ds, "ms", r) else none
    | u :: ']' :: r =>
      if isOffsetUnit u then some (ds, String.mk [u], r) else none
    | _ => none

/-- Greedy `[^)]*\[(\d+)(U)\]`: the last duration bracket inside the
parenthesis region (structural fuel). -/
def rangeScanGreedyF (allowMs : Bool) : Nat → List Char → Option (List Char × String × List Char)
  | 0, _ => none
  | _ + 1, [] => none
  | fuel + 1, c :: cs =>
    if c = ')' then none
    else if c = '[' then
      match bracketDur allowMs cs with
      | some (ds, u, r) =>
        match rangeScanGreedyF allowMs fuel r with
        | some m => some m
        | none => some (ds, u, r)
      | none => rangeScanGreedyF allowMs fuel cs
    else rangeScanGreedyF allowMs fuel cs

/-- `{name}\s*\([^)]*\[(\d+)(U)\]` at the head. -/
def matchNameRangeAt (name : String) (allowMs : Bool)
    (l : List Char) : Option (List Char × String × List Char) :=
  if name.data.isPrefixOf l then
    match (l.drop name.data.length).dropWhile isPySpace with
    | '(' :: t => rangeScanGreedyF allowMs (t.length + 1) t
    | _ => none
  else none

def findNameRangesF (name : String) (allowMs : Bool) : Nat → List Char → List (List Char × String)
  | 0, _ => []
  | _ + 1, [] => []
  | fuel + 1, c :: cs =>
    match matchNameRangeAt name allowMs (c :: cs) with
    | some (ds, u, rest) => (ds, u) :: findNameRangesF name allowMs fuel rest
    | none => findNameRangesF name allowMs fuel cs

def findNameRanges (name : String) (allowMs : Bool) (l : List Char) :
    List (List Char × String) :=
  findNameRangesF name allowMs (l.length + 1) l

def durStrSeconds (ds : List Char) (u : String) : Nat :=
  if u = "ms" then digitsToNat ds / 1000
  else digitsToNat ds * unitFactor (u.data.getLastD 's')

/-- `_check_irate_range`. -/
def checkIrateRange (q : List Char) : List BFinding :=
  (findNameRanges "irate" false q).flatMap fun p =>
    if durStrSeconds p.1 p.2 > 300 then
      [{ ftype := "irate_long_range"
         message := "irate() used with " ++ String.mk p.1 ++ p.2 ++
           " range - irate only looks at last 2 samples"
         severity := "warning"
         recommendation := "Use rate() for ranges > 5m, or reduce irate range to [2m]" }]
    else []

/-- `_check_rate_range`. -/
def checkRateRange (q : List Char) : List BFinding :=
  (findNameRanges "rate" true q).flatMap fun p =>
    if durStrSeconds p.1 p.2 < 120 then
      [{ ftype := "rate_short_range"
         message := "rate() used with very short range [" ++ String.mk p.1 ++ p.2 ++ "]"
         severity := "warning"
         recommendation := "Rate range should be at least 4x scrape interval, typically [2m] or more" }]
    else []

def AGGREGATIONS : List String := ["sum", "avg", "min", "max", "count"]

/-- `(>|<|>=|<=|==|!=)\s*[\d\.]` at the head (the `\s*` prefix of the
alerting-detection pattern does not affect whether a search succeeds). -/
def matchCompareAt (l : List Char) : Bool :=
  let chk := fun (n : List Char) =>
    n.isPrefixOf l &&
      (match ((l.drop n.length).dropWhile isPySpace).head? with
       | some c => c.isDigit || c = '.'
       | none => false)
  chk ['>'] || chk ['<'] || chk ['>', '='] || chk ['<', '='] ||
    chk ['=', '='] || chk ['!', '=']

/-- `{agg}\s*\([^)]+\)(?!\s*(?:by|without)\s*\()` at the head. -/
def matchAggNoByAt (agg : String) (l : List Char) : Bool :=
  agg.data.isPrefixOf l &&
    (match (l.drop agg.data.length).dropWhile isPySpace with
     | '(' :: t =>
       !(parenRegion t).isEmpty &&
         (match t.drop (parenRegion t).length with
          | ')' :: after =>
            let a2 := after.dropWhile isPySpace
            if "by".data.isPrefixOf a2 then
              !(((a2.drop 2).dropWhile isPySpace).head? == some '(')
            else if "without".data.isPrefixOf a2 then
              !(((a2.drop 7).dropWhile isPySpace).head? == some '(')
            else true
          | _ => false)
     | _ => false)

/-- `_check_unbounded_queries`. -/
def checkUnboundedQueries (q : List Char) : List BFinding :=
  let isAlerting := searchPlain matchCompareAt q
  AGGREGATIONS.flatMap fun agg =>
    if searchPlain (matchAggNoByAt agg) q then
      if isAlerting then
        [{ ftype := "missing_aggregation_clause"
           message := agg ++ "() used without by() or without() clause (likely intentional for alerting)"
           severity := "info"
           recommendation := "Full aggregation is common for alerting queries. Add \"by (label)\" only if you need per-label alerts." }]
      else
        [{ ftype := "missing_aggregation_clause"
           message := agg ++ "() used without by() or without() clause"
           severity := "info"
           recommendation := "Consider adding \"by (label)\" or \"without (label)\" to " ++
             agg ++ "() for clearer results" }]
    else []

/-- `count\s*\([^)]+\)(?!\s*by)` at the head. -/
def matchCountNoByAt (l : List Char) : Bool :=
  "count".data.isPrefixOf l &&
    (match (l.drop 5).dropWhile isPySpace with
     | '(' :: t =>
       !(parenRegion t).isEmpty &&
         (match t.drop (parenRegion t).length with
          | ')' :: after => !("by".data.isPrefixOf (after.dropWhile isPySpace))
          | _ => false)
     | _ => false)

/-- `_check_aggregation_best_practices`. -/
def checkAggregationBestPractices (q : List Char) : List BFinding :=
  if searchPlain matchCountNoByAt q then
    [{ ftype := "count_without_by"
       message := "count() used without by() - this counts all matching series"
       severity := "info"
       recommendation := "If you want to count by label, use: count(...) by (label)" }]
  else []

/-- `len(re.findall(r'\b[a-z_]+\s*\(', query))`. -/
def countFuncCallsF : Nat → Option Char → List Char → Nat
  | 0, _, _ => 0
  | _ + 1, _, [] => 0
  | fuel + 1, prev, c :: cs =>
    if wordBoundary prev c && isLowerUnd c then
      let R := cs.takeWhile isLowerUnd
      let rest := cs.drop R.length
      match rest.dropWhile isPySpace with
      | '(' :: after => 1 + countFuncCallsF fuel (some '(') after
      | _ => countFuncCallsF fuel (some (R.getLastD c)) rest
    else countFuncCallsF fuel (some c) cs

def countFuncCalls (l : List Char) : Nat := countFuncCallsF (l.length + 1) none l

def AGGS4 : List String := ["sum", "avg", "min", "max"]

/-- Scan a `[^)]*` region for `\b(sum|avg|min|max)\s*\(`. -/
def nestedInnerScan : Option Char → List Char → Bool
  | _, [] => false
  | prev, c :: cs =>
    if c = ')' then false
    else
      (wordBoundary prev c &&
        AGGS4.any (fun a =>
          a.data.isPrefixOf (c :: cs) &&
            (match ((c :: cs).drop a.data.length).dropWhile isPySpace with
             | '(' :: _ => true
             | _ => false))) ||
      nestedInnerScan (some c) cs

/-- `(sum|avg|min|max)\s*\([^)]*\b(sum|avg|min|max)\s*\(` at the head. -/
def matchNestedAggAt (l : List Char) : Bool :=
  AGGS4.any fun a =>
    a.data.isPrefixOf l &&
      (match (l.drop a.data.length).dropWhile isPySpace with
       | '(' :: t => nestedInnerScan (some '(') t
       | _ => false)

/-- `\[[^\]]+:[^\]]+\]` at the head. -/
def matchSubqBracketAt (l : List Char) : Bool :=
  match l with
  | '[' :: t =>
    let R := t.takeWhile (fun c => !(c = ']'))
    ((t.drop R.length).head? == some ']') && (R.drop 1).dropLast.contains ':'
  | _ => false

/-- `_check_recording_rule_opportunity`. -/
def checkRecordingRuleOpportunity (q : List Char) : List BFinding :=
  let score :=
    (if countFuncCalls q ≥ 3 then 1 else 0) +
    (if searchPlain matchNestedAggAt q then 1 else 0) +
    (if searchPlain matchSubqBracketAt q then 1 else 0) +
    (if q.length > 150 then 1 else 0)
  if score ≥ 2 then
    [{ ftype := "recording_rule_opportunity"
       message := "Query is complex and may benefit from recording rules"
       severity := "info"
       recommendation := "Consider creating recording rules if this query is used frequently" }]
  else []

/-- `_check_label_matcher_efficiency`. -/
def checkLabelMatcherEfficiency (q : List Char) : List BFinding :=
  if countSub " or ".data q ≥ 2 then
    [{ ftype := "multiple_or_conditions"
       message := "Multiple OR conditions found"
       severity := "info"
       recommendation := "Consider using regex matcher =~ \"value1|value2|value3\" if checking same label" }]
  else []

/-- `{name}\s*\(` at the head. -/
def matchWordParenAt (name : String) (l : List Char) : Bool :=
  name.data.isPrefixOf l &&
    (((l.drop name.data.length).dropWhile isPySpace).head? == some '(')

/-- Scan a `[^)]*` region for `\ble\b`. -/
def leScan : Option Char → List Char → Bool
  | _, [] => false
  | prev, c :: cs =>
    if c = ')' then false
    else
      (wordBoundary prev c && "le".data.isPrefixOf (c :: cs) &&
        boundaryAfter 'e' ((c :: cs).drop 2)) ||
      leScan (some c) cs

/-- `\bby\s*\([^)]*\ble\b` at the head. -/
def matchByLeAt (l : List Char) : Bool :=
  "by".data.isPrefixOf l &&
    (match (l.drop 2).dropWhile isPySpace with
     | '(' :: t => leScan (some '(') t
     | _ => false)

/-- `_check_histogram_usage`. -/
def checkHistogramUsage (q : List Char) : List BFinding :=
  if containsStr "histogram_quantile" q then
    let hasRate := searchWB (matchWordParenAt "rate") none q
    let hasBucket := containsStr "_bucket" q
    (if hasBucket && !hasRate then
      [{ ftype := "histogram_missing_rate"
         message := "histogram_quantile() should use rate() on bucket metrics"
         severity := "warning"
         recommendation := "Use: histogram_quantile(0.95, sum by (le) (rate(metric_bucket[5m])))" }]
     else [])
    ++ (if hasBucket && !(searchWB matchByLeAt none q) then
      [{ ftype := "histogram_missing_le"
         message := "histogram_quantile() with classic histograms should aggregate by (le) label"
         severity := "warning"
         recommendation := "Include \"le\" in the by() clause: sum by (job, le) (...)" }]
     else [])
  else []

/-- `_check_deprecated_functions`. -/
def checkDeprecatedFunctions (q : List Char) : List BFinding :=
  if searchWB (matchWordParenAt "holt_winters") none q then
    [{ ftype := "deprecated_function"
       message := "holt_winters() is deprecated in Prometheus 3.0"
       severity := "warning"
       recommendation := "Use double_exponential_smoothing() instead (requires --enable-feature=promql-experimental-functions)" }]
  else []

/-- `_check_predict_linear_range`. -/
def checkPredictLinearRange (q : List Char) : List BFinding :=
  (findNameRanges "predict_linear" true q).flatMap fun p =>
    if durStrSeconds p.1 p.2 < 600 then
      [{ ftype := "predict_linear_short_range"
         message := "predict_linear() used with short range [" ++ String.mk p.1 ++ p.2 ++ "]"
         severity := "warning"
         recommendation := "predict_linear() needs sufficient data for reliable predictions. Use at least [10m] or longer." }]
    else []

/-- `/\s*(?:rate|increase)\s*\([^)]*(?:_count|_total)[^)]*\)` at the head. -/
def matchDivRateAt (l : List Char) : Bool :=
  match l with
  | '/' :: t =>
    let t1 := t.dropWhile isPySpace
    ["rate", "increase"].any fun n =>
      n.data.isPrefixOf t1 &&
        (match (t1.drop n.data.length).dropWhile isPySpace with
         | '(' :: t2 =>
           (containsSub "_count".data (parenRegion t2) ||
             containsSub "_total".data (parenRegion t2)) &&
             ((t2.drop (parenRegion t2).length).head? == some ')')
         | _ => false)
  | _ => false

/-- `_check_division_by_zero_risk`. -/
def checkDivisionByZeroRisk (q : List Char) : List BFinding :=
  if searchPlain matchDivRateAt q then
    [{ ftype := "division_by_zero_risk"
       message := "Division by rate() or increase() of counter may result in NaN if denominator is 0"
       severity := "info"
       recommendation := "Consider using \"or vector(0)\" or \"> 0\" filter to handle zero denominators" }]
  else []

/-- `_check_changes_resets_alerting`. -/
def checkChangesResetsAlerting (q : List Char) : List BFinding :=
  if searchWB (fun l => matchWordParenAt "changes" l || matchWordParenAt "resets" l)
      none q then
    [{ ftype := "changes_resets_limitation"
       message := "changes() and resets() only detect changes between scraped samples"
       severity := "info"
       recommendation := "Events occurring between scrapes will be missed. For alerting, consider alternative approaches." }]
  else []

def HTTP_METHODS : List String := ["GET", "POST", "PUT", "DELETE", "PATCH"]

/-- After at least one `[a-zA-Z_]` character: look for `_(METHOD)_[a-zA-Z_]`. -/
def d1walk : List Char → Bool
  | [] => false
  | c :: cs =>
    (HTTP_METHODS.any fun M =>
      ('_' :: (M.data ++ ['_'])).isPrefixOf (c :: cs) &&
        (match (c :: cs).drop (M.data.length + 2) with
         | z :: _ => isFuncStart z
         | [] => false)) ||
    (if isFuncStart c then d1walk cs else false)

/-- After at least one `[a-zA-Z_]` character: look for `_\d+_[a-zA-Z_]`. -/
def d2walk : List Char → Bool
  | [] => false
  | c :: cs =>
    (c = '_' &&
      (let ds := cs.takeWhile Char.isDigit
       !ds.isEmpty &&
         (match cs.drop ds.length with
          | '_' :: z :: _ => isFuncStart z
          | _ => false))) ||
    (if isFuncStart c then d2walk cs else false)

/-- After at least one `[a-zA-Z_]` character: look for
`_(2\d\d|3\d\d|4\d\d|5\d\d)_[a-zA-Z_]`. -/
def d3walk : List Char → Bool
  | [] => false
  | c :: cs =>
    (c = '_' &&
      (match cs with
       | a :: b :: c2 :: '_' :: z :: _ =>
         (a = '2' || a = '3' || a = '4' || a = '5') && b.isDigit && c2.isDigit &&
           isFuncStart z
       | _ => false)) ||
    (if isFuncStart c then d3walk cs else false)

def matchDim1At (l : List Char) : Bool :=
  match l with
  | c :: cs => isFuncStart c && d1walk cs
  | [] => false

def matchDim2At (l : List Char) : Bool :=
  match l with
  | c :: cs => isFuncStart c && d2walk cs
  | [] => false

def matchDim3At (l : List Char) : Bool :=
  match l with
  | c :: cs => isFuncStart c && d3walk cs
  | [] => false

/-- `_check_dimensional_metric_names` (one suggestion at most, `break`). -/
def checkDimensionalMetricNames (q : List Char) : List BFinding :=
  if searchWB matchDim1At none q || searchWB matchDim2At none q ||
      searchWB matchDim3At none q then
    [{ ftype := "dimensional_metric_name"
       message := "Metric name appears to embed dimensions (method, status code, or index)"
       severity := "info"
       recommendation := "Move dimensions to labels instead of embedding in metric names. Example: http_requests_total\x7bmethod=\"GET\", status=\"200\"\x7d" }]
  else []

def ABSENT_AGGS : List String :=
  ["sum", "avg", "min", "max", "count", "group", "stddev", "stdvar"]

/-- `absent\s*\(\s*(sum|avg|min|max|count|group|stddev|stdvar)\s*\(` at the head. -/
def matchAbsentAggAt (l : List Char) : Bool :=
  "absent".data.isPrefixOf l &&
    (match (l.drop 6).dropWhile isPySpace with
     | '(' :: t =>
       let t2 := t.dropWhile isPySpace
       ABSENT_AGGS.any fun a =>
         a.data.isPrefixOf t2 &&
           (((t2.drop a.data.length).dropWhile isPySpace).head? == some '(')
     | _ => false)

/-- `absent\s*\([^)]+\)\s*by\s*\(` at the head. -/
def matchAbsentByAt (l : List Char) : Bool :=
  "absent".data.isPrefixOf l &&
    (match (l.drop 6).dropWhile isPySpace with
     | '(' :: t =>
       !(parenRegion t).isEmpty &&
         (match t.drop (parenRegion t).length with
          | ')' :: after =>
            let a2 := after.dropWhile isPySpace
            "by".data.isPrefixOf a2 &&
              (((a2.drop 2).dropWhile isPySpace).head? == some '(')
          | _ => false)
     | _ => false)

/-- `_check_absent_with_aggregation`. -/
def checkAbsentWithAggregation (q : List Char) : List BFinding :=
  (if searchPlain matchAbsentAggAt q then
    [{ ftype := "absent_with_aggregation"
       message := "absent() with aggregation may not work as expected"
       severity := "warning"
       recommendation := "absent() checks if a selector returns no data. Aggregations return data if ANY series matches. For per-label absence, use: group(present_over_time(metric[range])) unless group(metric)" }]
   else [])
  ++ (if searchPlain matchAbsentByAt q then
    [{ ftype := "absent_with_by"
       message := "absent() does not support by() clause for per-label grouping"
       severity := "error"
       recommendation := "absent() returns a single value. For per-label absence detection, use: group(present_over_time(metric[range])) by (labels) unless group(metric) by (labels)" }]
   else [])

/-- `\*\s*on\s*\([^)]+\)\s*[a-zA-Z_]+_info\b` at the head. -/
def matchStarOnInfoAt (l : List Char) : Bool :=
  match l with
  | '*' :: t =>
    let t1 := t.dropWhile isPySpace
    "on".data.isPrefixOf t1 &&
      (match (t1.drop 2).dropWhile isPySpace with
       | '(' :: t2 =>
         !(parenRegion t2).isEmpty &&
           (match t2.drop (parenRegion t2).length with
            | ')' :: after =>
              let a2 := after.dropWhile isPySpace
              let R := a2.takeWhile isFuncStart
              decide (6 ≤ R.length) && "_info".data.isSuffixOf R &&
                boundaryAfter 'o' (a2.drop R.length)
            | _ => false)
       | _ => false)
  | _ => false

/-- `\bon\s*\(\s*\)` at the head. -/
def matchOnEmptyAt (l : List Char) : Bool :=
  "on".data.isPrefixOf l &&
    (match (l.drop 2).dropWhile isPySpace with
     | '(' :: t => (t.dropWhile isPySpace).head? == some ')'
     | _ => false)

/-- `_check_vector_matching`: first component the `issues`, second the
`suggestions`. -/
def checkVectorMatching (q : List Char) : List BFinding × List BFinding :=
  let lower := lowerStr q
  let hasGL := containsStr "group_left" lower
  let hasGR := containsStr "group_right" lower
  ((if searchPlain matchStarOnInfoAt q && !hasGL && !hasGR then
      [{ ftype := "info_metric_missing_group"
         message := "Joining with _info metric without group_left()"
         severity := "warning"
         recommendation := "Info metric joins typically need group_left() to bring labels from the info metric. Use: metric * on(job, instance) group_left(label1, label2) info_metric" }]
    else [])
   ++ (if searchWB (fun l => matchWordParenAt "group_left" l ||
          matchWordParenAt "group_right" l) none lower &&
        !(containsStr "on(" lower) && !(containsStr "ignoring(" lower) then
      [{ ftype := "group_without_matching"
         message := "group_left()/group_right() used without on() or ignoring()"
         severity := "error"
         recommendation := "group_left()/group_right() requires on() or ignoring() to specify matching labels" }]
    else []),
   (if searchWB matchOnEmptyAt none lower then
      [{ ftype := "on_empty_labels"
         message := "on() with empty labels matches all series"
         severity := "info"
         recommendation := "on() with empty parentheses ignores all labels for matching. Ensure this is intentional." }]
    else [])
   ++ (if (containsStr "on(" lower || containsStr "ignoring(" lower) &&
        !hasGL && !hasGR then
      [{ ftype := "vector_matching_cardinality"
         message := "Binary operation with on()/ignoring() assumes one-to-one matching"
         severity := "info"
         recommendation := "If you have many-to-one or one-to-many cardinality, add group_left() or group_right(). Error \"multiple matches for labels\" indicates cardinality mismatch." }]
    else []))

def NATIVE3 : List String := ["histogram_avg", "histogram_stddev", "histogram_stdvar"]

/-- One match of `\b(histogram_avg|histogram_stddev|histogram_stdvar)\s*\(`:
the captured name and the rest after the `(`. -/
def matchNative3At (l : List Char) : Option (String × List Char) :=
  NATIVE3.foldr
    (fun n acc =>
      if n.data.isPrefixOf l then
        match (l.drop n.data.length).dropWhile isPySpace with
        | '(' :: after => some (n, after)
        | _ => acc
      else acc)
    none

def findNative3F : Nat → Option Char → List Char → List String
  | 0, _, _ => []
  | _ + 1, _, [] => []
  | fuel + 1, prev, c :: cs =>
    if wordBoundary prev c then
      match matchNative3At (c :: cs) with
      | some (n, after) => n :: findNative3F fuel (some '(') after
      | none => findNative3F fuel (some c) cs
    else findNative3F fuel (some c) cs

def findNative3 (l : List Char) : List String := findNative3F (l.length + 1) none l

/-- `{func}\s*\(\s*rate\s*\(` at the head. -/
def matchFuncRateAt (func : String) (l : List Char) : Bool :=
  func.data.isPrefixOf l &&
    (match (l.drop func.data.length).dropWhile isPySpace with
     | '(' :: t =>
       let t2 := t.dropWhile isPySpace
       "rate".data.isPrefixOf t2 &&
         (((t2.drop 4).dropWhile isPySpace).head? == some '(')
     | _ => false)

/-- `_check_native_histogram_usage`: first component the `issues`, second
the `suggestions`. -/
def checkNativeHistogramUsage (q : List Char) : List BFinding × List BFinding :=
  ((findNative3 q).flatMap fun func =>
    if !(searchPlain (matchFuncRateAt func) q) then
      [{ ftype := "native_histogram_missing_rate"
         message := func ++ "() should use rate() on the histogram metric"
         severity := "warning"
         recommendation := "Use: " ++ func ++ "(rate(histogram_metric[5m]))" }]
    else [],
   (if containsStr "histogram_quantile" q &&
        !(containsStr "_bucket" q) && searchWB matchByLeAt none q then
      [{ ftype := "native_histogram_unnecessary_le"
         message := "Native histograms do not need \"le\" label in aggregation"
         severity := "info"
         recommendation := "For native histograms, simplify to: histogram_quantile(0.95, sum by (job) (rate(metric[5m])))" }]
    else [])
   ++ (if (searchWB (matchWordParenAt "histogram_count") none q ||
          searchWB (matchWordParenAt "histogram_sum") none q) &&
        !(searchPlain (fun l => matchFuncRateAt "histogram_count" l ||
            matchFuncRateAt "histogram_sum" l) q) then
      [{ ftype := "histogram_helper_without_rate"
         message := "histogram_count()/histogram_sum() typically need rate() for meaningful results"
         severity := "info"
         recommendation := "Use: histogram_count(rate(histogram_metric[5m])) to get observations per second" }]
    else []))

def joinSep (sep : String) : List String → String
  | [] => ""
  | [x] => x
  | x :: xs => x ++ sep ++ joinSep sep xs

/-- `{metric}\s*\{[^}]*quantile\s*=` at the head. -/
def matchMetricQuantileAt (metric : List Char) (l : List Char) : Bool :=
  metric.isPrefixOf l &&
    (match (l.drop metric.length).dropWhile isPySpace with
     | '{' :: t2 => quantScan t2
     | _ => false)

def addType (st : List String × List (String × String)) (t : String) (ex : String) :
    List String × List (String × String) :=
  (if st.1.contains t then st.1 else st.1 ++ [t],
   if st.2.any (fun p => p.1 = t) then st.2 else st.2 ++ [(t, ex)])

/-- `_check_mixed_metric_types`. -/
def checkMixedMetricTypes (q : List Char) : List BFinding :=
  let isClassic := containsStr "histogram_quantile" q && containsStr "_bucket" q
  let clean := stripLabelSelectorsAndStrings q
  let metrics := (findIdents false clean).filter
    (fun m => !(RESERVED_WORDS.contains (String.mk (lowerStr m))))
  let st0 := metrics.foldl
    (fun st m =>
      if "_bucket".data.isSuffixOf m && isClassic then st
      else if COUNTER_SUFFIXES.any (fun s => s.data.isSuffixOf m) then
        addType st "counter" (String.mk m)
      else if GAUGE_PATTERNS.any (fun p => containsSub p.data m) then
        addType st "gauge" (String.mk m)
      else if containsStr "quantile" q && containsSub m q &&
          searchPlain (matchMetricQuantileAt m) q then
        addType st "summary" (String.mk m)
      else st)
    ([], [])
  let st1 := if containsStr "histogram_quantile" q && !isClassic then
      addType st0 "histogram" "(histogram_quantile usage)"
    else st0
  if 2 ≤ st1.1.length &&
      (['+', '-', '*', '/'].any (fun c => q.contains c)) then
    [{ ftype := "mixed_metric_types"
       message := "Query combines different metric types (" ++
         joinSep ", " (["counter", "gauge", "histogram", "summary"].filter
           (fun t => st1.1.contains t)) ++ ") in arithmetic operations"
       severity := "warning"
       recommendation := "Mixing metric types often produces meaningless results. Examples found: " ++
         joinSep "; " (st1.2.map (fun p => p.1 ++ ": " ++ p.2)) ++
         ". Consider separating into distinct queries or ensure the combination makes semantic sense." }]
  else []

/-- The `issues` list collected by `check`, in execution order. -/
def bpIssues (q : List Char) : List BFinding :=
  checkHighCardinality q
  ++ checkMissingRateOnCounters q
  ++ checkRateOnGauges q
  ++ checkAveragingQuantiles q
  ++ checkSubqueryPerformance q
  ++ checkIrateRange q
  ++ checkRateRange q
  ++ checkHistogramUsage q
  ++ checkDeprecatedFunctions q
  ++ checkPredictLinearRange q
  ++ checkAbsentWithAggregation q
  ++ (checkVectorMatching q).1
  ++ (checkNativeHistogramUsage q).1
  ++ checkMixedMetricTypes q

/-- The `suggestions` list collected by `check`, in execution order. -/
def bpSuggestions (q : List Char) : List BFinding :=
  (checkRegexOveruse q).1
  ++ checkUnboundedQueries q
  ++ checkAggregationBestPractices q
  ++ checkRecordingRuleOpportunity q
  ++ checkLabelMatcherEfficiency q
  ++ checkDivisionByZeroRisk q
  ++ checkChangesResetsAlerting q
  ++ checkDimensionalMetricNames q
  ++ (checkVectorMatching q).2
  ++ (checkNativeHistogramUsage q).2

/-- The `optimizations` list collected by `check`. -/
def bpOptimizations (q : List Char) : List BFinding := (checkRegexOveruse q).2

/-- `PromQLBestPracticesChecker.check` (the constructor strips the query). -/
def check (query : String) : BReport :=
  let q := pyStrip query.data
  if q.isEmpty then buildBPResult q [] [] []
  else buildBPResult q (bpIssues q) (bpSuggestions q) (bpOptimizations q)

/-! ## C2: status derivation of the best-practices report -/

theorem mem_ite_nil {p : Prop} [Decidable p] {l : List BFinding} {e : BFinding}
    (h : e ∈ (if p then l else [])) : e ∈ l := by
  split at h
  · exact h
  · exact absurd h (List.not_mem_nil e)

theorem bpSuggestions_info (q : List Char) :
    ∀ e ∈ bpSuggestions q, e.severity = "info" := by
  intro e h
  unfold bpSuggestions checkRegexOveruse checkUnboundedQueries
    checkAggregationBestPractices checkRecordingRuleOpportunity
    checkLabelMatcherEfficiency checkDivisionByZeroRisk
    checkChangesResetsAlerting checkDimensionalMetricNames
    checkVectorMatching checkNativeHistogramUsage at h
  dsimp only at h
  repeat' rcases List.mem_append.mp h with h | h
  all_goals
    first
      | (exact absurd h (List.not_mem_nil e))
      | (obtain ⟨a, ha, h⟩ := List.mem_flatMap.mp h
         have h2 := mem_ite_nil h
         first
           | (rw [List.mem_singleton] at h2; subst h2; rfl)
           | (split at h2 <;> (rw [List.mem_singleton] at h2; subst h2; rfl)))
      | (have h2 := mem_ite_nil h
         first
           | (rw [List.mem_singleton] at h2; subst h2; rfl)
           | (split at h2 <;> (rw [List.mem_singleton] at h2; subst h2; rfl)))

theorem bpOptimizations_info (q : List Char) :
    ∀ e ∈ bpOptimizations q, e.severity = "info" := by
  intro e h
  unfold bpOptimizations checkRegexOveruse at h
  dsimp only at h
  obtain ⟨p, _, h⟩ := List.mem_flatMap.mp h
  have h2 := mem_ite_nil h
  rw [List.mem_singleton] at h2
  subst h2
  rfl

theorem buildBPResult_status_claim (q : List Char) (i s o : List BFinding)
    (hs : ∀ e ∈ s, e.severity = "info") (ho : ∀ e ∈ o, e.severity = "info") :
    (buildBPResult q i s o).status =
      (if ((buildBPResult q i s o).issues ++ (buildBPResult q i s o).suggestions ++
            (buildBPResult q i s o).optimizations).any
          (fun x => x.severity = "error") then "ERROR"
       else if ((buildBPResult q i s o).issues ++ (buildBPResult q i s o).suggestions ++
            (buildBPResult q i s o).optimizations).any
          (fun x => x.severity = "warning") then "WARNING"
       else if ((buildBPResult q i s o).suggestions ++
            (buildBPResult q i s o).optimizations).any
          (fun x => x.severity = "info") then "CAN_BE_IMPROVED"
       else "OPTIMIZED") := by
  show (if (i ++ s ++ o).any (fun x => x.severity = "error") = true then "ERROR"
    else if (i ++ s ++ o).any (fun x => x.severity = "warning") = true then "WARNING"
    else if (!o.isEmpty || !s.isEmpty) = true then "CAN_BE_IMPROVED"
    else "OPTIMIZED") =
    (if (i ++ s ++ o).any (fun x => x.severity = "error") = true then "ERROR"
    else if (i ++ s ++ o).any (fun x => x.severity = "warning") = true then "WARNING"
    else if (s ++ o).any (fun x => x.severity = "info") = true then "CAN_BE_IMPROVED"
    else "OPTIMIZED")
  have hror : (!o.isEmpty || !s.isEmpty) = (s ++ o).any (fun x => x.severity = "info") := by
    cases hso : s ++ o with
    | nil =>
      obtain ⟨rfl, rfl⟩ := List.append_eq_nil.mp hso
      rfl
    | cons e es =>
      have he : e.severity = "info" := by
        have hmem : e ∈ s ++ o := by
          rw [hso]
          exact List.mem_cons_self _ _
        rcases List.mem_append.mp hmem with hm | hm
        · exact hs e hm
        · exact ho e hm
      have hany : (e :: es).any (fun x => x.severity = "info") = true := by
        simp [List.any_cons, he]
      rw [hany]
      cases s with
      | nil =>
        cases o with
        | nil => simp at hso
        | cons o1 os => rfl
      | cons s1 ss => simp
  rw [hror]

/-- C2: the status of the best-practices report is `ERROR` if any collected
finding has severity `error`; else `WARNING` if any has severity `warning`;
else `CAN_BE_IMPROVED` if at least one info-level suggestion or optimization
was collected; else `OPTIMIZED` (every suggestion and optimization the
checker emits is info-severity, so the code's non-emptiness test coincides
with the claim's "info-level" test). -/
theorem claim_C2_status (s : String) :
    (check s).status =
      (if ((check s).issues ++ (check s).suggestions ++ (check s).optimizations).any
          (fun x => x.severity = "error") then "ERROR"
       else if ((check s).issues ++ (check s).suggestions ++ (check s).optimizations).any
          (fun x => x.severity = "warning") then "WARNING"
       else if ((check s).suggestions ++ (check s).optimizations).any
          (fun x => x.severity = "info") then "CAN_BE_IMPROVED"
       else "OPTIMIZED") := by
  unfold check
  dsimp only
  split
  · exact buildBPResult_status_claim _ _ _ _ (fun e h => absurd h (List.not_mem_nil e))
      (fun e h => absurd h (List.not_mem_nil e))
  · exact buildBPResult_status_claim _ _ _ _
      (bpSuggestions_info (pyStrip s.data)) (bpOptimizations_info (pyStrip s.data))

/-! ## C3: averaging pre-calculated quantiles -/

theorem isPrefixOf_append (p Y : List Char) : p.isPrefixOf (p ++ Y) = true :=
  List.isPrefixOf_iff_prefix.mpr (List.prefix_append p Y)

theorem quantScan_complete :
    ∀ (c : List Char) (w2 e : List Char), (∀ x ∈ c, ¬(x = '}')) →
      (∀ x ∈ w2, isPySpace x = true) →
      quantScan (c ++ ('q':: 'u':: 'a':: 'n':: 't':: 'i':: 'l':: 'e' :: (w2 ++ '=' :: e))) = true := by
  intro c
  induction c with
  | nil =>
    intro w2 e _ hw2
    show (("quantile".data.isPrefixOf
        ('q':: 'u':: 'a':: 'n':: 't':: 'i':: 'l':: 'e' :: (w2 ++ '=' :: e)) &&
      (((('q':: 'u':: 'a':: 'n':: 't':: 'i':: 'l':: 'e' :: (w2 ++ '=' :: e)).drop 8).dropWhile
          isPySpace).head? == some '=')) ||
      (if ('q' : Char) = '}' then false
       else quantScan ('u':: 'a':: 'n':: 't':: 'i':: 'l':: 'e' :: (w2 ++ '=' :: e)))) = true
    rw [show ('q':: 'u':: 'a':: 'n':: 't':: 'i':: 'l':: 'e' :: (w2 ++ '=' :: e)).drop 8 =
        w2 ++ '=' :: e from rfl,
      dropWhile_append_all hw2, List.dropWhile_cons_of_neg (by decide)]
    rw [show ('q':: 'u':: 'a':: 'n':: 't':: 'i':: 'l':: 'e' :: (w2 ++ '=' :: e)) =
      "quantile".data ++ (w2 ++ '=' :: e) from rfl, isPrefixOf_append]
    rfl
  | cons x xs ih =>
    intro w2 e hc hw2
    have hx : ¬(x = '}') := hc x (List.mem_cons_self x xs)
    show ((("quantile".data.isPrefixOf
        (x :: (xs ++ ('q':: 'u':: 'a':: 'n':: 't':: 'i':: 'l':: 'e' :: (w2 ++ '=' :: e)))) &&
        _) : Bool) ||
      (if x = '}' then false
       else quantScan (xs ++ ('q':: 'u':: 'a':: 'n':: 't':: 'i':: 'l':: 'e' :: (w2 ++ '=' :: e))))) = true
    rw [if_neg hx, ih w2 e (fun y hy => hc y (List.mem_cons_of_mem x hy)) hw2,
      Bool.or_true]

theorem braceScan_complete :
    ∀ (b rest : List Char), (∀ x ∈ b, ¬(x = ')')) → quantScan rest = true →
      braceScan (b ++ '{' :: rest) = true := by
  intro b
  induction b with
  | nil =>
    intro rest _ hq
    show (if ('{' : Char) = ')' then false
      else if ('{' : Char) = '{' then quantScan rest || braceScan rest
      else braceScan rest) = true
    rw [if_neg (show ¬(('{' : Char) = ')') from by decide), if_pos rfl, hq]
    rfl
  | cons x xs ih =>
    intro rest hb hq
    have hx : ¬(x = ')') := hb x (List.mem_cons_self x xs)
    show (if x = ')' then false
      else if x = '{' then
        quantScan (xs ++ '{' :: rest) || braceScan (xs ++ '{' :: rest)
      else braceScan (xs ++ '{' :: rest)) = true
    rw [if_neg hx]
    by_cases hbr : x = '{'
    · rw [if_pos hbr, ih rest (fun y hy => hb y (List.mem_cons_of_mem x hy)) hq,
        Bool.or_true]
    · rw [if_neg hbr]
      exact ih rest (fun y hy => hb y (List.mem_cons_of_mem x hy)) hq

theorem searchPlain_suffix (M : List Char → Bool) :
    ∀ (a l : List Char), searchPlain M l = true → searchPlain M (a ++ l) = true := by
  intro a
  induction a with
  | nil => intro l h; exact h
  | cons x xs ih =>
    intro l h
    show (M (x :: (xs ++ l)) || searchPlain M (xs ++ l)) = true
    rw [ih l h, Bool.or_true]

theorem matchAvgQAt_complete (w1 b c w2 e : List Char)
    (hw1 : ∀ x ∈ w1, isPySpace x = true) (hw2 : ∀ x ∈ w2, isPySpace x = true)
    (hb : ∀ x ∈ b, ¬(x = ')')) (hc : ∀ x ∈ c, ¬(x = '}')) :
    matchAvgQAt ('a' :: 'v' :: 'g' :: (w1 ++ '(' :: (b ++ '{' ::
      (c ++ 'q':: 'u':: 'a':: 'n':: 't':: 'i':: 'l':: 'e' :: (w2 ++ '=' :: e))))) = true := by
  unfold matchAvgQAt
  rw [show ('a' :: 'v' :: 'g' :: (w1 ++ '(' :: (b ++ '{' ::
      (c ++ 'q':: 'u':: 'a':: 'n':: 't':: 'i':: 'l':: 'e' :: (w2 ++ '=' :: e))))).drop 3 =
    w1 ++ '(' :: (b ++ '{' ::
      (c ++ 'q':: 'u':: 'a':: 'n':: 't':: 'i':: 'l':: 'e' :: (w2 ++ '=' :: e))) from rfl,
    dropWhile_append_all hw1, List.dropWhile_cons_of_neg (by decide)]
  show (("avg".data.isPrefixOf ('a' :: 'v' :: 'g' :: (w1 ++ '(' :: (b ++ '{' ::
      (c ++ 'q':: 'u':: 'a':: 'n':: 't':: 'i':: 'l':: 'e' :: (w2 ++ '=' :: e))))) : Bool) &&
    braceScan (b ++ '{' ::
      (c ++ 'q':: 'u':: 'a':: 'n':: 't':: 'i':: 'l':: 'e' :: (w2 ++ '=' :: e)))) = true
  rw [braceScan_complete b _ hb (quantScan_complete c w2 e hc hw2)]
  rw [show ('a' :: 'v' :: 'g' :: (w1 ++ '(' :: (b ++ '{' ::
      (c ++ 'q':: 'u':: 'a':: 'n':: 't':: 'i':: 'l':: 'e' :: (w2 ++ '=' :: e))))) =
    "avg".data ++ (w1 ++ '(' :: (b ++ '{' ::
      (c ++ 'q':: 'u':: 'a':: 'n':: 't':: 'i':: 'l':: 'e' :: (w2 ++ '=' :: e)))) from rfl,
    isPrefixOf_append]
  rfl

theorem check_issues_eq (s : String) (hq : ¬((pyStrip s.data).isEmpty = true)) :
    (check s).issues = bpIssues (pyStrip s.data) := by
  unfold check
  dsimp only
  rw [if_neg hq]
  rfl

theorem buildBPResult_status_error {q : List Char} {i s o : List BFinding}
    {e : BFinding} (he : e ∈ i) (hs : e.severity = "error") :
    (buildBPResult q i s o).status = "ERROR" := by
  show (if (i ++ s ++ o).any (fun x => x.severity = "error") = true then "ERROR"
    else if (i ++ s ++ o).any (fun x => x.severity = "warning") = true then "WARNING"
    else if (!o.isEmpty || !s.isEmpty) = true then "CAN_BE_IMPROVED"
    else "OPTIMIZED") = "ERROR"
  rw [if_pos (List.any_eq_true.mpr
    ⟨e, List.mem_append_left _ (List.mem_append_left _ he), by simp [hs]⟩)]

theorem check_status_error {s : String} {e : BFinding}
    (he : e ∈ (check s).issues) (hsev : e.severity = "error") :
    (check s).status = "ERROR" := by
  by_cases hq : (pyStrip s.data).isEmpty = true
  · have hnil : (check s).issues = [] := by
      unfold check
      dsimp only
      rw [if_pos hq]
      rfl
    rw [hnil] at he
    exact absurd he (List.not_mem_nil e)
  · have h1 : (check s).issues = bpIssues (pyStrip s.data) := check_issues_eq s hq
    have h2 : (check s).status = (buildBPResult (pyStrip s.data)
        (bpIssues (pyStrip s.data)) (bpSuggestions (pyStrip s.data))
        (bpOptimizations (pyStrip s.data))).status := by
      unfold check
      dsimp only
      rw [if_neg hq]
    rw [h2]
    exact buildBPResult_status_error (h1 ▸ he) hsev

/-- C3: whenever `avg(` is applied (per the code's regex
`avg\s*\([^)]*\{[^}]*quantile\s*=`) to a selector containing a `quantile=`
label filter, `check` produces the error-severity `averaging_quantiles`
finding; and on `avg(my_metric{quantile="0.99"})` the finding lists contain
exactly one error-severity finding, of type `averaging_quantiles`, with
overall status `ERROR`. -/
theorem claim_C3_averaging_quantiles :
    (∀ (s : String) (a w1 b c w2 e : List Char),
      pyStrip s.data = a ++ 'a' :: 'v' :: 'g' :: (w1 ++ '(' :: (b ++ '{' ::
        (c ++ 'q':: 'u':: 'a':: 'n':: 't':: 'i':: 'l':: 'e' :: (w2 ++ '=' :: e)))) →
      (∀ x ∈ w1, isPySpace x = true) → (∀ x ∈ w2, isPySpace x = true) →
      (∀ x ∈ b, ¬(x = ')')) → (∀ x ∈ c, ¬(x = '}')) →
      averagingQuantiles ∈ (check s).issues ∧ (check s).status = "ERROR") ∧
    ((check "avg(my_metric\x7bquantile=\"0.99\"\x7d)").issues = [averagingQuantiles] ∧
     ((check "avg(my_metric\x7bquantile=\"0.99\"\x7d)").issues ++
       (check "avg(my_metric\x7bquantile=\"0.99\"\x7d)").suggestions ++
       (check "avg(my_metric\x7bquantile=\"0.99\"\x7d)").optimizations).filter
        (fun x => x.severity = "error") = [averagingQuantiles] ∧
     (check "avg(my_metric\x7bquantile=\"0.99\"\x7d)").status = "ERROR") := by
  constructor
  · intro s a w1 b c w2 e hdec hw1 hw2 hb hc
    have hne : ¬((pyStrip s.data).isEmpty = true) := by
      rw [hdec, isEmpty_append_cons]
      exact Bool.false_ne_true
    have hsearch : searchAvgQuantile (pyStrip s.data) = true := by
      rw [hdec]
      unfold searchAvgQuantile
      apply searchPlain_suffix
      show (matchAvgQAt ('a' :: 'v' :: 'g' :: (w1 ++ '(' :: (b ++ '{' ::
          (c ++ 'q':: 'u':: 'a':: 'n':: 't':: 'i':: 'l':: 'e' :: (w2 ++ '=' :: e))))) ||
        searchPlain matchAvgQAt ('v' :: 'g' :: (w1 ++ '(' :: (b ++ '{' ::
          (c ++ 'q':: 'u':: 'a':: 'n':: 't':: 'i':: 'l':: 'e' :: (w2 ++ '=' :: e)))))) = true
      rw [matchAvgQAt_complete w1 b c w2 e hw1 hw2 hb hc]
      rfl
    have hmem : averagingQuantiles ∈ bpIssues (pyStrip s.data) := by
      unfold bpIssues
      refine List.mem_append_left _ (List.mem_append_left _ (List.mem_append_left _
        (List.mem_append_left _ (List.mem_append_left _ (List.mem_append_left _
        (List.mem_append_left _ (List.mem_append_left _ (List.mem_append_left _
        (List.mem_append_left _ ?_)))))))))
      refine List.mem_append_right _ ?_
      unfold checkAveragingQuantiles
      rw [if_pos hsearch]
      exact List.mem_cons_self _ _
    have hmem2 : averagingQuantiles ∈ (check s).issues := by
      rw [check_issues_eq s hne]
      exact hmem
    exact ⟨hmem2, check_status_error hmem2 rfl⟩
  · decide

/-- C3 (witness): the universal half applied to the decomposition of
`avg(my_metric{quantile="0.99"})`. -/
theorem claim_C3_witness :
    pyStrip "avg(my_metric\x7bquantile=\"0.99\"\x7d)".data =
      [] ++ 'a' :: 'v' :: 'g' :: ([] ++ '(' :: ("my_metric".data ++ '{' ::
        ([] ++ 'q':: 'u':: 'a':: 'n':: 't':: 'i':: 'l':: 'e' ::
          ([] ++ '=' :: "\"0.99\"\x7d)".data)))) ∧
    averagingQuantiles ∈ (check "avg(my_metric\x7bquantile=\"0.99\"\x7d)").issues ∧
    (check "avg(my_metric\x7bquantile=\"0.99\"\x7d)").status = "ERROR" :=
  ⟨by decide,
   claim_C3_averaging_quantiles.1 "avg(my_metric\x7bquantile=\"0.99\"\x7d)"
     [] [] "my_metric".data [] [] "\"0.99\"\x7d)".data
     (by decide) (by decide) (by decide) (by decide) (by decide)⟩

/-- C8: `check` and `validate` are pure functions of the query string: two
invocations on the same string (each modeling a fresh checker instance with
freshly initialized finding lists) produce identical reports. -/
theorem claim_C8_determinism (s t : String) (h : s = t) :
    check s = check t ∧ validate s = validate t := by
  subst h
  exact ⟨rfl, rfl⟩

/-- C8 (witness): two invocations on the literal query `rate(x_total[5m])`. -/
theorem claim_C8_witness :
    "rate(x_total[5m])" = "rate(x_total[5m])" ∧
    (check "rate(x_total[5m])" = check "rate(x_total[5m])" ∧
     validate "rate(x_total[5m])" = validate "rate(x_total[5m])") :=
  ⟨rfl, claim_C8_determinism "rate(x_total[5m])" "rate(x_total[5m])" rfl⟩

/-! ## Azure Pipelines validator: `_validate_structure` -/

/-- `ValidationError(severity, line, message, rule)`. -/
structure AzError where
  severity : String
  line : Nat
  message : String
  rule : String
deriving DecidableEq

/-- The inputs `_validate_structure` reads: presence of the four root keys in
`self.config` and the `_get_line` lookup. -/
structure AzConfig where
  hasStages : Bool
  hasJobs : Bool
  hasSteps : Bool
  hasExtends : Bool
  getLine : String → Nat

/-- `AzurePipelinesValidator._validate_structure` (the errors it appends). -/
def validateStructure (cfg : AzConfig) : List AzError :=
  if cfg.hasExtends then []
  else
    (if !(cfg.hasStages || cfg.hasJobs || cfg.hasSteps) then
      [{ severity := "error", line := 1
         message := "Pipeline must define stages, jobs, or steps"
         rule := "missing-pipeline-content" }]
     else [])
    ++ (if cfg.hasStages && cfg.hasJobs then
      [{ severity := "error", line := cfg.getLine "jobs"
         message := "Cannot define both stages and jobs at root level"
         rule := "invalid-hierarchy" }]
     else [])
    ++ (if cfg.hasStages && cfg.hasSteps then
      [{ severity := "error", line := cfg.getLine "steps"
         message := "Cannot define both stages and steps at root level"
         rule := "invalid-hierarchy" }]
     else [])
    ++ (if cfg.hasJobs && cfg.hasSteps then
      [{ severity := "error", line := cfg.getLine "steps"
         message := "Cannot define both jobs and steps at root level"
         rule := "invalid-hierarchy" }]
     else [])

/-- A root with both `stages:` and `jobs:` but also `extends:`. -/
def azBoth : AzConfig := ⟨true, true, false, true, fun _ => 0⟩

/-- A root with only `steps:`. -/
def azStepsOnly : AzConfig := ⟨false, false, true, false, fun _ => 0⟩

/-- A root with `stages:` and `jobs:` and no `extends:`. -/
def azMix : AzConfig := ⟨true, true, false, false, fun _ => 0⟩

/-- C9 (amended): with no `extends:` at root, a steps-only root passes the
structure validation with no error at all (in particular no
`missing-pipeline-content` or `invalid-hierarchy`), and a root with both
`stages:` and `jobs:` receives an error-severity `invalid-hierarchy` error
(the original claim's second half omitted "and no extends:", see the
counterexample). -/
theorem claim_C9_amended (cfg : AzConfig) :
    (cfg.hasSteps = true → cfg.hasStages = false → cfg.hasJobs = false →
      cfg.hasExtends = false →
      ∀ e ∈ validateStructure cfg,
        ¬(e.rule = "missing-pipeline-content" ∨ e.rule = "invalid-hierarchy")) ∧
    (cfg.hasStages = true → cfg.hasJobs = true → cfg.hasExtends = false →
      ∃ e ∈ validateStructure cfg,
        e.rule = "invalid-hierarchy" ∧ e.severity = "error") := by
  constructor
  · intro h1 h2 h3 h4
    have hnil : validateStructure cfg = [] := by
      unfold validateStructure
      rw [if_neg (show ¬(cfg.hasExtends = true) from by
        rw [h4]; exact Bool.false_ne_true)]
      rw [h1, h2, h3]
      rw [if_neg (by decide), if_neg (by decide), if_neg (by decide),
        if_neg (by decide)]
      rfl
    rw [hnil]
    intro e he
    exact absurd he (List.not_mem_nil e)
  · intro h1 h2 h4
    refine ⟨{ severity := "error", line := cfg.getLine "jobs"
              message := "Cannot define both stages and jobs at root level"
              rule := "invalid-hierarchy" }, ?_, rfl, rfl⟩
    unfold validateStructure
    rw [if_neg (show ¬(cfg.hasExtends = true) from by
      rw [h4]; exact Bool.false_ne_true)]
    rw [h1, h2]
    refine List.mem_append_left _ (List.mem_append_left _ (List.mem_append_right _ ?_))
    rw [if_pos (show ((true && true : Bool) = true) from by decide)]
    exact List.mem_cons_self _ _

/-- C9 (counterexample): a root with both `stages:` and `jobs:` but also
`extends:` gets no `invalid-hierarchy` error at all: `_validate_structure`
returns early for template pipelines, refuting the unconditional second half
of the claim. -/
theorem claim_C9_counterexample :
    (azBoth.hasStages = true ∧ azBoth.hasJobs = true) ∧
    validateStructure azBoth = [] ∧
    ¬(∃ e ∈ validateStructure azBoth, e.rule = "invalid-hierarchy") :=
  ⟨⟨rfl, rfl⟩, rfl, fun ⟨e, he, _⟩ => absurd he (List.not_mem_nil e)⟩

/-- C9 (witness): the amended theorem at a steps-only root and at a
stages-plus-jobs root. -/
theorem claim_C9_witness :
    (azStepsOnly.hasSteps = true ∧ azStepsOnly.hasStages = false ∧
     azStepsOnly.hasJobs = false ∧ azStepsOnly.hasExtends = false ∧
     azMix.hasStages = true ∧ azMix.hasJobs = true ∧ azMix.hasExtends = false) ∧
    (∀ e ∈ validateStructure azStepsOnly,
      ¬(e.rule = "missing-pipeline-content" ∨ e.rule = "invalid-hierarchy")) ∧
    (∃ e ∈ validateStructure azMix,
      e.rule = "invalid-hierarchy" ∧ e.severity = "error") :=
  ⟨⟨rfl, rfl, rfl, rfl, rfl, rfl, rfl⟩,
   (claim_C9_amended azStepsOnly).1 rfl rfl rfl rfl,
   (claim_C9_amended azMix).2 rfl rfl rfl⟩

end PromQL
